import Mathlib

/-!
# Waste-Wise: the dual-belt conveyor simulation

A shallow embedding of `frontend/src/pages/ConveyorSimulation.jsx`.

* Coordinates, velocities and the values of `Math.random()` are exact rationals.
* `Date.now()` readings are integers (milliseconds); each one is an input.
* `Math.sqrt` is an input function `sqrt : ℚ → ℚ` of the inspection-belt updater. The
  `scrapping` branch is also given over any ordered field (`scrapStep`), so that its
  behaviour can be stated in real arithmetic with the real square root.
* The counters of the stats are natural numbers. The recovery percentage is computed as
  JavaScript computes it: a quotient and a product of IEEE 754 binary64 numbers
  (`toDouble`, round to nearest, ties to even), then `Math.round`.
* A React state setter called with an updater function queues that function; the
  queues of one animation frame are run in the order in which the calls were made.
  One frame therefore runs the main-belt updater on the main-belt list, then the
  inspection-belt updater on the inspection-belt list, and the appends queued by
  either updater (hand-off to the other belt) land behind the other list's updater.
* The canvas drawing calls do not touch the simulation state and are left out.

The quiz of `frontend/src/pages/Learn.jsx` is embedded in the section on the Learn page.
-/

namespace WasteWise

/-! ## Constants -/

def CANVAS_WIDTH : ℚ := 1400
def CANVAS_HEIGHT : ℚ := 600
def MAIN_BELT_Y : ℚ := 150
def INSPECTION_BELT_Y : ℚ := 400
def OBJECT_SPEED : ℚ := 1.2
def INSPECTION_SCAN_DURATION : Int := 3000

/-! ## Data model -/

/-- An entry of the `RECYCLABLES` catalog (the rendering-only `imageSrc` / `emoji` are omitted). -/
structure Template where
  type : String
  name : String
  color : String
  size : Nat
  deriving DecidableEq, Repr

/-- An entry of the `CONTAMINANTS` catalog (the rendering-only `emoji` is omitted). -/
structure Contaminant where
  type : String
  name : String
  color : String
  size : Nat
  severity : String
  deriving DecidableEq, Repr

def RECYCLABLES : List Template :=
  [ ⟨"plastic_bottle", "Plastic Bottle", "#4CAF50", 50⟩,
    ⟨"plastic_bag", "Plastic Bag", "#4CAF50", 45⟩,
    ⟨"paper", "Paper", "#4CAF50", 48⟩,
    ⟨"cardboard", "Cardboard", "#4CAF50", 45⟩,
    ⟨"metal", "Metal Scrap", "#4CAF50", 40⟩,
    ⟨"glass", "Glass Bottle", "#4CAF50", 40⟩,
    ⟨"food_scraps", "Food Scraps", "#4CAF50", 42⟩,
    ⟨"textiles", "Textiles", "#4CAF50", 40⟩,
    ⟨"yard_waste", "Yard Waste", "#4CAF50", 42⟩,
    ⟨"medical_ppe", "Non-infectious PPE", "#4CAF50", 40⟩ ]

def CONTAMINANTS : List Contaminant :=
  [ ⟨"medical_gloves", "Soiled Gloves", "#FF5722", 40, "high"⟩,
    ⟨"needles", "Sharps/Needles", "#D32F2F", 40, "critical"⟩,
    ⟨"chemicals", "Chemical Solvents", "#9C27B0", 40, "high"⟩,
    ⟨"battery", "Batteries", "#FF9800", 40, "medium"⟩,
    ⟨"biohazard", "Infectious Material", "#F44336", 40, "critical"⟩,
    ⟨"pharma", "Expired Pharmaceuticals", "#E91E63", 40, "high"⟩ ]

/-- The values of the `state` field of an item. -/
inductive ItemState where
  | moving
  | diverting
  | inspecting
  | returning
  | scrapping
  deriving DecidableEq, Repr

/-- An object on one of the two belts. A field that the JavaScript object may lack
(`undefined`) is an `Option`. -/
structure Item where
  id : ℚ
  type : String
  name : String
  color : String
  size : Nat
  x : ℚ
  y : ℚ
  velocity : ℚ
  state : ItemState
  contaminated : Bool
  contaminant : Option Contaminant
  canBeCleaned : Option Bool
  inspectionStartTime : Option Int
  inspectionX : Option ℚ
  scanPulse : Option ℚ
  deriving DecidableEq, Repr

structure Stats where
  totalProcessed : Nat
  diverted : Nat
  cleaned : Nat
  scrapped : Nat
  recovered : Nat
  recoveryPercentage : Int
  deriving DecidableEq, Repr

/-- An entry of the event log; `time` stands for the formatted clock reading. -/
structure Event where
  id : Int
  message : String
  time : Int
  deriving DecidableEq, Repr

/-- The React state of the component together with the `isRunningRef` ref. -/
structure SimState where
  isRunning : Bool
  isRunningRef : Bool
  mainBeltObjects : List Item
  inspectionBeltObjects : List Item
  stats : Stats
  events : List Event
  deriving DecidableEq, Repr

/-- A value returned by `Math.random()`: a number in `[0, 1)`. -/
structure Rand where
  val : ℚ
  nonneg : 0 ≤ val
  lt_one : val < 1

def initialStats : Stats :=
  { totalProcessed := 0, diverted := 0, cleaned := 0, scrapped := 0, recovered := 0,
    recoveryPercentage := 100 }

def initialState : SimState :=
  { isRunning := false, isRunningRef := false, mainBeltObjects := [],
    inspectionBeltObjects := [], stats := initialStats, events := [] }

/-! ## Event recorder -/

/-- The updater queued by `addEvent(message)`, run at clock reading `now`. -/
def addEvent (now : Int) (message : String) (prev : List Event) : List Event :=
  { id := now, message := message, time := now } :: prev.take 5

/-- Runs the queued `addEvent` updaters in order; the `k`-th one reads the clock `clock k`. -/
def addEvents (clock : Nat → Int) : Nat → List String → List Event → List Event
  | _, [], evs => evs
  | k, m :: ms, evs => addEvents clock (k + 1) ms (addEvent (clock k) m evs)

/-! ## Stats updaters -/

/-- The power `2 ^ e` for an integer exponent. -/
def pow2 (e : Int) : ℚ := if 0 ≤ e then (2 ^ e.toNat : ℚ) else 1 / (2 ^ (-e).toNat : ℚ)

/-- The number of binary digits of `n`, computed with at most `fuel` halvings. -/
def bitLengthAux : Nat → Nat → Nat
  | 0, _ => 0
  | fuel + 1, n => if n = 0 then 0 else bitLengthAux fuel (n / 2) + 1

/-- The number of binary digits of `n`: `2 ^ (bitLength n - 1) <= n < 2 ^ bitLength n`. -/
def bitLength (n : Nat) : Nat := bitLengthAux n n

/-- The exponent of a positive magnitude in binary64: the `e` with `2 ^ e <= q < 2 ^ (e + 1)`
for a normal magnitude, `-1022` for a magnitude below `2 ^ (-1022)`. The difference `k` of
the bit lengths of numerator and denominator satisfies `2 ^ (k - 1) < q < 2 ^ (k + 1)`. -/
def binade (q : ℚ) : Int :=
  let k : Int := (bitLength q.num.natAbs : Int) - (bitLength q.den : Int)
  max (if pow2 k ≤ q then k else k - 1) (-1022)

/-- The nearest integer, a half rounded to the even neighbour. -/
def roundHalfEven (m : ℚ) : Int :=
  if m - ⌊m⌋ < 1 / 2 then ⌊m⌋
  else if 1 / 2 < m - ⌊m⌋ then ⌊m⌋ + 1
  else if ⌊m⌋ % 2 = 0 then ⌊m⌋ else ⌊m⌋ + 1

/-- The binary64 value nearest to a positive magnitude (round to nearest, ties to even): the
magnitude is rounded to a multiple of the spacing `2 ^ (e - 52)` of its binade. -/
def roundMagnitude (a : ℚ) : ℚ :=
  (roundHalfEven (a / pow2 (binade a - 52)) : ℚ) * pow2 (binade a - 52)

/-- The IEEE 754 binary64 value that a JavaScript arithmetic operation returns when its exact
result is `q`. Results of magnitude `2 ^ 1024` or more (`Infinity`) are not modelled. -/
def toDouble (q : ℚ) : ℚ :=
  if q = 0 then 0 else if q < 0 then -roundMagnitude (-q) else roundMagnitude q

/-- JavaScript `a / b` on doubles, for `b` other than 0. -/
def jsDiv (a b : ℚ) : ℚ := toDouble (a / b)

/-- JavaScript `a * b` on doubles. -/
def jsMul (a b : ℚ) : ℚ := toDouble (a * b)

/-- JavaScript `Math.round` of a double whose exact value is `q`: the nearest integer, a
half rounded up. -/
def mathRound (q : ℚ) : Int := ⌊q + 1 / 2⌋

/-- JavaScript `v || 0` on a number. -/
def orZero (v : Int) : Int := if v = 0 then 0 else v

/-- The four updater functions that the simulation passes to `setStats`. -/
inductive StatsUpdate where
  | exit          -- a clean item left the main belt
  | cleaned       -- an inspected item was resolved as cleaned
  | scrapped      -- an inspected item was resolved as unsalvageable
  | scrapArrival  -- a scrapping item reached the scrap bin
  deriving DecidableEq, Repr

/-- The four updaters. The counters are JavaScript numbers that hold integers (exact below
`2 ^ 53`); the percentage is the `Math.round` of a quotient and a product of doubles. -/
def StatsUpdate.apply : StatsUpdate → Stats → Stats
  | .exit, s =>
    { s with
      totalProcessed := s.totalProcessed + 1
      recovered := s.recovered + 1
      recoveryPercentage :=
        mathRound (jsMul (jsDiv (s.recovered + 1 : ℚ) (s.totalProcessed + 1 : ℚ)) 100) }
  | .cleaned, s => { s with diverted := s.diverted + 1, cleaned := s.cleaned + 1 }
  | .scrapped, s => { s with diverted := s.diverted + 1, scrapped := s.scrapped + 1 }
  | .scrapArrival, s =>
    { s with
      totalProcessed := s.totalProcessed + 1
      recoveryPercentage :=
        orZero (mathRound (jsMul (jsDiv (s.recovered : ℚ) (s.totalProcessed + 1 : ℚ)) 100)) }

/-- Runs the queued `setStats` updaters in order. -/
def applyStatsUpdates : List StatsUpdate → Stats → Stats
  | [], s => s
  | u :: us, s => applyStatsUpdates us (u.apply s)

/-! ## Event messages -/

def spawnMessage (templateName contaminantName : String) : String :=
  "⚠️ Contaminated " ++ templateName ++ " detected (" ++ contaminantName ++ ")"

def divertMessage (name : String) : String :=
  "🔻 Diverting " ++ name ++ " to inspection belt"

def scanMessage (name : String) : String :=
  "🔬 Scanning " ++ name ++ " for contamination..."

def cleanedMessage (name : String) : String :=
  "✅ " ++ name ++ " cleaned successfully - returning to main belt"

def scrapMessage (name : String) : String :=
  "❌ " ++ name ++ " unsalvageable - sending to scrap"

def startMessage : String := "✅ Dual-belt system started"

def stopMessage : String := "⏸️ System paused"

def resetMessage : String := "🔄 System reset"

/-! ## Spawner -/

/-- The clock readings and `Math.random()` values consumed by one call of the spawn timer. -/
structure SpawnDraws where
  now : Int
  rTemplate : Rand
  rContaminated : Rand
  rId : Rand
  rContaminant : Rand
  rCanBeCleaned : Rand
  eventNow : Int

/-- The index `Math.floor(Math.random() * length)`. -/
def randomIndex (r : Rand) (length : Nat) : Nat := (⌊r.val * (length : ℚ)⌋).toNat

/-- The function `spawnRecyclable`: the new item and the messages passed to `addEvent`. -/
def spawnRecyclable (d : SpawnDraws) : Item × List String :=
  let template := RECYCLABLES.getD (randomIndex d.rTemplate RECYCLABLES.length) ⟨"", "", "", 0⟩
  let isContaminated : Bool := decide (d.rContaminated.val < 0.1)
  let item : Item :=
    { id := (d.now : ℚ) + d.rId.val
      type := template.type
      name := template.name
      color := template.color
      size := template.size
      x := 0
      y := MAIN_BELT_Y
      velocity := OBJECT_SPEED
      state := ItemState.moving
      contaminated := isContaminated
      contaminant := none
      canBeCleaned := none
      inspectionStartTime := none
      inspectionX := none
      scanPulse := none }
  if isContaminated then
    let contaminant :=
      CONTAMINANTS.getD (randomIndex d.rContaminant CONTAMINANTS.length) ⟨"", "", "", 0, ""⟩
    ({ item with
        contaminant := some contaminant
        canBeCleaned := some (decide (d.rCanBeCleaned.val > 0.3)) },
      [spawnMessage template.name contaminant.name])
  else
    (item, [])

/-- One firing of the spawn timer: `setMainBeltObjects(prev => [...prev, spawnRecyclable()])`. -/
def spawnStep (d : SpawnDraws) (s : SimState) : SimState :=
  let r := spawnRecyclable d
  { s with
    mainBeltObjects := s.mainBeltObjects ++ [r.1]
    events := addEvents (fun _ => d.eventNow) 0 r.2 s.events }

/-! ## Main belt updater -/

/-- What the main-belt `map` callback does for one object: the value it returns (`none` for
`null`), the object it appends to the inspection belt, and the `setStats` updaters and
`addEvent` messages it queues. -/
structure MainStep where
  kept : Option Item
  toInspection : Option Item
  statsUpdates : List StatsUpdate
  messages : List String
  deriving DecidableEq, Repr

/-- The last block of the main-belt callback: "Remove if reached end". -/
def exitCheck (newObj : Item) (messages : List String) : MainStep :=
  if newObj.x > CANVAS_WIDTH ∧ newObj.state = ItemState.moving then
    { kept := none, toInspection := none,
      statsUpdates := if newObj.contaminated then [] else [StatsUpdate.exit],
      messages := messages }
  else
    { kept := some newObj, toInspection := none, statsUpdates := [], messages := messages }

/-- The callback of `prev.map` in the main-belt updater, for one object; `now` is the value
of `Date.now()` and `r` the value of `Math.random()` read at the hand-off. -/
def updateMainObj (now : Int) (r : Rand) (obj : Item) : MainStep :=
  -- Check if contaminated item should divert to inspection
  let divert : Bool :=
    obj.contaminated && decide (obj.x > 600) && decide (obj.x < 650)
      && decide (obj.state = ItemState.moving)
  let o1 : Item := if divert then { obj with state := ItemState.diverting } else obj
  let ev1 : List String := if divert then [divertMessage o1.name] else []
  -- Handle different states
  if o1.state = ItemState.moving then
    exitCheck { o1 with x := o1.x + o1.velocity } ev1
  else if o1.state = ItemState.diverting then
    let o2 : Item := { o1 with y := o1.y + 4, x := o1.x + 1 }
    if o2.y ≥ INSPECTION_BELT_Y then
      let o3 : Item :=
        { o2 with
          y := INSPECTION_BELT_Y
          state := ItemState.inspecting
          inspectionStartTime := some now
          inspectionX := some (400 + r.val * 400) }
      { kept := none, toInspection := some o3, statsUpdates := [],
        messages := ev1 ++ [scanMessage o3.name] }
    else
      exitCheck o2 ev1
  else
    exitCheck o1 ev1

/-! ## Inspection belt updater -/

/-- What the inspection-belt `map` callback does for one object. -/
structure InspStep where
  kept : Option Item
  toMain : Option Item
  statsUpdates : List StatsUpdate
  messages : List String
  deriving DecidableEq, Repr

/-- The test `elapsed > INSPECTION_SCAN_DURATION`; `none` is the `NaN` obtained when the
object has no `inspectionStartTime`, for which every comparison is false. -/
def scanDone : Option Int → Bool
  | some elapsed => decide (elapsed > INSPECTION_SCAN_DURATION)
  | none => false

/-- The callback of `prev.map` in the inspection-belt updater, for one object; `now` is the
value of `Date.now()` read for this object and `sqrt` is `Math.sqrt`. -/
def updateInspectionObj (sqrt : ℚ → ℚ) (now : Int) (obj : Item) : InspStep :=
  match obj.state with
  | ItemState.inspecting =>
    let elapsed : Option Int := obj.inspectionStartTime.map (fun t => now - t)
    -- Deep scan animation (pulsing)
    let o1 : Item :=
      { obj with scanPulse := elapsed.map (fun e => ((Int.tmod e 1000 : Int) : ℚ) / 1000) }
    -- After scan duration, decide fate
    if scanDone elapsed then
      if o1.canBeCleaned = some true then
        { kept := some { o1 with state := ItemState.returning, contaminated := false },
          toMain := none, statsUpdates := [StatsUpdate.cleaned],
          messages := [cleanedMessage o1.name] }
      else
        { kept := some { o1 with state := ItemState.scrapping },
          toMain := none, statsUpdates := [StatsUpdate.scrapped],
          messages := [scrapMessage o1.name] }
    else
      { kept := some o1, toMain := none, statsUpdates := [], messages := [] }
  | ItemState.returning =>
    -- Move back up to main belt
    let o1 : Item := { obj with y := obj.y - 4, x := obj.x + 2 }
    if o1.y ≤ MAIN_BELT_Y then
      { kept := none,
        toMain := some { o1 with y := MAIN_BELT_Y, state := ItemState.moving, x := 700 },
        statsUpdates := [], messages := [] }
    else
      { kept := some o1, toMain := none, statsUpdates := [], messages := [] }
  | ItemState.scrapping =>
    -- Move to scrap bin
    let targetX : ℚ := 1150
    let targetY : ℚ := INSPECTION_BELT_Y + 130
    let dx : ℚ := targetX - obj.x
    let dy : ℚ := targetY - obj.y
    let distance : ℚ := sqrt (dx * dx + dy * dy)
    if distance > 5 then
      { kept := some { obj with x := obj.x + (dx / distance) * 4, y := obj.y + (dy / distance) * 4 },
        toMain := none, statsUpdates := [], messages := [] }
    else
      { kept := none, toMain := none, statsUpdates := [StatsUpdate.scrapArrival], messages := [] }
  | _ => { kept := some obj, toMain := none, statsUpdates := [], messages := [] }

/-! ## One animation frame -/

/-- The clock readings and random values consumed by one animation frame. `mainNow i` and
`rnd i` are read while the main-belt callback handles the `i`-th object, `inspNow i` while
the inspection-belt callback handles the `i`-th object, and `eventNow k` by the `k`-th
`addEvent` updater of the frame. -/
structure Frame where
  mainNow : Nat → Int
  rnd : Nat → Rand
  inspNow : Nat → Int
  eventNow : Nat → Int

/-- The combined effect of the main-belt updater on a list of objects. -/
structure MainOut where
  kept : List Item
  toInspection : List Item
  statsUpdates : List StatsUpdate
  messages : List String
  deriving DecidableEq, Repr

/-- The combined effect of the inspection-belt updater on a list of objects. -/
structure InspOut where
  kept : List Item
  toMain : List Item
  statsUpdates : List StatsUpdate
  messages : List String
  deriving DecidableEq, Repr

/-- The main-belt updater `prev.map(...).filter(Boolean)`, on the objects from index `i` on. -/
def updateMainBelt (fr : Frame) : Nat → List Item → MainOut
  | _, [] => { kept := [], toInspection := [], statsUpdates := [], messages := [] }
  | i, obj :: rest =>
    let r := updateMainObj (fr.mainNow i) (fr.rnd i) obj
    let o := updateMainBelt fr (i + 1) rest
    { kept := r.kept.toList ++ o.kept
      toInspection := r.toInspection.toList ++ o.toInspection
      statsUpdates := r.statsUpdates ++ o.statsUpdates
      messages := r.messages ++ o.messages }

/-- The inspection-belt updater `prev.map(...).filter(Boolean)`, on the objects from index
`i` on. -/
def updateInspectionBelt (sqrt : ℚ → ℚ) (fr : Frame) : Nat → List Item → InspOut
  | _, [] => { kept := [], toMain := [], statsUpdates := [], messages := [] }
  | i, obj :: rest =>
    let r := updateInspectionObj sqrt (fr.inspNow i) obj
    let o := updateInspectionBelt sqrt fr (i + 1) rest
    { kept := r.kept.toList ++ o.kept
      toMain := r.toMain.toList ++ o.toMain
      statsUpdates := r.statsUpdates ++ o.statsUpdates
      messages := r.messages ++ o.messages }

/-- The state updates of one run of `animate` past its guards: the main-belt updater, then
the inspection-belt updater. -/
def tick (sqrt : ℚ → ℚ) (fr : Frame) (s : SimState) : SimState :=
  let m := updateMainBelt fr 0 s.mainBeltObjects
  let i := updateInspectionBelt sqrt fr 0 s.inspectionBeltObjects
  { s with
    mainBeltObjects := m.kept ++ i.toMain
    inspectionBeltObjects := i.kept ++ m.toInspection
    stats := applyStatsUpdates (m.statsUpdates ++ i.statsUpdates) s.stats
    events := addEvents fr.eventNow 0 (m.messages ++ i.messages) s.events }

/-- The function `animate`: nothing happens unless `isRunningRef.current` is set. -/
def animate (sqrt : ℚ → ℚ) (fr : Frame) (s : SimState) : SimState :=
  if s.isRunningRef then tick sqrt fr s else s

/-! ## Controls -/

def handleStart (now : Int) (s : SimState) : SimState :=
  { s with isRunning := true, isRunningRef := true, events := addEvent now startMessage s.events }

def handleStop (now : Int) (s : SimState) : SimState :=
  { s with isRunning := false, isRunningRef := false, events := addEvent now stopMessage s.events }

def handleReset (now : Int) (s : SimState) : SimState :=
  { s with
    isRunning := false
    mainBeltObjects := []
    inspectionBeltObjects := []
    stats := initialStats
    events := addEvent now resetMessage [] }

/-! ## Predicates used in the statements -/

/-- The number of objects in state `scrapping` in a list. -/
def scrappingCount (l : List Item) : Nat :=
  l.countP (fun o => decide (o.state = ItemState.scrapping))

/-- How far `recovered + scrapped` is ahead of `totalProcessed`. -/
def scrapDeficit (S : Stats) : Int :=
  (S.recovered : Int) + (S.scrapped : Int) - (S.totalProcessed : Int)

/-- The change of `scrapDeficit` made by each stats updater. -/
def scrapDelta : StatsUpdate → Int
  | StatsUpdate.exit => 0
  | StatsUpdate.cleaned => 0
  | StatsUpdate.scrapped => 1
  | StatsUpdate.scrapArrival => -1

/-- The facts about the recovery counters that every stats updater maintains. -/
def StatsInv (S : Stats) : Prop :=
  S.recovered ≤ S.totalProcessed ∧
  0 ≤ S.recoveryPercentage ∧ S.recoveryPercentage ≤ 100 ∧
  (S.totalProcessed = 0 → S.recoveryPercentage = 100) ∧
  (0 < S.totalProcessed →
    S.recoveryPercentage
      = mathRound (jsMul (jsDiv (S.recovered : ℚ) (S.totalProcessed : ℚ)) 100))

/-- The per-object facts that hold on both belts in every reachable state. -/
def ItemInv (o : Item) : Prop :=
  o.velocity = OBJECT_SPEED ∧
  (o.state = ItemState.moving → o.y = MAIN_BELT_Y) ∧
  (o.contaminated = true → o.contaminant ≠ none) ∧
  (o.contaminant ≠ none → o.contaminated = false →
    o.canBeCleaned = some true ∧ (o.state = ItemState.returning ∨ o.state = ItemState.moving))

/-! ## Concrete inputs of the worked runs -/

def randZero : Rand := ⟨0, le_refl 0, by norm_num⟩

def randHalf : Rand := ⟨1 / 2, by norm_num, by norm_num⟩

/-- A frame in which every clock reading is `now` and every random value is `0`. -/
def constFrame (now : Int) : Frame :=
  { mainNow := fun _ => now, rnd := fun _ => randZero, inspNow := fun _ => now,
    eventNow := fun _ => now }

/-- A square root on the rationals: exact on squares of rationals, and never more than twice
the square root. -/
def ratSqrt (q : ℚ) : ℚ := (Nat.sqrt q.num.toNat : ℚ) / (Nat.sqrt q.den : ℚ)

/-- Draws that spawn a clean plastic bottle at time `0`. -/
def drawsClean : SpawnDraws :=
  { now := 0, rTemplate := randZero, rContaminated := randHalf, rId := randZero,
    rContaminant := randZero, rCanBeCleaned := randZero, eventNow := 0 }

/-- Draws that spawn a contaminated plastic bottle that can be cleaned. -/
def drawsCleanable : SpawnDraws :=
  { now := 0, rTemplate := randZero, rContaminated := randZero, rId := randZero,
    rContaminant := randZero, rCanBeCleaned := randHalf, eventNow := 0 }

/-- Draws that spawn a contaminated plastic bottle that cannot be cleaned. -/
def drawsScrap : SpawnDraws :=
  { now := 0, rTemplate := randZero, rContaminated := randZero, rId := randZero,
    rContaminant := randZero, rCanBeCleaned := randZero, eventNow := 0 }

/-- The state after `handleStart` and one spawn with the given draws. -/
def startWith (d : SpawnDraws) : SimState := spawnStep d (handleStart 0 initialState)

/-- Runs `n` animation frames, each with all clock readings equal to `now`. -/
def runTicks (sqrt : ℚ → ℚ) (now : Int) : Nat → SimState → SimState
  | 0, s => s
  | n + 1, s => runTicks sqrt now n (tick sqrt (constFrame now) s)

/-- The contaminant drawn by `drawsCleanable` and `drawsScrap`. -/
def soiledGloves : Contaminant :=
  { type := "medical_gloves", name := "Soiled Gloves", color := "#FF5722", size := 40,
    severity := "high" }

/-- The plastic bottle of the worked runs, as spawned clean. -/
def cleanBottle : Item :=
  { id := 0, type := "plastic_bottle", name := "Plastic Bottle", color := "#4CAF50", size := 50,
    x := 0, y := 150, velocity := 6 / 5, state := ItemState.moving, contaminated := false,
    contaminant := none, canBeCleaned := none, inspectionStartTime := none,
    inspectionX := none, scanPulse := none }

/-- The plastic bottle of the worked runs, as spawned contaminated and not cleanable. -/
def dirtyBottle : Item :=
  { cleanBottle with
    contaminated := true, contaminant := some soiledGloves, canBeCleaned := some false }

/-- The clean bottle one frame before it leaves the main belt. -/
def exitItem : Item := { cleanBottle with x := 6996 / 5 }

/-- The contaminated bottle on the lower bound of the detection window. -/
def edgeItem : Item := { dirtyBottle with x := 600 }

/-- The contaminated bottle one step inside the detection window. -/
def windowItem : Item := { dirtyBottle with x := 3006 / 5 }

/-- The contaminated bottle as handed to the inspection belt at clock reading `0`. -/
def inspectingItem : Item :=
  { dirtyBottle with
    x := 3321 / 5, y := 400, state := ItemState.inspecting, inspectionStartTime := some 0,
    inspectionX := some 400 }

/-- The clean run up to the frame before the bottle leaves the belt. -/
@[irreducible] def beforeExit : SimState := runTicks ratSqrt 0 1166 (startWith drawsClean)

/-- The clean run after the frame in which the bottle leaves the belt. -/
@[irreducible] def afterExit : SimState := runTicks ratSqrt 0 1167 (startWith drawsClean)

/-- The contaminated run after 500 frames: the bottle is at `x = 600`. -/
@[irreducible] def atWindowEdge : SimState := runTicks ratSqrt 0 500 (startWith drawsScrap)

/-- The contaminated run after 501 frames: the bottle is at `x = 601.2`. -/
@[irreducible] def inWindow : SimState := runTicks ratSqrt 0 501 (startWith drawsScrap)

/-- The contaminated run after 564 frames: the bottle has just been handed to the
inspection belt. -/
@[irreducible] def underInspection : SimState := runTicks ratSqrt 0 564 (startWith drawsScrap)

/-- The contaminated run after one more frame at clock reading `3001`: the bottle has
been resolved as unsalvageable. -/
@[irreducible] def scrapResolved : SimState :=
  tick ratSqrt (constFrame 3001) (runTicks ratSqrt 0 564 (startWith drawsScrap))

/-- The same run with a cleanable bottle: it has been resolved as cleaned. -/
@[irreducible] def cleanResolved : SimState :=
  tick ratSqrt (constFrame 3001) (runTicks ratSqrt 0 564 (startWith drawsCleanable))

/-! ## Reachable states -/

/-- The states reached from the initial state by the spawn timer, animation frames and the
three controls, in any order. -/
inductive Reachable (sqrt : ℚ → ℚ) : SimState → Prop where
  | init : Reachable sqrt initialState
  | spawn (d : SpawnDraws) {s : SimState} : Reachable sqrt s → Reachable sqrt (spawnStep d s)
  | tick (fr : Frame) {s : SimState} : Reachable sqrt s → Reachable sqrt (tick sqrt fr s)
  | start (now : Int) {s : SimState} : Reachable sqrt s → Reachable sqrt (handleStart now s)
  | stop (now : Int) {s : SimState} : Reachable sqrt s → Reachable sqrt (handleStop now s)
  | reset (now : Int) {s : SimState} : Reachable sqrt s → Reachable sqrt (handleReset now s)

/-! ## Single objects, runs of frames and the phases of the scenarios -/

/-- One step from the sink along a 3-4-5 triangle: an item in state `scrapping`. -/
def nearSinkItem : Item :=
  { inspectingItem with state := ItemState.scrapping, x := 1147, y := 526 }

/-- A cleaned item two steps below the main belt level. -/
def returningItem : Item :=
  { inspectingItem with
    state := ItemState.returning, contaminated := false, canBeCleaned := some true,
    x := 3921 / 5, y := 160 }

/-- The belt that holds an object. -/
inductive Belt where
  | main
  | inspection
  deriving DecidableEq, Repr

/-- The test of the main-belt callback that starts a diversion. -/
def divertCheck (obj : Item) : Bool :=
  obj.contaminated && decide (obj.x > 600) && decide (obj.x < 650)
    && decide (obj.state = ItemState.moving)

/-- Where one object is after one frame: the callback of the belt that holds it is run on
it, and a hand-off moves it to the other belt; `none` when the object is removed. -/
def itemStep (sqrt : ℚ → ℚ) (now : Int) (r : Rand) : Belt × Item → Option (Belt × Item)
  | (Belt.main, obj) =>
    match (updateMainObj now r obj).kept, (updateMainObj now r obj).toInspection with
    | some o, _ => some (Belt.main, o)
    | none, some o => some (Belt.inspection, o)
    | none, none => none
  | (Belt.inspection, obj) =>
    match (updateInspectionObj sqrt now obj).kept, (updateInspectionObj sqrt now obj).toMain with
    | some o, _ => some (Belt.inspection, o)
    | none, some o => some (Belt.main, o)
    | none, none => none

/-- The object at `p` is at `q` after some number of frames, with any clock readings and
random values. -/
inductive Later (sqrt : ℚ → ℚ) : Belt × Item → Belt × Item → Prop where
  | refl (p : Belt × Item) : Later sqrt p p
  | step (now : Int) (r : Rand) {p q q' : Belt × Item} :
      Later sqrt p q → itemStep sqrt now r q = some q' → Later sqrt p q'

/-- An object that the detection check can no longer select: it is not contaminated when it
is `moving` or `returning`. -/
def PastDetection (o : Item) : Prop :=
  (o.state = ItemState.moving → o.contaminated = false) ∧
  (o.state = ItemState.returning → o.contaminated = false)

/-- Runs `n` animation frames, the `k`-th one (counted from 0) with the inputs `frs k`. -/
def runFrames (sqrt : ℚ → ℚ) (frs : Nat → Frame) : Nat → SimState → SimState
  | 0, s => s
  | n + 1, s => animate sqrt (frs n) (runFrames sqrt frs n s)

/-- The state in which a scenario starts: `handleStart`, then one firing of the spawn timer. -/
def scenarioStart (now : Int) (d : SpawnDraws) : SimState :=
  spawnStep d (handleStart now initialState)

/-- The messages of the event log, newest first. -/
def logMessages (s : SimState) : List String := s.events.map (fun e => e.message)

/-- The effect on the messages of the log of the `addEvent` updaters queued for the given
messages. -/
def pushMessages : List String → List String → List String
  | [], log => log
  | m :: ms, log => pushMessages ms (m :: log.take 5)

/-- The simulation is running with exactly one object, on the main belt. -/
def SoloMain (s : SimState) (o : Item) (st : Stats) (log : List String) : Prop :=
  s.isRunningRef = true ∧ s.mainBeltObjects = [o] ∧ s.inspectionBeltObjects = [] ∧
  s.stats = st ∧ logMessages s = log

/-- The simulation is running with exactly one object, on the inspection belt. -/
def SoloInsp (s : SimState) (o : Item) (st : Stats) (log : List String) : Prop :=
  s.isRunningRef = true ∧ s.mainBeltObjects = [] ∧ s.inspectionBeltObjects = [o] ∧
  s.stats = st ∧ logMessages s = log

/-- The simulation is running with both belts empty. -/
def BeltsEmpty (s : SimState) (st : Stats) (log : List String) : Prop :=
  s.isRunningRef = true ∧ s.mainBeltObjects = [] ∧ s.inspectionBeltObjects = [] ∧
  s.stats = st ∧ logMessages s = log

/-- The fields of an object that no callback changes. -/
def Tracks (o0 o : Item) : Prop :=
  o.id = o0.id ∧ o.type = o0.type ∧ o.name = o0.name ∧ o.velocity = o0.velocity ∧
  o.contaminant = o0.contaminant ∧ o.canBeCleaned = o0.canBeCleaned

/-- The one object of the run is `moving` on the main belt at `(x, 150)`. -/
def MovingAt (o0 : Item) (c : Bool) (x : ℚ) (st : Stats) (log : List String)
    (s : SimState) : Prop :=
  ∃ o, SoloMain s o st log ∧ Tracks o0 o ∧ o.state = ItemState.moving ∧
    o.contaminated = c ∧ o.x = x ∧ o.y = 150

/-- The one object of the run is `diverting` on the main belt at `(x, y)`. -/
def DivertingAt (o0 : Item) (x y : ℚ) (st : Stats) (log : List String)
    (s : SimState) : Prop :=
  ∃ o, SoloMain s o st log ∧ Tracks o0 o ∧ o.state = ItemState.diverting ∧
    o.contaminated = true ∧ o.x = x ∧ o.y = y

/-- The one object of the run is `inspecting` on the inspection belt at `(x, 400)`, where
it arrived at clock reading `t0`. -/
def InspectingAt (o0 : Item) (x : ℚ) (t0 : Int) (st : Stats) (log : List String)
    (s : SimState) : Prop :=
  ∃ o, SoloInsp s o st log ∧ Tracks o0 o ∧ o.state = ItemState.inspecting ∧
    o.contaminated = true ∧ o.x = x ∧ o.y = 400 ∧ o.inspectionStartTime = some t0

/-- The one object of the run is `returning` on the inspection belt at `(x, y)`, cleaned. -/
def ReturningAt (o0 : Item) (x y : ℚ) (st : Stats) (log : List String)
    (s : SimState) : Prop :=
  ∃ o, SoloInsp s o st log ∧ Tracks o0 o ∧ o.state = ItemState.returning ∧
    o.contaminated = false ∧ o.x = x ∧ o.y = y

/-- The one object of the run is `scrapping` on the inspection belt at `(x, y)`. -/
def ScrappingAt (o0 : Item) (x y : ℚ) (st : Stats) (log : List String)
    (s : SimState) : Prop :=
  ∃ o, SoloInsp s o st log ∧ Tracks o0 o ∧ o.state = ItemState.scrapping ∧
    o.contaminated = true ∧ o.x = x ∧ o.y = y

/-- The stats after one item was diverted, cleaned and recovered at the exit. -/
def cleanedStats : Stats :=
  { totalProcessed := 1, diverted := 1, cleaned := 1, scrapped := 0, recovered := 1,
    recoveryPercentage := 100 }

/-- The stats after one item was diverted and resolved as cleaned. -/
def resolvedCleanStats : Stats :=
  { totalProcessed := 0, diverted := 1, cleaned := 1, scrapped := 0, recovered := 0,
    recoveryPercentage := 100 }

/-- The messages of the event log of Scenario B once the item is cleaned, newest first. -/
def cleanedLog (name spawnMsg : String) : List String :=
  [cleanedMessage name, scanMessage name, divertMessage name, spawnMsg, startMessage]

/-- The value `Math.sqrt` returns is at most twice the square root: its square is at most
four times the argument. -/
def SqrtBounded (sqrt : ℚ → ℚ) : Prop := ∀ v : ℚ, 0 ≤ v → sqrt v * sqrt v ≤ 4 * v

/-- The distance to the scrap sink that the callback computes for an object at `(x, y)`. -/
def sinkDistance (sqrt : ℚ → ℚ) (x y : ℚ) : ℚ :=
  sqrt ((1150 - x) * (1150 - x) + (530 - y) * (530 - y))

/-- The stats after one item was diverted and resolved as unsalvageable. -/
def resolvedScrapStats : Stats :=
  { totalProcessed := 0, diverted := 1, cleaned := 0, scrapped := 1, recovered := 0,
    recoveryPercentage := 100 }

/-- The stats after one item was diverted, scrapped and dropped into the scrap bin. -/
def scrappedStats : Stats :=
  { totalProcessed := 1, diverted := 1, cleaned := 0, scrapped := 1, recovered := 0,
    recoveryPercentage := 0 }

/-- The messages of the event log of Scenario C once the item is scrapped, newest first. -/
def scrappedLog (name spawnMsg : String) : List String :=
  [scrapMessage name, scanMessage name, divertMessage name, spawnMsg, startMessage]

/-- Frames whose clock reads `0` up to the hand-off to the inspection belt (frame 563) and
`3001` from then on. -/
def scanFrames (k : Nat) : Frame := if k < 564 then constFrame 0 else constFrame 3001

/-- The states in which the main-belt list holds an object. -/
def OnMainState (o : Item) : Prop :=
  o.state = ItemState.moving ∨ o.state = ItemState.diverting

/-- The states in which the inspection-belt list holds an object. -/
def OnInspectionState (o : Item) : Prop :=
  o.state = ItemState.inspecting ∨ o.state = ItemState.returning ∨
    o.state = ItemState.scrapping

/-- The main-belt callback removes the object at the recycling exit: the divert check does
not fire, the object is `moving`, and its advanced position exceeds the canvas width. -/
def exitsMain (obj : Item) : Bool :=
  !divertCheck obj && decide (obj.state = ItemState.moving)
    && decide (obj.x + obj.velocity > CANVAS_WIDTH)

/-- The inspection-belt callback removes the object at the scrap bin: the object is
`scrapping` and the distance the callback computes does not exceed 5. -/
def arrivesAtSink (sqrt : ℚ → ℚ) (obj : Item) : Bool :=
  decide (obj.state = ItemState.scrapping) && !decide (sinkDistance sqrt obj.x obj.y > 5)

/-- The object with its `canBeCleaned` field replaced. -/
def setCanBeCleaned (c : Option Bool) (o : Item) : Item := { o with canBeCleaned := c }

/-- Runs the main-belt callback `n` times on one object, for as long as the object stays on
the main belt; the `k`-th call reads the clock `clock k` and the random value `rnd k`. -/
def mainSteps (clock : Nat → Int) (rnd : Nat → Rand) : Nat → Item → Option Item
  | 0, obj => some obj
  | n + 1, obj =>
    (mainSteps clock rnd n obj).bind (fun o => (updateMainObj (clock n) (rnd n) o).kept)

/-- The object after `k` diverting frames that began at `(obj.x, 150)`. -/
def divertedAt (obj : Item) (k : Nat) : Item :=
  { obj with state := ItemState.diverting, x := obj.x + (k : ℚ), y := 150 + 4 * (k : ℚ) }

/-- The object advanced by `k` moving steps of length 1.2. -/
def movedBy (obj : Item) (k : Nat) : Item := { obj with x := obj.x + 6 / 5 * (k : ℚ) }

/-- Invariant of the main-belt objects behind the detection guarantee: the speed is 1.2 and
a contaminated object that is still `moving` has not passed `x = 601.2`. -/
def CaughtMain (o : Item) : Prop :=
  o.velocity = OBJECT_SPEED ∧
    (o.state = ItemState.moving → o.contaminated = true → o.x ≤ 3006 / 5)

/-- Invariant of the inspection-belt objects behind the detection guarantee: the speed is
1.2 and an object on its way back is no longer contaminated. -/
def CaughtInsp (o : Item) : Prop :=
  o.velocity = OBJECT_SPEED ∧ (o.state = ItemState.returning → o.contaminated = false)

/-- Frames in which every clock reading of frame `k` is `clock k` and every random value
is `rnd k`. -/
def framesOf (clock : Nat → Int) (rnd : Nat → Rand) (k : Nat) : Frame :=
  { mainNow := fun _ => clock k, rnd := fun _ => rnd k, inspNow := fun _ => clock k,
    eventNow := fun _ => clock k }

/-- Where one object is after `n` frames, `none` once it was removed; the callback that
handles the object in frame `k` reads the clock `clock k` and the random value `rnd k`. -/
def itemRun (sqrt : ℚ → ℚ) (clock : Nat → Int) (rnd : Nat → Rand) :
    Nat → Belt × Item → Option (Belt × Item)
  | 0, p => some p
  | n + 1, p => (itemRun sqrt clock rnd n p).bind (itemStep sqrt (clock n) (rnd n))

/-- The number of frames within which every item has left both belts when the clock
advances by at least `δ` per frame: 501 moving frames up to the detection window, 63
diverting frames, `3000 / δ` frames of scan, 64 returning frames and 584 moving frames from
`x = 700` to the exit (the scrapping route is shorter: at most 254 frames after the
scan). -/
def terminationBound (δ : Int) : Nat := 1212 + (3000 / δ).toNat

/-- The belts hold exactly the object at `q`, or nothing when `q` is `none`. -/
def OnBelts (s : SimState) : Option (Belt × Item) → Prop
  | some (Belt.main, o) => s.mainBeltObjects = [o] ∧ s.inspectionBeltObjects = []
  | some (Belt.inspection, o) => s.mainBeltObjects = [] ∧ s.inspectionBeltObjects = [o]
  | none => s.mainBeltObjects = [] ∧ s.inspectionBeltObjects = []

/-- The `scrapping` branch of the inspection-belt callback on the coordinates of the object,
over any ordered field (the rationals of the embedding, or the reals): the new coordinates,
or `none` when the object is removed. The target is `(1150, INSPECTION_BELT_Y + 130)`. -/
def scrapStep {K : Type} [LinearOrderedField K] (sqrt : K → K) (x y : K) : Option (K × K) :=
  -- Move to scrap bin
  let targetX : K := 1150
  let targetY : K := 400 + 130
  let dx : K := targetX - x
  let dy : K := targetY - y
  let distance : K := sqrt (dx * dx + dy * dy)
  if distance > 5 then some (x + (dx / distance) * 4, y + (dy / distance) * 4) else none

/-- Runs `scrapStep` for `n` frames, for as long as the object stays on the belt. -/
def scrapRun {K : Type} [LinearOrderedField K] (sqrt : K → K) : Nat → K × K → Option (K × K)
  | 0, p => some p
  | n + 1, p => (scrapRun sqrt n p).bind (fun q => scrapStep sqrt q.1 q.2)

/-- The point reached from `(x, y)` after `j` steps of length 4 along the unit vector toward
the sink, `d` being the distance of `(x, y)` from the sink. -/
def towardSink {K : Type} [LinearOrderedField K] (x y d : K) (j : Nat) : K × K :=
  (x + (1150 - x) / d * (4 * (j : K)), y + (530 - y) / d * (4 * (j : K)))

/-- The stats after `n` more items were resolved as unsalvageable and dropped into the scrap
bin, one after the other. -/
def scrapCycles : Nat → Stats → Stats
  | 0, S => S
  | n + 1, S => StatsUpdate.scrapArrival.apply (StatsUpdate.scrapped.apply (scrapCycles n S))

/-- The stats after `n` more clean items left at the exit, one after the other. -/
def exitCycles : Nat → Stats → Stats
  | 0, S => S
  | n + 1, S => StatsUpdate.exit.apply (exitCycles n S)

/-! ## The quiz of the Learn page

The component `Learn` of `pages/Learn.jsx` keeps the quiz in six `useState` cells. Each
handler is modelled as a function on the record of the six cells, applied to the state of
the render in which the handler was created; handlers run one after the other, each on the
state left by the one before. `Array.prototype.sort` with the random comparator is an input:
the shuffled copy of the pool. -/

/-- One entry of the `options` array of a question. -/
structure QuizOption where
  label : String
  text : String
  correct : Bool
  deriving DecidableEq, Repr

/-- One entry of `QUIZ_QUESTIONS`. -/
structure Question where
  question : String
  context : String
  options : List QuizOption
  explanation : String
  deriving DecidableEq, Repr

/-- The constant `QUIZ_QUESTIONS`. -/
def QUIZ_QUESTIONS : List Question :=
  [ { question := "Where should coconut shells go after Pongal/Onam celebrations?"
      context := "You have leftover coconut shells from festival preparations."
      options :=
        [ ⟨"A", "Recycling bin", false⟩,
          ⟨"B", "Compost bin", true⟩,
          ⟨"C", "Trash bin", false⟩,
          ⟨"D", "Burn them", false⟩ ]
      explanation := "Coconut shells are organic waste and perfect for composting! They break down slowly but add valuable nutrients. Never burn them as it creates air pollution." },
    { question := "What should you do with used agarbatti (incense stick) packets?"
      context := "You just finished your daily pooja and have empty agarbatti packets."
      options :=
        [ ⟨"A", "Throw in general waste", true⟩,
          ⟨"B", "Recycle with paper", false⟩,
          ⟨"C", "Compost them", false⟩,
          ⟨"D", "Reuse for storage", false⟩ ]
      explanation := "Agarbatti packets are usually made of mixed materials (foil + paper) and contaminated with ash, making them non-recyclable. They go in general waste." },
    { question := "Expired medicines from your home medicine cabinet should go to:"
      context := "You found old tablets and syrups while cleaning."
      options :=
        [ ⟨"A", "Flush down the toilet", false⟩,
          ⟨"B", "Regular dustbin", false⟩,
          ⟨"C", "Pharmacy take-back program", true⟩,
          ⟨"D", "Mix with food waste", false⟩ ]
      explanation := "Many pharmacies in India now have medicine take-back programs. Never flush medicines - they contaminate water bodies. Check with local chemists for disposal options." },
    { question := "Used tea leaves (chai patti) should be disposed in:"
      context := "You just made chai and have wet tea leaves left."
      options :=
        [ ⟨"A", "Sink drain", false⟩,
          ⟨"B", "Compost bin", true⟩,
          ⟨"C", "Trash bin", false⟩,
          ⟨"D", "Recycling bin", false⟩ ]
      explanation := "Tea leaves are excellent for composting! They\x27re nitrogen-rich and help plants grow. You can also use them directly in garden soil. Never put them down the drain." },
    { question := "Broken earthen diyas (clay lamps) after Diwali should go in:"
      context := "You have broken clay diyas after Diwali celebrations."
      options :=
        [ ⟨"A", "Compost - they\x27re natural clay", false⟩,
          ⟨"B", "Recycling bin", false⟩,
          ⟨"C", "General waste", true⟩,
          ⟨"D", "E-waste", false⟩ ]
      explanation := "While clay is natural, broken ceramics and pottery go in general waste. They don\x27t decompose quickly enough for composting and can\x27t be recycled with regular materials." },
    { question := "Plastic ghee/oil containers should be recycled only if:"
      context := "You finished a 1kg ghee container and want to dispose it."
      options :=
        [ ⟨"A", "They have the recycling symbol", false⟩,
          ⟨"B", "They are washed clean and dry", true⟩,
          ⟨"C", "They are a certain brand", false⟩,
          ⟨"D", "Any plastic can be recycled", false⟩ ]
      explanation := "Oil/ghee containers MUST be washed thoroughly before recycling. Greasy containers contaminate entire recycling batches. Use hot water and soap to clean them properly." },
    { question := "Old mobile phone chargers and cables are classified as:"
      context := "You have multiple old phone chargers lying around."
      options :=
        [ ⟨"A", "General waste", false⟩,
          ⟨"B", "Recyclable plastic", false⟩,
          ⟨"C", "E-waste", true⟩,
          ⟨"D", "Hazardous waste", false⟩ ]
      explanation := "Chargers and cables are e-waste! They contain valuable metals and should go to e-waste collection centers. Many mobile shops and municipal corporations have e-waste bins." },
    { question := "Banana leaves used for serving food should be:"
      context := "You used banana leaves for a traditional meal."
      options :=
        [ ⟨"A", "Composted", true⟩,
          ⟨"B", "Thrown in general waste", false⟩,
          ⟨"C", "Recycled", false⟩,
          ⟨"D", "Fed to cows", false⟩ ]
      explanation := "Banana leaves are 100% compostable! They decompose quickly and are perfect for composting. This is why they\x27re an eco-friendly alternative to plastic plates." } ]

/-- The six `useState` cells of the component `Learn`; `none` in `selectedAnswer` is
`null`. -/
structure QuizState where
  quizStarted : Bool
  currentQuestion : Nat
  selectedAnswer : Option Nat
  showExplanation : Bool
  score : Nat
  quizQuestions : List Question
  deriving DecidableEq, Repr

/-- The initial values passed to `useState`. -/
def initialQuizState : QuizState :=
  { quizStarted := false, currentQuestion := 0, selectedAnswer := none,
    showExplanation := false, score := 0, quizQuestions := [] }

/-- The handler `startQuiz`; `shuffled` is the result of
`[...QUIZ_QUESTIONS].sort(() => Math.random() - 0.5)`. -/
def startQuiz (shuffled : List Question) (s : QuizState) : QuizState :=
  { s with
    quizQuestions := shuffled.take 6
    quizStarted := true
    currentQuestion := 0
    score := 0
    selectedAnswer := none
    showExplanation := false }

/-- The handler `handleAnswerSelect`. When `quizQuestions[currentQuestion]` or
`options[optionIndex]` is `undefined` the property read throws after the first two setters
were called, so the score is not touched. -/
def handleAnswerSelect (optionIndex : Nat) (s : QuizState) : QuizState :=
  if s.showExplanation then s
  else
    let s1 : QuizState := { s with selectedAnswer := some optionIndex, showExplanation := true }
    match s.quizQuestions[s.currentQuestion]? with
    | none => s1
    | some currentQuizQuestion =>
      match currentQuizQuestion.options[optionIndex]? with
      | none => s1
      | some option => if option.correct then { s1 with score := s1.score + 1 } else s1

/-- The handler `handleNext`. -/
def handleNext (s : QuizState) : QuizState :=
  if (s.currentQuestion : Int) < (s.quizQuestions.length : Int) - 1 then
    { s with
      currentQuestion := s.currentQuestion + 1
      selectedAnswer := none
      showExplanation := false }
  else
    -- Move to completion screen
    { s with currentQuestion := s.quizQuestions.length }

/-- The handler `handleRestart`. -/
def handleRestart (s : QuizState) : QuizState :=
  { s with
    currentQuestion := 0
    selectedAnswer := none
    showExplanation := false
    score := 0
    quizQuestions := []
    quizStarted := false }

/-- The quiz states reached from a `startQuiz`, whose shuffle is a permutation of the pool,
by any sequence of the handlers. -/
inductive QuizReachable : QuizState → Prop
  | start (shuffled : List Question) (s : QuizState) :
      shuffled.Perm QUIZ_QUESTIONS → QuizReachable (startQuiz shuffled s)
  | answer (optionIndex : Nat) {s : QuizState} :
      QuizReachable s → QuizReachable (handleAnswerSelect optionIndex s)
  | next {s : QuizState} : QuizReachable s → QuizReachable (handleNext s)
  | restart {s : QuizState} : QuizReachable s → QuizReachable (handleRestart s)

/-- The invariant of the quiz: the score is bounded by the questions answered so far and by
the number of selected questions, which is at most 6. -/
def QuizInv (s : QuizState) : Prop :=
  s.score ≤ s.currentQuestion + (if s.showExplanation then 1 else 0) ∧
    s.currentQuestion ≤ s.quizQuestions.length ∧
    s.score ≤ s.quizQuestions.length ∧
    s.quizQuestions.length ≤ 6

/-! ## Auxiliary lemmas -/

theorem applyStatsUpdates_append (us vs : List StatsUpdate) (s : Stats) :
    applyStatsUpdates (us ++ vs) s = applyStatsUpdates vs (applyStatsUpdates us s) := by
  induction us generalizing s with
  | nil => rfl
  | cons u us ih => simp [applyStatsUpdates, ih]

theorem applyStatsUpdates_preserves (P : Stats → Prop)
    (hP : ∀ (u : StatsUpdate) (s : Stats), P s → P (u.apply s))
    (us : List StatsUpdate) (s : Stats) (hs : P s) : P (applyStatsUpdates us s) := by
  induction us generalizing s with
  | nil => exact hs
  | cons u us ih => exact ih _ (hP u s hs)

theorem addEvent_length (now : Int) (m : String) (L : List Event) :
    (addEvent now m L).length = min (L.length + 1) 6 := by
  simp only [addEvent, List.length_cons, List.length_take]
  omega

theorem addEvents_length_le (clock : Nat → Int) (k : Nat) (ms : List String) (L : List Event)
    (hL : L.length ≤ 6) : (addEvents clock k ms L).length ≤ 6 := by
  induction ms generalizing k L with
  | nil => exact hL
  | cons m ms ih =>
    apply ih
    rw [addEvent_length]
    omega

theorem mem_updateMainBelt_kept (fr : Frame) (i : Nat) (objs : List Item) (o : Item)
    (h : o ∈ (updateMainBelt fr i objs).kept) :
    ∃ j obj, obj ∈ objs ∧ (updateMainObj (fr.mainNow j) (fr.rnd j) obj).kept = some o := by
  induction objs generalizing i with
  | nil => simp [updateMainBelt] at h
  | cons a rest ih =>
    simp only [updateMainBelt, List.mem_append, Option.mem_toList, Option.mem_def] at h
    rcases h with h | h
    · exact ⟨i, a, List.mem_cons_self _ _, h⟩
    · obtain ⟨j, obj, hm, hk⟩ := ih (i + 1) h
      exact ⟨j, obj, List.mem_cons_of_mem _ hm, hk⟩

theorem mem_updateMainBelt_toInspection (fr : Frame) (i : Nat) (objs : List Item) (o : Item)
    (h : o ∈ (updateMainBelt fr i objs).toInspection) :
    ∃ j obj, obj ∈ objs ∧ (updateMainObj (fr.mainNow j) (fr.rnd j) obj).toInspection = some o := by
  induction objs generalizing i with
  | nil => simp [updateMainBelt] at h
  | cons a rest ih =>
    simp only [updateMainBelt, List.mem_append, Option.mem_toList, Option.mem_def] at h
    rcases h with h | h
    · exact ⟨i, a, List.mem_cons_self _ _, h⟩
    · obtain ⟨j, obj, hm, hk⟩ := ih (i + 1) h
      exact ⟨j, obj, List.mem_cons_of_mem _ hm, hk⟩

theorem mem_updateInspectionBelt_kept (sqrt : ℚ → ℚ) (fr : Frame) (i : Nat) (objs : List Item)
    (o : Item) (h : o ∈ (updateInspectionBelt sqrt fr i objs).kept) :
    ∃ j obj, obj ∈ objs ∧ (updateInspectionObj sqrt (fr.inspNow j) obj).kept = some o := by
  induction objs generalizing i with
  | nil => simp [updateInspectionBelt] at h
  | cons a rest ih =>
    simp only [updateInspectionBelt, List.mem_append, Option.mem_toList, Option.mem_def] at h
    rcases h with h | h
    · exact ⟨i, a, List.mem_cons_self _ _, h⟩
    · obtain ⟨j, obj, hm, hk⟩ := ih (i + 1) h
      exact ⟨j, obj, List.mem_cons_of_mem _ hm, hk⟩

theorem mem_updateInspectionBelt_toMain (sqrt : ℚ → ℚ) (fr : Frame) (i : Nat) (objs : List Item)
    (o : Item) (h : o ∈ (updateInspectionBelt sqrt fr i objs).toMain) :
    ∃ j obj, obj ∈ objs ∧ (updateInspectionObj sqrt (fr.inspNow j) obj).toMain = some o := by
  induction objs generalizing i with
  | nil => simp [updateInspectionBelt] at h
  | cons a rest ih =>
    simp only [updateInspectionBelt, List.mem_append, Option.mem_toList, Option.mem_def] at h
    rcases h with h | h
    · exact ⟨i, a, List.mem_cons_self _ _, h⟩
    · obtain ⟨j, obj, hm, hk⟩ := ih (i + 1) h
      exact ⟨j, obj, List.mem_cons_of_mem _ hm, hk⟩

/-- Invariants of the two belt lists: a predicate on main-belt objects and one on
inspection-belt objects that the spawner establishes and both callbacks maintain hold in
every reachable state. -/
theorem belts_invariant (PM PI : Item → Prop)
    (hspawn : ∀ d : SpawnDraws, PM (spawnRecyclable d).1)
    (hmain : ∀ (now : Int) (r : Rand) (obj : Item), PM obj →
      (∀ o, (updateMainObj now r obj).kept = some o → PM o) ∧
      (∀ o, (updateMainObj now r obj).toInspection = some o → PI o))
    (hinsp : ∀ (sqrt : ℚ → ℚ) (now : Int) (obj : Item), PI obj →
      (∀ o, (updateInspectionObj sqrt now obj).kept = some o → PI o) ∧
      (∀ o, (updateInspectionObj sqrt now obj).toMain = some o → PM o))
    (sqrt : ℚ → ℚ) (s : SimState) (hs : Reachable sqrt s) :
    (∀ o ∈ s.mainBeltObjects, PM o) ∧ (∀ o ∈ s.inspectionBeltObjects, PI o) := by
  induction hs with
  | init => simp [initialState]
  | spawn d _ ih =>
    refine ⟨?_, ih.2⟩
    intro o ho
    simp only [spawnStep, List.mem_append, List.mem_singleton] at ho
    rcases ho with ho | ho
    · exact ih.1 o ho
    · exact ho ▸ hspawn d
  | tick fr _ ih =>
    constructor
    · intro o ho
      simp only [tick, List.mem_append] at ho
      rcases ho with ho | ho
      · obtain ⟨j, obj, hm, hk⟩ := mem_updateMainBelt_kept fr 0 _ o ho
        exact (hmain _ _ obj (ih.1 obj hm)).1 o hk
      · obtain ⟨j, obj, hm, hk⟩ := mem_updateInspectionBelt_toMain sqrt fr 0 _ o ho
        exact (hinsp sqrt _ obj (ih.2 obj hm)).2 o hk
    · intro o ho
      simp only [tick, List.mem_append] at ho
      rcases ho with ho | ho
      · obtain ⟨j, obj, hm, hk⟩ := mem_updateInspectionBelt_kept sqrt fr 0 _ o ho
        exact (hinsp sqrt _ obj (ih.2 obj hm)).1 o hk
      · obtain ⟨j, obj, hm, hk⟩ := mem_updateMainBelt_toInspection fr 0 _ o ho
        exact (hmain _ _ obj (ih.1 obj hm)).2 o hk
  | start now _ ih => exact ih
  | stop now _ ih => exact ih
  | reset now _ ih => simp [handleReset]

theorem itemInv_spawn (d : SpawnDraws) : ItemInv (spawnRecyclable d).1 := by
  unfold spawnRecyclable ItemInv
  by_cases h : d.rContaminated.val < 0.1 <;> simp [h]

theorem itemInv_main (now : Int) (r : Rand) (obj : Item) (h : ItemInv obj) :
    (∀ o, (updateMainObj now r obj).kept = some o → ItemInv o) ∧
    (∀ o, (updateMainObj now r obj).toInspection = some o → ItemInv o) := by
  obtain ⟨hv, hy, hc, hd⟩ := h
  unfold updateMainObj exitCheck
  constructor
  · intro o ho
    simp only at ho
    split_ifs at ho <;> cases ho <;> simp_all [ItemInv]
  · intro o ho
    simp only at ho
    split_ifs at ho <;> cases ho <;> simp_all [ItemInv]

theorem itemInv_insp (sqrt : ℚ → ℚ) (now : Int) (obj : Item) (h : ItemInv obj) :
    (∀ o, (updateInspectionObj sqrt now obj).kept = some o → ItemInv o) ∧
    (∀ o, (updateInspectionObj sqrt now obj).toMain = some o → ItemInv o) := by
  obtain ⟨hv, hy, hc, hd⟩ := h
  unfold updateInspectionObj
  constructor
  · intro o ho
    split at ho <;> simp only at ho <;> (try split_ifs at ho) <;> cases ho <;>
      simp_all [ItemInv]
  · intro o ho
    split at ho <;> simp only at ho <;> (try split_ifs at ho) <;> cases ho
    simp_all [ItemInv]

theorem scrapDeficit_apply (u : StatsUpdate) (S : Stats) :
    scrapDeficit (u.apply S) = scrapDeficit S + scrapDelta u := by
  cases u <;> simp [StatsUpdate.apply, scrapDeficit, scrapDelta] <;> omega

theorem scrapDeficit_applyStatsUpdates (us : List StatsUpdate) (S : Stats) :
    scrapDeficit (applyStatsUpdates us S) = scrapDeficit S + (us.map scrapDelta).sum := by
  induction us generalizing S with
  | nil => simp [applyStatsUpdates]
  | cons u us ih =>
    simp only [applyStatsUpdates, ih, scrapDeficit_apply, List.map_cons, List.sum_cons]
    omega

theorem scrapDelta_mainObj (now : Int) (r : Rand) (obj : Item) :
    ((updateMainObj now r obj).statsUpdates.map scrapDelta).sum = 0 ∧
    scrappingCount (updateMainObj now r obj).toInspection.toList = 0 := by
  unfold updateMainObj exitCheck
  simp only
  split_ifs <;> simp [scrapDelta, scrappingCount]

theorem scrapDelta_mainBelt (fr : Frame) (i : Nat) (objs : List Item) :
    ((updateMainBelt fr i objs).statsUpdates.map scrapDelta).sum = 0 ∧
    scrappingCount (updateMainBelt fr i objs).toInspection = 0 := by
  induction objs generalizing i with
  | nil => simp [updateMainBelt, scrappingCount]
  | cons a rest ih =>
    have h1 := scrapDelta_mainObj (fr.mainNow i) (fr.rnd i) a
    have h2 := ih (i + 1)
    simp only [scrappingCount] at h1 h2 ⊢
    simp only [updateMainBelt, List.map_append, List.sum_append, List.countP_append, h1.1, h1.2,
      h2.1, h2.2]
    simp

theorem scrapDelta_inspObj (sqrt : ℚ → ℚ) (now : Int) (obj : Item) :
    ((updateInspectionObj sqrt now obj).statsUpdates.map scrapDelta).sum
        + (scrappingCount [obj] : Int)
      = (scrappingCount (updateInspectionObj sqrt now obj).kept.toList : Int) := by
  unfold updateInspectionObj
  split <;> simp only <;> (try split_ifs) <;> simp_all [scrapDelta, scrappingCount]

theorem scrapDelta_inspBelt (sqrt : ℚ → ℚ) (fr : Frame) (i : Nat) (objs : List Item) :
    ((updateInspectionBelt sqrt fr i objs).statsUpdates.map scrapDelta).sum
        + (scrappingCount objs : Int)
      = (scrappingCount (updateInspectionBelt sqrt fr i objs).kept : Int) := by
  induction objs generalizing i with
  | nil => simp [updateInspectionBelt, scrappingCount]
  | cons a rest ih =>
    have h1 := scrapDelta_inspObj sqrt (fr.inspNow i) a
    have h2 := ih (i + 1)
    simp only [scrappingCount] at h1 h2 ⊢
    simp only [updateInspectionBelt, List.map_append, List.sum_append, List.countP_append,
      List.countP_cons, List.countP_nil] at h1 h2 ⊢
    push_cast at h1 h2 ⊢
    omega

theorem scrapDeficit_reachable (sqrt : ℚ → ℚ) (s : SimState) (hs : Reachable sqrt s) :
    scrapDeficit s.stats = (scrappingCount s.inspectionBeltObjects : Int) := by
  induction hs with
  | init => simp [initialState, initialStats, scrapDeficit, scrappingCount]
  | spawn d _ ih => simpa [spawnStep] using ih
  | @tick fr s _ ih =>
    have hm := scrapDelta_mainBelt fr 0 s.mainBeltObjects
    have hi := scrapDelta_inspBelt sqrt fr 0 s.inspectionBeltObjects
    simp only [scrappingCount] at hm hi ih ⊢
    simp only [tick, scrapDeficit_applyStatsUpdates, List.map_append, List.sum_append,
      List.countP_append, hm.1, hm.2]
    push_cast
    omega
  | start now _ ih => simpa [handleStart] using ih
  | stop now _ ih => simpa [handleStop] using ih
  | reset now _ ih => simp [handleReset, initialStats, scrapDeficit, scrappingCount]

theorem orZero_eq (v : Int) : orZero v = v := by
  unfold orZero
  split_ifs with h
  · exact h.symm
  · rfl

theorem pow2_eq_zpow (e : Int) : pow2 e = (2 : ℚ) ^ e := by
  unfold pow2
  split_ifs with h
  · obtain ⟨n, rfl⟩ := Int.eq_ofNat_of_zero_le h
    simp
  · have he : e = -(((-e).toNat : ℕ) : ℤ) := by omega
    rw [one_div, ← zpow_natCast, ← zpow_neg, ← he]

theorem pow2_pos (e : Int) : 0 < pow2 e := by
  rw [pow2_eq_zpow]
  positivity

theorem pow2_le_pow2 {a b : Int} (h : a ≤ b) : pow2 a ≤ pow2 b := by
  rw [pow2_eq_zpow, pow2_eq_zpow]
  exact zpow_le_zpow_right₀ (by norm_num) h

theorem pow2_lt_pow2_iff {a b : Int} : pow2 a < pow2 b ↔ a < b := by
  rw [pow2_eq_zpow, pow2_eq_zpow]
  exact zpow_lt_zpow_iff_right₀ (by norm_num)

theorem pow2_add (a b : Int) : pow2 (a + b) = pow2 a * pow2 b := by
  rw [pow2_eq_zpow, pow2_eq_zpow, pow2_eq_zpow, zpow_add₀ (by norm_num)]

theorem pow2_natCast (n : Nat) : pow2 (n : Int) = (2 : ℚ) ^ n := by
  rw [pow2_eq_zpow, zpow_natCast]

theorem bitLengthAux_zero (fuel : Nat) : bitLengthAux fuel 0 = 0 := by
  cases fuel <;> simp [bitLengthAux]

theorem bitLengthAux_bounds (fuel : Nat) :
    ∀ n, n ≤ fuel → n < 2 ^ bitLengthAux fuel n ∧ (0 < n → 2 ^ bitLengthAux fuel n ≤ 2 * n) := by
  induction fuel with
  | zero =>
    intro n hn
    have : n = 0 := by omega
    subst this
    simp [bitLengthAux]
  | succ f ih =>
    intro n hn
    by_cases h0 : n = 0
    · subst h0
      simp [bitLengthAux]
    · have hpos : 0 < n := Nat.pos_of_ne_zero h0
      have hle : n / 2 ≤ f := by omega
      obtain ⟨h1, h2⟩ := ih (n / 2) hle
      simp only [bitLengthAux, if_neg h0, pow_succ]
      constructor
      · omega
      · intro _
        by_cases hh : n / 2 = 0
        · rw [hh, bitLengthAux_zero]
          omega
        · have := h2 (Nat.pos_of_ne_zero hh)
          omega

theorem bitLength_bounds (n : Nat) (hn : 0 < n) :
    2 ^ bitLength n ≤ 2 * n ∧ n < 2 ^ bitLength n :=
  ⟨(bitLengthAux_bounds n n (le_refl _)).2 hn, (bitLengthAux_bounds n n (le_refl _)).1⟩

theorem pow2_neg (a : Int) : pow2 (-a) = (pow2 a)⁻¹ := by
  rw [pow2_eq_zpow, pow2_eq_zpow, zpow_neg]

theorem rat_between_pow2 (q : ℚ) (hq : 0 < q) :
    pow2 ((bitLength q.num.natAbs : Int) - (bitLength q.den : Int) - 1) ≤ q ∧
    q < pow2 ((bitLength q.num.natAbs : Int) - (bitLength q.den : Int) + 1) := by
  have hnum : 0 < q.num := Rat.num_pos.mpr hq
  have hn : 0 < q.num.natAbs := Int.natAbs_pos.mpr (ne_of_gt hnum)
  have hd : 0 < q.den := q.den_pos
  obtain ⟨n1, n2⟩ := bitLength_bounds _ hn
  obtain ⟨d1, d2⟩ := bitLength_bounds _ hd
  have hqe : q = (q.num.natAbs : ℚ) / (q.den : ℚ) := by
    have h1 : ((q.num.natAbs : ℕ) : ℚ) = (q.num : ℚ) := by
      rw [← Int.cast_natCast, Int.natAbs_of_nonneg hnum.le]
    rw [h1]
    exact (Rat.num_div_den q).symm
  set n := q.num.natAbs
  set d := q.den
  set bn := bitLength n
  set bd := bitLength d
  have n1' : (2 : ℚ) ^ bn ≤ 2 * (n : ℚ) := by exact_mod_cast n1
  have n2' : (n : ℚ) < (2 : ℚ) ^ bn := by exact_mod_cast n2
  have d1' : (2 : ℚ) ^ bd ≤ 2 * (d : ℚ) := by exact_mod_cast d1
  have d2' : (d : ℚ) < (2 : ℚ) ^ bd := by exact_mod_cast d2
  have hd' : (0 : ℚ) < (d : ℚ) := by exact_mod_cast hd
  have hn' : (0 : ℚ) < (n : ℚ) := by exact_mod_cast hn
  have hbd : (0 : ℚ) < (2 : ℚ) ^ bd := by positivity
  have hbn : (0 : ℚ) < (2 : ℚ) ^ bn := by positivity
  have e1 : pow2 ((bn : Int) - (bd : Int) - 1) = (2 : ℚ) ^ bn / ((2 : ℚ) ^ bd * 2) := by
    have : ((bn : Int) - (bd : Int) - 1) = (bn : Int) + (-(bd : Int)) + (-((1 : ℕ) : Int)) := by
      push_cast
      ring
    rw [this, pow2_add, pow2_add, pow2_neg, pow2_neg, pow2_natCast, pow2_natCast, pow2_natCast]
    field_simp
  have e2 : pow2 ((bn : Int) - (bd : Int) + 1) = (2 : ℚ) ^ bn * 2 / (2 : ℚ) ^ bd := by
    have : ((bn : Int) - (bd : Int) + 1) = (bn : Int) + (-(bd : Int)) + (((1 : ℕ) : Int)) := by
      push_cast
      ring
    rw [this, pow2_add, pow2_add, pow2_neg, pow2_natCast, pow2_natCast, pow2_natCast]
    field_simp
  rw [e1, e2]
  constructor
  · rw [hqe, div_le_div_iff₀ (by positivity) hd']
    nlinarith
  · rw [hqe, div_lt_div_iff₀ hd' hbd]
    nlinarith

theorem binade_ge (q : ℚ) : -1022 ≤ binade q := by
  unfold binade
  exact le_max_right _ _

theorem binade_cases (q : ℚ) (hq : 0 < q) : binade q = -1022 ∨ pow2 (binade q) ≤ q := by
  obtain ⟨h1, _⟩ := rat_between_pow2 q hq
  unfold binade
  simp only
  rcases max_choice (if pow2 ((bitLength q.num.natAbs : Int) - (bitLength q.den : Int)) ≤ q
      then (bitLength q.num.natAbs : Int) - (bitLength q.den : Int)
      else (bitLength q.num.natAbs : Int) - (bitLength q.den : Int) - 1) (-1022) with h | h
  · right
    rw [h]
    split_ifs with hc
    · exact hc
    · exact h1
  · left
    exact h

theorem binade_lower (q : ℚ) (hq : pow2 (-1022) ≤ q) : pow2 (binade q) ≤ q := by
  have hq0 : 0 < q := lt_of_lt_of_le (pow2_pos _) hq
  rcases binade_cases q hq0 with h | h
  · rw [h]
    exact hq
  · exact h

theorem binade_upper (q : ℚ) (hq : 0 < q) : q < pow2 (binade q + 1) := by
  obtain ⟨_, h2⟩ := rat_between_pow2 q hq
  have hlt : q < pow2 ((if pow2 ((bitLength q.num.natAbs : Int) - (bitLength q.den : Int)) ≤ q
      then (bitLength q.num.natAbs : Int) - (bitLength q.den : Int)
      else (bitLength q.num.natAbs : Int) - (bitLength q.den : Int) - 1) + 1) := by
    split_ifs with hc
    · exact h2
    · rw [sub_add_cancel]
      exact not_le.mp hc
  unfold binade
  simp only
  exact lt_of_lt_of_le hlt (pow2_le_pow2 (by
    have := le_max_left (if pow2 ((bitLength q.num.natAbs : Int) - (bitLength q.den : Int)) ≤ q
      then (bitLength q.num.natAbs : Int) - (bitLength q.den : Int)
      else (bitLength q.num.natAbs : Int) - (bitLength q.den : Int) - 1) (-1022)
    omega))

theorem roundHalfEven_error (m : ℚ) : |(roundHalfEven m : ℚ) - m| ≤ 1 / 2 := by
  have h1 := Int.floor_le m
  have h2 := Int.lt_floor_add_one m
  unfold roundHalfEven
  rw [abs_le]
  split_ifs with a b c
  · constructor <;> linarith
  · push_cast
    constructor <;> linarith
  · constructor <;> linarith
  · push_cast
    constructor <;> linarith

theorem roundHalfEven_le (m : ℚ) (N : Int) (h : m ≤ N) : roundHalfEven m ≤ N := by
  have h1 := Int.floor_le m
  have hf : ⌊m⌋ ≤ N := Int.floor_le_iff.mpr (by linarith [Int.lt_floor_add_one m, h] : m < N + 1) |>.trans (le_refl _)
  have hlt : ⌊m⌋ < m → ⌊m⌋ + 1 ≤ N := by
    intro hh
    have : (⌊m⌋ : ℚ) < N := lt_of_lt_of_le hh h
    have : ⌊m⌋ < N := by exact_mod_cast this
    omega
  unfold roundHalfEven
  split_ifs with a b c
  · exact hf
  · exact hlt (by linarith)
  · exact hf
  · exact hlt (by linarith)

theorem roundHalfEven_nonneg (m : ℚ) (h : 0 ≤ m) : 0 ≤ roundHalfEven m := by
  have hf : 0 ≤ ⌊m⌋ := Int.floor_nonneg.mpr h
  unfold roundHalfEven
  split_ifs <;> omega

theorem roundMagnitude_nonneg (a : ℚ) (ha : 0 ≤ a) : 0 ≤ roundMagnitude a := by
  unfold roundMagnitude
  have h1 : 0 ≤ a / pow2 (binade a - 52) := div_nonneg ha (pow2_pos _).le
  have h2 : (0 : ℚ) ≤ (roundHalfEven (a / pow2 (binade a - 52)) : ℚ) := by
    exact_mod_cast roundHalfEven_nonneg _ h1
  exact mul_nonneg h2 (pow2_pos _).le

theorem roundMagnitude_le_nat (a : ℚ) (ha : 0 < a) (n : ℕ) (han : a ≤ n)
    (hn : (n : ℚ) < 2 ^ 53) : roundMagnitude a ≤ n := by
  have he : binade a ≤ 52 := by
    rcases binade_cases a ha with h | h
    · rw [h]
      norm_num
    · have h1 : pow2 (binade a) < pow2 53 := by
        have e : pow2 53 = (2 : ℚ) ^ 53 := pow2_natCast 53
        rw [e]
        linarith
      have := pow2_lt_pow2_iff.mp h1
      omega
  obtain ⟨j, hj⟩ := Int.eq_ofNat_of_zero_le (show 0 ≤ 52 - binade a by omega)
  have hu : pow2 (binade a - 52) = ((2 : ℚ) ^ j)⁻¹ := by
    have : binade a - 52 = -(j : Int) := by omega
    rw [this, pow2_neg, pow2_natCast]
  unfold roundMagnitude
  rw [hu]
  have hpos : (0 : ℚ) < (2 : ℚ) ^ j := by positivity
  have hm : a / ((2 : ℚ) ^ j)⁻¹ ≤ (((n * 2 ^ j : ℕ) : Int) : ℚ) := by
    rw [div_inv_eq_mul]
    push_cast
    exact mul_le_mul_of_nonneg_right han hpos.le
  have hr := roundHalfEven_le _ _ hm
  have hr' : (roundHalfEven (a / ((2 : ℚ) ^ j)⁻¹) : ℚ) ≤ (n : ℚ) * 2 ^ j := by
    have : ((roundHalfEven (a / ((2 : ℚ) ^ j)⁻¹) : Int) : ℚ) ≤ (((n * 2 ^ j : ℕ) : Int) : ℚ) := by
      exact_mod_cast hr
    push_cast at this
    exact this
  calc (roundHalfEven (a / ((2 : ℚ) ^ j)⁻¹) : ℚ) * ((2 : ℚ) ^ j)⁻¹
      ≤ (n : ℚ) * 2 ^ j * ((2 : ℚ) ^ j)⁻¹ :=
        mul_le_mul_of_nonneg_right hr' (inv_nonneg.mpr hpos.le)
    _ = n := by field_simp

theorem roundMagnitude_error (a : ℚ) (ha : pow2 (-1022) ≤ a) :
    |roundMagnitude a - a| ≤ a / 2 ^ 53 := by
  have hlow := binade_lower a ha
  have hu : 0 < pow2 (binade a - 52) := pow2_pos _
  have he := roundHalfEven_error (a / pow2 (binade a - 52))
  have hsplit : pow2 (binade a) = pow2 (binade a - 52) * 2 ^ 52 := by
    have : binade a = (binade a - 52) + ((52 : ℕ) : Int) := by
      push_cast
      ring
    conv_lhs => rw [this]
    rw [pow2_add, pow2_natCast]
  unfold roundMagnitude
  have e : (roundHalfEven (a / pow2 (binade a - 52)) : ℚ) * pow2 (binade a - 52) - a
      = ((roundHalfEven (a / pow2 (binade a - 52)) : ℚ) - a / pow2 (binade a - 52))
        * pow2 (binade a - 52) := by
    field_simp
  rw [e, abs_mul, abs_of_pos hu]
  calc |(roundHalfEven (a / pow2 (binade a - 52)) : ℚ) - a / pow2 (binade a - 52)|
        * pow2 (binade a - 52)
      ≤ 1 / 2 * pow2 (binade a - 52) := mul_le_mul_of_nonneg_right he hu.le
    _ = pow2 (binade a) / 2 ^ 53 := by
        rw [hsplit]
        ring
    _ ≤ a / 2 ^ 53 := div_le_div_of_nonneg_right hlow (by positivity)

theorem toDouble_zero : toDouble 0 = 0 := by
  simp [toDouble]

theorem toDouble_of_pos (q : ℚ) (h : 0 < q) : toDouble q = roundMagnitude q := by
  unfold toDouble
  rw [if_neg (ne_of_gt h), if_neg (not_lt.mpr h.le)]

theorem toDouble_nonneg (q : ℚ) (h : 0 ≤ q) : 0 ≤ toDouble q := by
  rcases eq_or_lt_of_le h with h0 | hpos
  · rw [← h0, toDouble_zero]
  · rw [toDouble_of_pos q hpos]
    exact roundMagnitude_nonneg q h

theorem toDouble_le_nat (q : ℚ) (h : 0 ≤ q) (n : ℕ) (hqn : q ≤ n) (hn : (n : ℚ) < 2 ^ 53) :
    toDouble q ≤ n := by
  rcases eq_or_lt_of_le h with h0 | hpos
  · rw [← h0, toDouble_zero]
    exact Nat.cast_nonneg n
  · rw [toDouble_of_pos q hpos]
    exact roundMagnitude_le_nat q hpos n hqn hn

theorem toDouble_error (q : ℚ) (h : pow2 (-1022) ≤ q) : |toDouble q - q| ≤ q / 2 ^ 53 := by
  rw [toDouble_of_pos q (lt_of_lt_of_le (pow2_pos _) h)]
  exact roundMagnitude_error q h

theorem jsRatio_range (a b : ℕ) (hab : a ≤ b) (hb : 0 < b) :
    0 ≤ jsMul (jsDiv a b) 100 ∧ jsMul (jsDiv a b) 100 ≤ 100 := by
  have hb' : (0 : ℚ) < (b : ℚ) := by exact_mod_cast hb
  have hq0 : (0 : ℚ) ≤ (a : ℚ) / b := div_nonneg (Nat.cast_nonneg a) hb'.le
  have hq1 : (a : ℚ) / b ≤ ((1 : ℕ) : ℚ) := by
    rw [Nat.cast_one, div_le_one hb']
    exact_mod_cast hab
  have hx0 := toDouble_nonneg _ hq0
  have hx1 := toDouble_le_nat _ hq0 1 hq1 (by norm_num)
  rw [Nat.cast_one] at hx1
  unfold jsMul jsDiv
  have hy0 : 0 ≤ toDouble ((a : ℚ) / b) * 100 := by positivity
  have hy1 : toDouble ((a : ℚ) / b) * 100 ≤ ((100 : ℕ) : ℚ) := by
    push_cast
    linarith
  refine ⟨toDouble_nonneg _ hy0, ?_⟩
  have := toDouble_le_nat _ hy0 100 hy1 (by norm_num)
  exact_mod_cast this

theorem jsRatio_bounds (a b : ℕ) (hab : a ≤ b) (hb : 0 < b) :
    0 ≤ mathRound (jsMul (jsDiv a b) 100) ∧ mathRound (jsMul (jsDiv a b) 100) ≤ 100 := by
  obtain ⟨h0, h1⟩ := jsRatio_range a b hab hb
  unfold mathRound
  constructor
  · apply Int.floor_nonneg.mpr
    linarith
  · have : ⌊jsMul (jsDiv a b) 100 + 1 / 2⌋ < 101 := by
      apply Int.floor_lt.mpr
      push_cast
      linarith
    omega

theorem jsRatio_near (a b : ℕ) (hab : a ≤ b) (hb : 0 < b) (hb2 : b ≤ 2 ^ 44) :
    |jsMul (jsDiv a b) 100 - 100 * (a : ℚ) / b| ≤ 201 / 2 ^ 53 := by
  have hb' : (0 : ℚ) < (b : ℚ) := by exact_mod_cast hb
  rcases Nat.eq_zero_or_pos a with ha | ha
  · subst ha
    simp only [jsMul, jsDiv, Nat.cast_zero, zero_div, toDouble_zero, zero_mul, mul_zero, sub_self,
      abs_zero]
    positivity
  · have ha' : (1 : ℚ) ≤ (a : ℚ) := by exact_mod_cast ha
    have hb2' : (b : ℚ) ≤ 2 ^ 44 := by exact_mod_cast hb2
    have hq1 : (a : ℚ) / b ≤ 1 := by
      rw [div_le_one hb']
      exact_mod_cast hab
    have hqlow : (1 : ℚ) / 2 ^ 44 ≤ (a : ℚ) / b := by
      rw [div_le_div_iff₀ (by positivity) hb']
      nlinarith
    have hmin : pow2 (-1022) ≤ 1 / 2 ^ 45 := by
      have e : (1 : ℚ) / 2 ^ 45 = pow2 (-45) := by
        have : (-45 : Int) = -((45 : ℕ) : Int) := by norm_num
        rw [this, pow2_neg, pow2_natCast, one_div]
      rw [e]
      exact pow2_le_pow2 (by norm_num)
    have h45 : (1 : ℚ) / 2 ^ 45 ≤ 1 / 2 ^ 44 := by
      apply one_div_le_one_div_of_le (by positivity)
      norm_num
    have e1 := toDouble_error ((a : ℚ) / b) (by linarith)
    rw [abs_le] at e1
    have hx45 : (1 : ℚ) / 2 ^ 45 ≤ toDouble ((a : ℚ) / b) := by
      have : (a : ℚ) / b / 2 ^ 53 ≤ (a : ℚ) / b / 2 := by
        apply div_le_div_of_nonneg_left (by linarith) (by norm_num) (by norm_num)
      have h2 : (1 : ℚ) / 2 ^ 45 = 1 / 2 ^ 44 / 2 := by norm_num
      linarith
    have hxpos : 0 < toDouble ((a : ℚ) / b) := lt_of_lt_of_le (by positivity) hx45
    have e2 := toDouble_error (toDouble ((a : ℚ) / b) * 100) (by linarith)
    rw [abs_le] at e2
    unfold jsMul jsDiv
    have hq53 : (a : ℚ) / b / 2 ^ 53 ≤ 1 / 2 ^ 53 :=
      div_le_div_of_nonneg_right hq1 (by positivity)
    have hx2 : toDouble ((a : ℚ) / b) ≤ 2 := by linarith [show (1 : ℚ) / 2 ^ 53 ≤ 1 by norm_num]
    have hx53 : toDouble ((a : ℚ) / b) * 100 / 2 ^ 53 ≤ (1 + 1 / 2 ^ 53) * 100 / 2 ^ 53 := by
      apply div_le_div_of_nonneg_right _ (by positivity)
      nlinarith
    have e : (100 : ℚ) * (a : ℚ) / b = (a : ℚ) / b * 100 := by ring
    rw [e, abs_le]
    constructor
    · have : (201 : ℚ) / 2 ^ 53 ≥ (1 + 1 / 2 ^ 53) * 100 / 2 ^ 53 + 100 * (1 / 2 ^ 53) := by
        norm_num
      nlinarith
    · have : (201 : ℚ) / 2 ^ 53 ≥ (1 + 1 / 2 ^ 53) * 100 / 2 ^ 53 + 100 * (1 / 2 ^ 53) := by
        norm_num
      nlinarith

theorem jsRatio_round (a b : ℕ) (hab : a ≤ b) (hb : 0 < b) (hb2 : b ≤ 2 ^ 44) :
    mathRound (jsMul (jsDiv a b) 100) = ⌊100 * (a : ℚ) / b + 1 / 2⌋ ∨
    (100 * (a : ℚ) / b + 1 / 2 = ⌊100 * (a : ℚ) / b + 1 / 2⌋ ∧
      mathRound (jsMul (jsDiv a b) 100) = ⌊100 * (a : ℚ) / b + 1 / 2⌋ - 1) := by
  have hnear := jsRatio_near a b hab hb hb2
  rw [abs_le] at hnear
  have hb' : (0 : ℚ) < (b : ℚ) := by exact_mod_cast hb
  have hb2' : (b : ℚ) ≤ 2 ^ 44 := by exact_mod_cast hb2
  have hwM : 100 * (a : ℚ) / b + 1 / 2 = ((200 * a + b : ℕ) : ℚ) / (2 * b) := by
    push_cast
    field_simp
    ring
  have hv : 100 * (a : ℚ) / b = (100 * (a : ℚ) / b + 1 / 2) - 1 / 2 := by ring
  rw [hv] at hnear
  generalize jsMul (jsDiv a b) 100 = y at hnear ⊢
  generalize 100 * (a : ℚ) / b + 1 / 2 = w at hnear hwM ⊢
  obtain ⟨hn1, hn2⟩ := hnear
  generalize hk : ⌊w⌋ = k
  have hk1 : (k : ℚ) ≤ w := hk ▸ Int.floor_le w
  have hk2 : w < k + 1 := hk ▸ Int.lt_floor_add_one w
  have hδ : (201 : ℚ) / 2 ^ 53 < 1 / (2 * b) := by
    rw [div_lt_div_iff₀ (by positivity) (by positivity)]
    have : (2 : ℚ) ^ 53 = 2 ^ 44 * 512 := by norm_num
    nlinarith
  have hupper : w + 1 / (2 * b) ≤ k + 1 := by
    have h1 : ((200 * a + b : ℕ) : ℚ) < ((k + 1) * (2 * b : ℕ) : Int) := by
      rw [hwM, div_lt_iff₀ (by positivity)] at hk2
      push_cast
      push_cast at hk2
      linarith
    have h2 : ((200 * a + b : ℕ) : Int) < (k + 1) * (2 * b : ℕ) := by exact_mod_cast h1
    have h3 : ((200 * a + b : ℕ) : Int) + 1 ≤ (k + 1) * (2 * b : ℕ) := by omega
    have h4 : (((200 * a + b : ℕ) : Int) : ℚ) + 1 ≤ ((k + 1) * (2 * b : ℕ) : Int) := by
      exact_mod_cast h3
    rw [hwM, ← add_div, div_le_iff₀ (by positivity)]
    push_cast at h4
    push_cast
    linarith
  have hple : mathRound y ≤ k := by
    have : mathRound y < k + 1 := by
      unfold mathRound
      apply Int.floor_lt.mpr
      push_cast
      linarith
    omega
  by_cases hwk : w = k
  · have hpge : k - 1 ≤ mathRound y := by
      unfold mathRound
      apply Int.le_floor.mpr
      push_cast
      have : (201 : ℚ) / 2 ^ 53 < 1 := by norm_num
      linarith
    by_cases hp : mathRound y = k
    · exact Or.inl hp
    · exact Or.inr ⟨hwk, by omega⟩
  · left
    have hlt : (k : ℚ) < w := lt_of_le_of_ne hk1 (Ne.symm hwk)
    have hlower : (k : ℚ) + 1 / (2 * b) ≤ w := by
      have h1 : ((k * (2 * b : ℕ) : Int) : ℚ) < ((200 * a + b : ℕ) : ℚ) := by
        rw [hwM, lt_div_iff₀ (by positivity)] at hlt
        push_cast
        push_cast at hlt
        linarith
      have h2 : k * (2 * b : ℕ) < ((200 * a + b : ℕ) : Int) := by exact_mod_cast h1
      have h3 : k * (2 * b : ℕ) + 1 ≤ ((200 * a + b : ℕ) : Int) := by omega
      have h4 : ((k * (2 * b : ℕ) : Int) : ℚ) + 1 ≤ (((200 * a + b : ℕ) : Int) : ℚ) := by
        exact_mod_cast h3
      rw [hwM, le_div_iff₀ (by positivity)]
      have e : ((k : ℚ) + 1 / (2 * b)) * (2 * b) = k * (2 * b) + 1 := by field_simp
      rw [e]
      push_cast at h4
      push_cast
      linarith
    have hpge : k ≤ mathRound y := by
      unfold mathRound
      apply Int.le_floor.mpr
      linarith
    omega

theorem statsInv_apply (u : StatsUpdate) (S : Stats) (h : StatsInv S) : StatsInv (u.apply S) := by
  obtain ⟨hle, h0, h100, hz, hr⟩ := h
  cases u with
  | exit =>
    have hb := jsRatio_bounds (S.recovered + 1) (S.totalProcessed + 1)
      (Nat.succ_le_succ hle) (Nat.succ_pos _)
    push_cast at hb
    refine ⟨?_, hb.1, hb.2, ?_, ?_⟩
    · simp only [StatsUpdate.apply]; omega
    · simp [StatsUpdate.apply]
    · intro _
      simp only [StatsUpdate.apply]
      push_cast
      rfl
  | cleaned => exact ⟨hle, h0, h100, hz, hr⟩
  | scrapped => exact ⟨hle, h0, h100, hz, hr⟩
  | scrapArrival =>
    have hb := jsRatio_bounds S.recovered (S.totalProcessed + 1)
      (Nat.le_succ_of_le hle) (Nat.succ_pos _)
    push_cast at hb
    refine ⟨?_, ?_, ?_, ?_, ?_⟩
    · simp only [StatsUpdate.apply]; omega
    · simp only [StatsUpdate.apply, orZero_eq]; exact hb.1
    · simp only [StatsUpdate.apply, orZero_eq]; exact hb.2
    · simp [StatsUpdate.apply]
    · intro _
      simp only [StatsUpdate.apply, orZero_eq]
      push_cast
      rfl

theorem statsInv_reachable (sqrt : ℚ → ℚ) (s : SimState) (hs : Reachable sqrt s) :
    StatsInv s.stats := by
  induction hs with
  | init => simp [initialState, initialStats, StatsInv]
  | spawn d _ ih => simpa [spawnStep] using ih
  | tick fr _ ih => exact applyStatsUpdates_preserves StatsInv statsInv_apply _ _ ih
  | start now _ ih => simpa [handleStart] using ih
  | stop now _ ih => simpa [handleStop] using ih
  | reset now _ ih => simp [handleReset, initialStats, StatsInv]

theorem reachable_runTicks (sqrt : ℚ → ℚ) (now : Int) (n : Nat) (s : SimState)
    (hs : Reachable sqrt s) : Reachable sqrt (runTicks sqrt now n s) := by
  induction n generalizing s with
  | zero => exact hs
  | succ n ih => exact ih _ (Reachable.tick (constFrame now) hs)

theorem reachable_startWith (sqrt : ℚ → ℚ) (d : SpawnDraws) : Reachable sqrt (startWith d) :=
  Reachable.spawn d (Reachable.start 0 Reachable.init)

theorem threeFields_applyStatsUpdates (us : List StatsUpdate) (S : Stats)
    (hus : ∀ u ∈ us, u = StatsUpdate.cleaned ∨ u = StatsUpdate.scrapped) :
    (applyStatsUpdates us S).totalProcessed = S.totalProcessed ∧
    (applyStatsUpdates us S).recovered = S.recovered ∧
    (applyStatsUpdates us S).recoveryPercentage = S.recoveryPercentage := by
  induction us generalizing S with
  | nil => simp [applyStatsUpdates]
  | cons u us ih =>
    have hu := hus u (List.mem_cons_self _ _)
    have ht := ih (u.apply S) (fun v hv => hus v (List.mem_cons_of_mem _ hv))
    simp only [applyStatsUpdates]
    rcases hu with hu | hu <;> subst hu <;> simpa [StatsUpdate.apply] using ht

theorem itemInv_reachable (sqrt : ℚ → ℚ) (s : SimState) (hs : Reachable sqrt s) :
    (∀ o ∈ s.mainBeltObjects, ItemInv o) ∧ (∀ o ∈ s.inspectionBeltObjects, ItemInv o) :=
  belts_invariant ItemInv ItemInv itemInv_spawn itemInv_main itemInv_insp sqrt s hs

theorem updateMainObj_not_diverted (now : Int) (r : Rand) (obj : Item)
    (hst : obj.state = ItemState.moving)
    (hd : ¬ (obj.contaminated = true ∧ 600 < obj.x ∧ obj.x < 650)) :
    updateMainObj now r obj = exitCheck { obj with x := obj.x + obj.velocity } [] := by
  have hdiv : (obj.contaminated && decide (obj.x > 600) && decide (obj.x < 650)
      && decide (obj.state = ItemState.moving)) = false := by
    rw [Bool.eq_false_iff]
    intro h
    simp only [Bool.and_eq_true, decide_eq_true_eq] at h
    exact hd ⟨h.1.1.1, h.1.1.2, h.1.2⟩
  unfold updateMainObj
  simp only [hdiv]
  simp [hst]

theorem updateMainObj_diverted (now : Int) (r : Rand) (obj : Item)
    (hst : obj.state = ItemState.moving)
    (hd : obj.contaminated = true ∧ 600 < obj.x ∧ obj.x < 650)
    (hy : obj.y + 4 < INSPECTION_BELT_Y) :
    updateMainObj now r obj =
      { kept := some { obj with state := ItemState.diverting, y := obj.y + 4, x := obj.x + 1 },
        toInspection := none, statsUpdates := [], messages := [divertMessage obj.name] } := by
  have hdiv : (obj.contaminated && decide (obj.x > 600) && decide (obj.x < 650)
      && decide (obj.state = ItemState.moving)) = true := by
    simp only [Bool.and_eq_true, decide_eq_true_eq]
    exact ⟨⟨⟨hd.1, hd.2.1⟩, hd.2.2⟩, hst⟩
  have hy' : ¬ (obj.y + 4 ≥ INSPECTION_BELT_Y) := not_le.mpr hy
  unfold updateMainObj exitCheck
  simp only [hdiv]
  simp [hy]

theorem updateInspectionObj_waiting (sqrt : ℚ → ℚ) (now t0 : Int) (obj : Item)
    (hst : obj.state = ItemState.inspecting) (ht : obj.inspectionStartTime = some t0)
    (hel : now - t0 ≤ INSPECTION_SCAN_DURATION) :
    updateInspectionObj sqrt now obj =
      { kept := some { obj with scanPulse := some (((Int.tmod (now - t0) 1000 : Int) : ℚ) / 1000) },
        toMain := none, statsUpdates := [], messages := [] } := by
  have hel' : ¬ (now - t0 > INSPECTION_SCAN_DURATION) := not_lt.mpr hel
  unfold updateInspectionObj
  simp [hst, ht, scanDone, hel']

theorem updateInspectionObj_cleaned (sqrt : ℚ → ℚ) (now t0 : Int) (obj : Item)
    (hst : obj.state = ItemState.inspecting) (ht : obj.inspectionStartTime = some t0)
    (hel : now - t0 > INSPECTION_SCAN_DURATION) (hc : obj.canBeCleaned = some true) :
    updateInspectionObj sqrt now obj =
      { kept := some { obj with
          scanPulse := some (((Int.tmod (now - t0) 1000 : Int) : ℚ) / 1000)
          state := ItemState.returning
          contaminated := false },
        toMain := none, statsUpdates := [StatsUpdate.cleaned],
        messages := [cleanedMessage obj.name] } := by
  unfold updateInspectionObj
  simp [hst, ht, scanDone, hel, hc]

theorem updateInspectionObj_scrapped (sqrt : ℚ → ℚ) (now t0 : Int) (obj : Item)
    (hst : obj.state = ItemState.inspecting) (ht : obj.inspectionStartTime = some t0)
    (hel : now - t0 > INSPECTION_SCAN_DURATION) (hc : obj.canBeCleaned ≠ some true) :
    updateInspectionObj sqrt now obj =
      { kept := some { obj with
          scanPulse := some (((Int.tmod (now - t0) 1000 : Int) : ℚ) / 1000)
          state := ItemState.scrapping },
        toMain := none, statsUpdates := [StatsUpdate.scrapped],
        messages := [scrapMessage obj.name] } := by
  unfold updateInspectionObj
  simp [hst, ht, scanDone, hel, hc]

/-! ### The worked runs -/

theorem reachable_beforeExit : Reachable ratSqrt beforeExit := by
  unfold beforeExit
  exact reachable_runTicks ratSqrt 0 1166 _ (reachable_startWith ratSqrt drawsClean)

theorem reachable_afterExit : Reachable ratSqrt afterExit := by
  unfold afterExit
  exact reachable_runTicks ratSqrt 0 1167 _ (reachable_startWith ratSqrt drawsClean)

theorem reachable_atWindowEdge : Reachable ratSqrt atWindowEdge := by
  unfold atWindowEdge
  exact reachable_runTicks ratSqrt 0 500 _ (reachable_startWith ratSqrt drawsScrap)

theorem reachable_inWindow : Reachable ratSqrt inWindow := by
  unfold inWindow
  exact reachable_runTicks ratSqrt 0 501 _ (reachable_startWith ratSqrt drawsScrap)

theorem reachable_underInspection : Reachable ratSqrt underInspection := by
  unfold underInspection
  exact reachable_runTicks ratSqrt 0 564 _ (reachable_startWith ratSqrt drawsScrap)

theorem reachable_scrapResolved : Reachable ratSqrt scrapResolved := by
  unfold scrapResolved
  exact Reachable.tick _ (reachable_runTicks ratSqrt 0 564 _ (reachable_startWith ratSqrt drawsScrap))

theorem reachable_cleanResolved : Reachable ratSqrt cleanResolved := by
  unfold cleanResolved
  exact Reachable.tick _
    (reachable_runTicks ratSqrt 0 564 _ (reachable_startWith ratSqrt drawsCleanable))

set_option maxRecDepth 100000 in
theorem beforeExit_main : beforeExit.mainBeltObjects = [exitItem] := by decide!

set_option maxRecDepth 100000 in
theorem afterExit_stats :
    afterExit.stats =
      { totalProcessed := 1, diverted := 0, cleaned := 0, scrapped := 0, recovered := 1,
        recoveryPercentage := 100 } := by decide!

set_option maxRecDepth 100000 in
theorem atWindowEdge_main : atWindowEdge.mainBeltObjects = [edgeItem] := by decide!

set_option maxRecDepth 100000 in
theorem inWindow_main : inWindow.mainBeltObjects = [windowItem] := by decide!

set_option maxRecDepth 100000 in
theorem underInspection_insp : underInspection.inspectionBeltObjects = [inspectingItem] := by
  decide!

/-! ## The claims -/

set_option maxRecDepth 100000 in
/-- C1, as stated, fails: once the contaminated bottle that cannot be cleaned has been
diverted, scanned and resolved as unsalvageable, `scrapped` is `1` while `totalProcessed`
and `recovered` are still `0`. -/
theorem conservation_fails_while_scrapping :
    Reachable ratSqrt scrapResolved ∧
    scrapResolved.stats =
      { totalProcessed := 0, diverted := 1, cleaned := 0, scrapped := 1, recovered := 0,
        recoveryPercentage := 100 } ∧
    scrapResolved.stats.totalProcessed
      ≠ scrapResolved.stats.recovered + scrapResolved.stats.scrapped :=
  ⟨reachable_scrapResolved, by decide!, by decide!⟩

/-- C1 (amended): in every reachable state `totalProcessed` plus the number of objects in
state `scrapping` on the inspection belt equals `recovered + scrapped`; so
`totalProcessed == recovered + scrapped` holds whenever no scrapping object is in flight. -/
theorem conservation_with_scrap_in_flight (sqrt : ℚ → ℚ) (s : SimState)
    (hs : Reachable sqrt s) :
    s.stats.totalProcessed + scrappingCount s.inspectionBeltObjects
        = s.stats.recovered + s.stats.scrapped
    ∧ (scrappingCount s.inspectionBeltObjects = 0 →
        s.stats.totalProcessed = s.stats.recovered + s.stats.scrapped) := by
  have h := scrapDeficit_reachable sqrt s hs
  unfold scrapDeficit at h
  constructor
  · omega
  · intro h0
    omega

theorem conservation_with_scrap_in_flight_witness :
    scrapResolved.stats.totalProcessed + scrappingCount scrapResolved.inspectionBeltObjects
      = scrapResolved.stats.recovered + scrapResolved.stats.scrapped :=
  (conservation_with_scrap_in_flight ratSqrt scrapResolved reachable_scrapResolved).1

/-- C2: in every reachable state `recoveryPercentage` (an integer by its type) lies in
`[0, 100]` and equals `100` when `totalProcessed` is `0`; `recovered <= totalProcessed`
holds throughout. -/
theorem recovery_rate_bounds (sqrt : ℚ → ℚ) (s : SimState) (hs : Reachable sqrt s) :
    0 ≤ s.stats.recoveryPercentage ∧ s.stats.recoveryPercentage ≤ 100 ∧
    (s.stats.totalProcessed = 0 → s.stats.recoveryPercentage = 100) ∧
    s.stats.recovered ≤ s.stats.totalProcessed := by
  obtain ⟨h1, h2, h3, h4, _⟩ := statsInv_reachable sqrt s hs
  exact ⟨h2, h3, h4, h1⟩

theorem recovery_rate_bounds_witness :
    (startWith drawsClean).stats.totalProcessed = 0 ∧
    (startWith drawsClean).stats.recoveryPercentage = 100 :=
  ⟨rfl, (recovery_rate_bounds ratSqrt (startWith drawsClean)
    (reachable_startWith ratSqrt drawsClean)).2.2.1 rfl⟩

/-- C3 (amended): in every reachable state with `totalProcessed > 0`, `recoveryPercentage`
is `Math.round` of the double product `(recovered / totalProcessed) * 100`, on the current
values of both counters. While `totalProcessed <= 2 ^ 44` this is `100 * recovered /
totalProcessed` rounded half up, except that where this value lies exactly halfway between
two integers the result may be the lower one. The exit updater and the scrap-bin updater
both establish the formula on their own results, and the two resolution updaters, the
spawner and the start and stop controls leave `totalProcessed`, `recovered` and
`recoveryPercentage` as they are. -/
theorem recovery_rate_formula :
    (∀ (sqrt : ℚ → ℚ) (s : SimState), Reachable sqrt s → 0 < s.stats.totalProcessed →
      s.stats.recoveryPercentage
        = mathRound (jsMul (jsDiv (s.stats.recovered : ℚ) (s.stats.totalProcessed : ℚ)) 100) ∧
      (s.stats.totalProcessed ≤ 2 ^ 44 →
        s.stats.recoveryPercentage
          = ⌊100 * (s.stats.recovered : ℚ) / (s.stats.totalProcessed : ℚ) + 1 / 2⌋ ∨
        (100 * (s.stats.recovered : ℚ) / (s.stats.totalProcessed : ℚ) + 1 / 2
            = ⌊100 * (s.stats.recovered : ℚ) / (s.stats.totalProcessed : ℚ) + 1 / 2⌋ ∧
          s.stats.recoveryPercentage
            = ⌊100 * (s.stats.recovered : ℚ) / (s.stats.totalProcessed : ℚ) + 1 / 2⌋ - 1))) ∧
    (∀ (u : StatsUpdate) (S : Stats), u = StatsUpdate.exit ∨ u = StatsUpdate.scrapArrival →
      (u.apply S).recoveryPercentage
        = mathRound (jsMul (jsDiv ((u.apply S).recovered : ℚ)
            ((u.apply S).totalProcessed : ℚ)) 100)) ∧
    (∀ (us : List StatsUpdate) (S : Stats),
      (∀ u ∈ us, u = StatsUpdate.cleaned ∨ u = StatsUpdate.scrapped) →
      (applyStatsUpdates us S).totalProcessed = S.totalProcessed ∧
      (applyStatsUpdates us S).recovered = S.recovered ∧
      (applyStatsUpdates us S).recoveryPercentage = S.recoveryPercentage) ∧
    (∀ (d : SpawnDraws) (s : SimState), (spawnStep d s).stats = s.stats) ∧
    (∀ (now : Int) (s : SimState),
      (handleStart now s).stats = s.stats ∧ (handleStop now s).stats = s.stats) := by
  refine ⟨?_, ?_, threeFields_applyStatsUpdates, fun _ _ => rfl, fun _ _ => ⟨rfl, rfl⟩⟩
  · intro sqrt s hs hpos
    obtain ⟨hle, _, _, _, h5⟩ := statsInv_reachable sqrt s hs
    refine ⟨h5 hpos, fun h44 => ?_⟩
    rw [h5 hpos]
    exact jsRatio_round _ _ hle hpos h44
  · intro u S hu
    rcases hu with hu | hu <;> subst hu
    · simp only [StatsUpdate.apply]
      push_cast
      rfl
    · simp only [StatsUpdate.apply, orZero_eq]
      push_cast
      rfl

theorem recovery_rate_formula_witness :
    0 < afterExit.stats.totalProcessed ∧
    afterExit.stats.recoveryPercentage
      = mathRound (jsMul (jsDiv (afterExit.stats.recovered : ℚ)
          (afterExit.stats.totalProcessed : ℚ)) 100) :=
  ⟨by rw [afterExit_stats]; decide,
    (recovery_rate_formula.1 ratSqrt afterExit reachable_afterExit
      (by rw [afterExit_stats]; decide)).1⟩

set_option maxRecDepth 100000 in
/-- C4, as stated, fails: after the contaminated, cleanable bottle has been diverted,
scanned and resolved as cleaned, it sits on the inspection belt in state `returning` with
`contaminated == false` and still carries its contaminant descriptor. -/
theorem contaminant_kept_after_cleaning :
    Reachable ratSqrt cleanResolved ∧
    cleanResolved.inspectionBeltObjects.map (fun o => (o.state, o.contaminated, o.contaminant))
      = [(ItemState.returning, false, some soiledGloves)] :=
  ⟨reachable_cleanResolved, by decide!⟩

/-- C4 (amended): in every reachable state every item on either belt that is contaminated
carries a contaminant descriptor, and an item that carries a descriptor while its flag is
false is a cleanable item in state `returning` or `moving`; the resolution of an inspecting
item as cleaned sets `contaminated` to false and keeps the contaminant descriptor. -/
theorem contaminant_present_while_contaminated :
    (∀ (sqrt : ℚ → ℚ) (s : SimState), Reachable sqrt s →
      ∀ o ∈ s.mainBeltObjects ++ s.inspectionBeltObjects,
        (o.contaminated = true → o.contaminant ≠ none) ∧
        (o.contaminant ≠ none → o.contaminated = false →
          o.canBeCleaned = some true ∧
          (o.state = ItemState.returning ∨ o.state = ItemState.moving))) ∧
    (∀ (sqrt : ℚ → ℚ) (now t0 : Int) (obj : Item),
      obj.state = ItemState.inspecting → obj.inspectionStartTime = some t0 →
      now - t0 > INSPECTION_SCAN_DURATION → obj.canBeCleaned = some true →
      ∃ o, (updateInspectionObj sqrt now obj).kept = some o ∧ o.contaminated = false ∧
        o.contaminant = obj.contaminant) := by
  constructor
  · intro sqrt s hs o ho
    have h := itemInv_reachable sqrt s hs
    rcases List.mem_append.mp ho with ho | ho
    · exact (h.1 o ho).2.2
    · exact (h.2 o ho).2.2
  · intro sqrt now t0 obj hst ht hel hc
    rw [updateInspectionObj_cleaned sqrt now t0 obj hst ht hel hc]
    exact ⟨_, rfl, rfl, rfl⟩

theorem contaminant_present_while_contaminated_witness :
    ∃ o, (updateInspectionObj ratSqrt 3001 { inspectingItem with canBeCleaned := some true }).kept
        = some o ∧ o.contaminated = false ∧ o.contaminant = some soiledGloves :=
  contaminant_present_while_contaminated.2 ratSqrt 3001 0
    { inspectingItem with canBeCleaned := some true } rfl rfl (by decide) rfl

/-- C5: in every reachable state every item on either belt with `contaminated == true`
carries a contaminant; the spawner attaches one exactly when it marks the item contaminated,
and neither belt callback sets `contaminated` to true or changes the contaminant. -/
theorem contamination_invariant :
    (∀ (sqrt : ℚ → ℚ) (s : SimState), Reachable sqrt s →
      ∀ o ∈ s.mainBeltObjects ++ s.inspectionBeltObjects,
        o.contaminated = true → o.contaminant ≠ none) ∧
    (∀ d : SpawnDraws,
      ((spawnRecyclable d).1.contaminated = true ↔ (spawnRecyclable d).1.contaminant ≠ none)) ∧
    (∀ (now : Int) (r : Rand) (obj o : Item),
      (updateMainObj now r obj).kept = some o ∨ (updateMainObj now r obj).toInspection = some o →
      (o.contaminated = true → obj.contaminated = true) ∧ o.contaminant = obj.contaminant) ∧
    (∀ (sqrt : ℚ → ℚ) (now : Int) (obj o : Item),
      (updateInspectionObj sqrt now obj).kept = some o ∨
        (updateInspectionObj sqrt now obj).toMain = some o →
      (o.contaminated = true → obj.contaminated = true) ∧ o.contaminant = obj.contaminant) := by
  refine ⟨?_, ?_, ?_, ?_⟩
  · intro sqrt s hs o ho
    have h := itemInv_reachable sqrt s hs
    rcases List.mem_append.mp ho with ho | ho
    · exact (h.1 o ho).2.2.1
    · exact (h.2 o ho).2.2.1
  · intro d
    unfold spawnRecyclable
    by_cases h : d.rContaminated.val < 0.1 <;> simp [h]
  · intro now r obj o ho
    unfold updateMainObj exitCheck at ho
    simp only at ho
    rcases ho with ho | ho <;> split_ifs at ho <;> cases ho <;> simp
  · intro sqrt now obj o ho
    unfold updateInspectionObj at ho
    rcases ho with ho | ho <;> split at ho <;> simp only at ho <;> (try split_ifs at ho) <;>
      cases ho <;> simp

theorem contamination_invariant_witness :
    inspectingItem.contaminated = true ∧ inspectingItem.contaminant ≠ none :=
  ⟨rfl, contamination_invariant.1 ratSqrt underInspection reachable_underInspection
    inspectingItem (by rw [underInspection_insp]; simp) rfl⟩

/-- C6: `addEvent(m)` puts the new event in front of the first five entries of the old
list, kept in their order and without deduplication, so the new length is
`min(|L| + 1, 6)`; the event list never holds more than 6 entries in a reachable state. -/
theorem event_recorder :
    (∀ (now : Int) (m : String) (L : List Event),
      addEvent now m L = { id := now, message := m, time := now } :: L.take 5 ∧
      (addEvent now m L).head? = some { id := now, message := m, time := now } ∧
      (∀ i, i < 5 → (addEvent now m L).get? (i + 1) = L.get? i) ∧
      (addEvent now m L).length = min (L.length + 1) 6) ∧
    (∀ (sqrt : ℚ → ℚ) (s : SimState), Reachable sqrt s → s.events.length ≤ 6) := by
  constructor
  · intro now m L
    refine ⟨rfl, rfl, ?_, addEvent_length now m L⟩
    intro i hi
    simp [addEvent, List.getElem?_take, hi]
  · intro sqrt s hs
    induction hs with
    | init => simp [initialState]
    | spawn d _ ih => exact addEvents_length_le _ _ _ _ ih
    | tick fr _ ih => exact addEvents_length_le _ _ _ _ ih
    | start now _ ih =>
      simp only [handleStart, addEvent_length]
      omega
    | stop now _ ih =>
      simp only [handleStop, addEvent_length]
      omega
    | reset now _ ih => simp [handleReset, addEvent]

theorem event_recorder_witness : underInspection.events.length ≤ 6 :=
  event_recorder.2 ratSqrt underInspection reachable_underInspection

/-- C7 (amended): for a moving main-belt item of a reachable state whose advanced position
`x + velocity` exceeds 1400, the callback returns `null` (the item is removed) and hands
nothing to the inspection belt; it queues the exit updater exactly when the item is not
contaminated, and no updater otherwise. The exit updater adds 1 to `totalProcessed` and to
`recovered`, leaves `diverted`, `cleaned` and `scrapped` alone, and sets `recoveryPercentage`
to `Math.round` of the double product `((recovered + 1) / (totalProcessed + 1)) * 100`;
while `totalProcessed < 2 ^ 44` this is `100 * (recovered + 1) / (totalProcessed + 1)` rounded
half up, except that where this value lies exactly halfway between two integers the result
may be the lower one. An item whose advanced position is at most 1400 stays on the main
belt and queues no updater. -/
theorem exit_transition (sqrt : ℚ → ℚ) (s : SimState) (hs : Reachable sqrt s) (obj : Item)
    (hobj : obj ∈ s.mainBeltObjects) (hst : obj.state = ItemState.moving)
    (now : Int) (r : Rand) :
    (obj.x + obj.velocity > 1400 →
      (updateMainObj now r obj).kept = none ∧
      (updateMainObj now r obj).toInspection = none ∧
      (obj.contaminated = false → (updateMainObj now r obj).statsUpdates = [StatsUpdate.exit]) ∧
      (obj.contaminated = true → (updateMainObj now r obj).statsUpdates = [])) ∧
    (∀ S : Stats,
      (StatsUpdate.exit.apply S).totalProcessed = S.totalProcessed + 1 ∧
      (StatsUpdate.exit.apply S).recovered = S.recovered + 1 ∧
      (StatsUpdate.exit.apply S).recoveryPercentage
        = mathRound (jsMul (jsDiv ((S.recovered : ℚ) + 1) ((S.totalProcessed : ℚ) + 1)) 100) ∧
      (S.recovered ≤ S.totalProcessed → S.totalProcessed < 2 ^ 44 →
        (StatsUpdate.exit.apply S).recoveryPercentage
          = ⌊100 * ((S.recovered : ℚ) + 1) / ((S.totalProcessed : ℚ) + 1) + 1 / 2⌋ ∨
        (100 * ((S.recovered : ℚ) + 1) / ((S.totalProcessed : ℚ) + 1) + 1 / 2
            = ⌊100 * ((S.recovered : ℚ) + 1) / ((S.totalProcessed : ℚ) + 1) + 1 / 2⌋ ∧
          (StatsUpdate.exit.apply S).recoveryPercentage
            = ⌊100 * ((S.recovered : ℚ) + 1) / ((S.totalProcessed : ℚ) + 1) + 1 / 2⌋ - 1)) ∧
      (StatsUpdate.exit.apply S).diverted = S.diverted ∧
      (StatsUpdate.exit.apply S).cleaned = S.cleaned ∧
      (StatsUpdate.exit.apply S).scrapped = S.scrapped) ∧
    (obj.x + obj.velocity ≤ 1400 →
      (∃ o, (updateMainObj now r obj).kept = some o ∧ o.id = obj.id) ∧
      (updateMainObj now r obj).toInspection = none ∧
      (updateMainObj now r obj).statsUpdates = []) := by
  obtain ⟨hv, hy, _, _⟩ := (itemInv_reachable sqrt s hs).1 obj hobj
  have hy := hy hst
  refine ⟨?_, ?_, ?_⟩
  · intro hx
    have hnd : ¬ (obj.contaminated = true ∧ 600 < obj.x ∧ obj.x < 650) := by
      rintro ⟨_, _, h3⟩
      rw [hv] at hx
      norm_num [OBJECT_SPEED] at hx
      linarith
    rw [updateMainObj_not_diverted now r obj hst hnd]
    have hx' : obj.x + obj.velocity > CANVAS_WIDTH := hx
    simp [exitCheck, hst, hx']
  · intro S
    refine ⟨rfl, rfl, rfl, ?_, rfl, rfl, rfl⟩
    intro hle h44
    have h := jsRatio_round (S.recovered + 1) (S.totalProcessed + 1) (Nat.succ_le_succ hle)
      (Nat.succ_pos _) (by omega)
    push_cast at h
    exact h
  · intro hx
    have hx' : ¬ (obj.x + obj.velocity > CANVAS_WIDTH) := not_lt.mpr hx
    by_cases hd : obj.contaminated = true ∧ 600 < obj.x ∧ obj.x < 650
    · rw [updateMainObj_diverted now r obj hst hd
        (by rw [hy]; norm_num [MAIN_BELT_Y, INSPECTION_BELT_Y])]
      simp
    · rw [updateMainObj_not_diverted now r obj hst hd]
      simp [exitCheck, hx']

theorem exit_transition_witness :
    exitItem.x + exitItem.velocity > 1400 ∧
    (updateMainObj 0 randZero exitItem).kept = none ∧
    (updateMainObj 0 randZero exitItem).statsUpdates = [StatsUpdate.exit] :=
  have hx : exitItem.x + exitItem.velocity > 1400 := by norm_num [exitItem, cleanBottle]
  have h := (exit_transition ratSqrt beforeExit reachable_beforeExit exitItem
    (by rw [beforeExit_main]; simp) rfl 0 randZero).1 hx
  ⟨hx, h.1, h.2.2.1 rfl⟩

set_option maxRecDepth 100000 in
/-- C8, as stated, fails on the bound of the window: after 500 frames the contaminated
bottle is moving at `x = 600` exactly, and the next frame neither diverts it nor emits an
event; it advances to `x = 601.2` and stays `moving`. -/
theorem detection_skips_window_bound :
    Reachable ratSqrt atWindowEdge ∧
    atWindowEdge.mainBeltObjects = [edgeItem] ∧
    (edgeItem.state = ItemState.moving ∧ edgeItem.contaminated = true ∧
      (600 : ℚ) ≤ edgeItem.x ∧ edgeItem.x ≤ 650) ∧
    (updateMainObj 0 randZero edgeItem).kept = some windowItem ∧
    windowItem.state = ItemState.moving ∧
    (updateMainObj 0 randZero edgeItem).messages = [] :=
  ⟨reachable_atWindowEdge, atWindowEdge_main, ⟨rfl, rfl, by decide!, by decide!⟩, by decide!,
    rfl, by decide!⟩

/-- C8 (amended): for a moving main-belt item of a reachable state, the callback turns it
to `diverting` and emits exactly one event, the divert event, if and only if the item is
contaminated and its position at the start of the frame lies strictly inside the window,
`600 < x < 650`; otherwise the item is not diverted (it stays `moving` or leaves the belt
at the exit) and no event is emitted, so a non-contaminated item is never diverted. -/
theorem detection (sqrt : ℚ → ℚ) (s : SimState) (hs : Reachable sqrt s) (obj : Item)
    (hobj : obj ∈ s.mainBeltObjects) (hst : obj.state = ItemState.moving)
    (now : Int) (r : Rand) :
    (((∃ o, (updateMainObj now r obj).kept = some o ∧ o.state = ItemState.diverting) ∧
        (updateMainObj now r obj).messages = [divertMessage obj.name])
      ↔ (obj.contaminated = true ∧ 600 < obj.x ∧ obj.x < 650)) ∧
    (¬ (obj.contaminated = true ∧ 600 < obj.x ∧ obj.x < 650) →
      (∀ o, (updateMainObj now r obj).kept = some o → o.state = ItemState.moving) ∧
      (updateMainObj now r obj).toInspection = none ∧
      (updateMainObj now r obj).messages = []) := by
  obtain ⟨_, hy, _, _⟩ := (itemInv_reachable sqrt s hs).1 obj hobj
  have hy := hy hst
  have hno : ¬ (obj.contaminated = true ∧ 600 < obj.x ∧ obj.x < 650) →
      (∀ o, (updateMainObj now r obj).kept = some o → o.state = ItemState.moving) ∧
      (updateMainObj now r obj).toInspection = none ∧
      (updateMainObj now r obj).messages = [] := by
    intro hd
    rw [updateMainObj_not_diverted now r obj hst hd]
    unfold exitCheck
    split_ifs <;> simp [hst]
  refine ⟨⟨?_, ?_⟩, hno⟩
  · rintro ⟨_, hm⟩
    by_contra hd
    rw [(hno hd).2.2] at hm
    exact absurd hm (by simp)
  · intro hd
    rw [updateMainObj_diverted now r obj hst hd
      (by rw [hy]; norm_num [MAIN_BELT_Y, INSPECTION_BELT_Y])]
    exact ⟨⟨_, rfl, rfl⟩, rfl⟩

theorem detection_witness :
    (windowItem.contaminated = true ∧ 600 < windowItem.x ∧ windowItem.x < 650) ∧
    (∃ o, (updateMainObj 0 randZero windowItem).kept = some o ∧ o.state = ItemState.diverting) ∧
    (updateMainObj 0 randZero windowItem).messages = [divertMessage windowItem.name] :=
  have hw : windowItem.contaminated = true ∧ 600 < windowItem.x ∧ windowItem.x < 650 :=
    ⟨rfl, by norm_num [windowItem, dirtyBottle, cleanBottle],
      by norm_num [windowItem, dirtyBottle, cleanBottle]⟩
  ⟨hw, (detection ratSqrt inWindow reachable_inWindow windowItem
    (by rw [inWindow_main]; simp) rfl 0 randZero).1.mpr hw⟩

set_option maxRecDepth 100000 in
/-- C9, as stated, fails at an elapsed dwell of exactly 3000 ms: the bottle handed to the
inspection belt at clock reading `0` is still `inspecting` after a frame that reads the
clock at `3000`. -/
theorem dwell_of_3000_does_not_resolve :
    Reachable ratSqrt underInspection ∧
    underInspection.inspectionBeltObjects = [inspectingItem] ∧
    inspectingItem.state = ItemState.inspecting ∧
    inspectingItem.inspectionStartTime = some 0 ∧
    (3000 : Int) - 0 ≥ INSPECTION_SCAN_DURATION ∧
    (updateInspectionObj ratSqrt 3000 inspectingItem).kept
      = some { inspectingItem with scanPulse := some 0 } ∧
    (updateInspectionObj ratSqrt 3000 inspectingItem).statsUpdates = [] :=
  ⟨reachable_underInspection, underInspection_insp, rfl, rfl, by decide, by decide!, by decide!⟩

/-- C9 (amended): for an item in state `inspecting` that entered inspection at `t0`, and
every clock value `now`, the callback resolves the item (its state leaves `inspecting`) if
and only if the elapsed dwell `now - t0` is strictly greater than the scan duration 3000 ms;
with an elapsed dwell of at most 3000 the item stays `inspecting` on the inspection belt
with position, contaminated flag and stats unchanged, and no event is emitted. -/
theorem dwell_threshold (sqrt : ℚ → ℚ) (now t0 : Int) (obj : Item)
    (hst : obj.state = ItemState.inspecting) (ht : obj.inspectionStartTime = some t0) :
    (∃ o, (updateInspectionObj sqrt now obj).kept = some o ∧
      (updateInspectionObj sqrt now obj).toMain = none ∧
      (o.state ≠ ItemState.inspecting ↔ now - t0 > 3000)) ∧
    (now - t0 ≤ 3000 →
      ∃ o, (updateInspectionObj sqrt now obj).kept = some o ∧
        o.state = ItemState.inspecting ∧ o.x = obj.x ∧ o.y = obj.y ∧
        o.inspectionX = obj.inspectionX ∧ o.contaminated = obj.contaminated ∧
        (updateInspectionObj sqrt now obj).statsUpdates = [] ∧
        (updateInspectionObj sqrt now obj).messages = []) := by
  have hwait : now - t0 ≤ 3000 →
      ∃ o, (updateInspectionObj sqrt now obj).kept = some o ∧
        o.state = ItemState.inspecting ∧ o.x = obj.x ∧ o.y = obj.y ∧
        o.inspectionX = obj.inspectionX ∧ o.contaminated = obj.contaminated ∧
        (updateInspectionObj sqrt now obj).statsUpdates = [] ∧
        (updateInspectionObj sqrt now obj).messages = [] := by
    intro hel
    rw [updateInspectionObj_waiting sqrt now t0 obj hst ht hel]
    exact ⟨_, rfl, hst, rfl, rfl, rfl, rfl, rfl, rfl⟩
  refine ⟨?_, hwait⟩
  by_cases hel : now - t0 > 3000
  · by_cases hc : obj.canBeCleaned = some true
    · rw [updateInspectionObj_cleaned sqrt now t0 obj hst ht hel hc]
      exact ⟨_, rfl, rfl, by simp [hel]⟩
    · rw [updateInspectionObj_scrapped sqrt now t0 obj hst ht hel hc]
      exact ⟨_, rfl, rfl, by simp [hel]⟩
  · rw [updateInspectionObj_waiting sqrt now t0 obj hst ht (not_lt.mp hel)]
    exact ⟨_, rfl, rfl, by simp [hel, hst]⟩

theorem dwell_threshold_witness :
    ∃ o, (updateInspectionObj ratSqrt 3001 inspectingItem).kept = some o ∧
      (updateInspectionObj ratSqrt 3001 inspectingItem).toMain = none ∧
      (o.state ≠ ItemState.inspecting ↔ (3001 : Int) - 0 > 3000) :=
  (dwell_threshold ratSqrt 3001 0 inspectingItem rfl rfl).1

/-- C10: when the callback resolves an inspecting item (elapsed dwell above the scan
duration), a cleanable item becomes `returning` with `contaminated` false and the cleaned
updater is queued, which adds 1 to `diverted` and to `cleaned`; any other item becomes
`scrapping` with `contaminated` unchanged and the scrapped updater is queued, which adds 1
to `diverted` and to `scrapped`. In both cases exactly one event is emitted, the item
stays on the inspection belt at the same position, and both updaters leave
`totalProcessed`, `recovered` and `recoveryPercentage` unchanged. -/
theorem resolution (sqrt : ℚ → ℚ) (now t0 : Int) (obj : Item)
    (hst : obj.state = ItemState.inspecting) (ht : obj.inspectionStartTime = some t0)
    (hel : now - t0 > INSPECTION_SCAN_DURATION) :
    (obj.canBeCleaned = some true →
      (∃ o, (updateInspectionObj sqrt now obj).kept = some o ∧
        o.state = ItemState.returning ∧ o.contaminated = false) ∧
      (updateInspectionObj sqrt now obj).statsUpdates = [StatsUpdate.cleaned] ∧
      (updateInspectionObj sqrt now obj).messages = [cleanedMessage obj.name]) ∧
    (obj.canBeCleaned ≠ some true →
      (∃ o, (updateInspectionObj sqrt now obj).kept = some o ∧
        o.state = ItemState.scrapping ∧ o.contaminated = obj.contaminated) ∧
      (updateInspectionObj sqrt now obj).statsUpdates = [StatsUpdate.scrapped] ∧
      (updateInspectionObj sqrt now obj).messages = [scrapMessage obj.name]) ∧
    ((updateInspectionObj sqrt now obj).messages.length = 1 ∧
      (updateInspectionObj sqrt now obj).toMain = none ∧
      ∃ o, (updateInspectionObj sqrt now obj).kept = some o ∧ o.id = obj.id ∧
        o.x = obj.x ∧ o.y = obj.y ∧ o.inspectionX = obj.inspectionX) ∧
    (∀ S : Stats,
      (StatsUpdate.cleaned.apply S) =
        { S with diverted := S.diverted + 1, cleaned := S.cleaned + 1 } ∧
      (StatsUpdate.scrapped.apply S) =
        { S with diverted := S.diverted + 1, scrapped := S.scrapped + 1 } ∧
      (StatsUpdate.cleaned.apply S).totalProcessed = S.totalProcessed ∧
      (StatsUpdate.cleaned.apply S).recovered = S.recovered ∧
      (StatsUpdate.cleaned.apply S).recoveryPercentage = S.recoveryPercentage ∧
      (StatsUpdate.cleaned.apply S).scrapped = S.scrapped ∧
      (StatsUpdate.scrapped.apply S).totalProcessed = S.totalProcessed ∧
      (StatsUpdate.scrapped.apply S).recovered = S.recovered ∧
      (StatsUpdate.scrapped.apply S).recoveryPercentage = S.recoveryPercentage ∧
      (StatsUpdate.scrapped.apply S).cleaned = S.cleaned) := by
  refine ⟨?_, ?_, ?_, ?_⟩
  · intro hc
    rw [updateInspectionObj_cleaned sqrt now t0 obj hst ht hel hc]
    exact ⟨⟨_, rfl, rfl, rfl⟩, rfl, rfl⟩
  · intro hc
    rw [updateInspectionObj_scrapped sqrt now t0 obj hst ht hel hc]
    exact ⟨⟨_, rfl, rfl, rfl⟩, rfl, rfl⟩
  · by_cases hc : obj.canBeCleaned = some true
    · rw [updateInspectionObj_cleaned sqrt now t0 obj hst ht hel hc]
      exact ⟨rfl, rfl, _, rfl, rfl, rfl, rfl, rfl⟩
    · rw [updateInspectionObj_scrapped sqrt now t0 obj hst ht hel hc]
      exact ⟨rfl, rfl, _, rfl, rfl, rfl, rfl, rfl⟩
  · intro S
    exact ⟨rfl, rfl, rfl, rfl, rfl, rfl, rfl, rfl, rfl, rfl⟩

theorem resolution_witness :
    (∃ o, (updateInspectionObj ratSqrt 3001 inspectingItem).kept = some o ∧
        o.state = ItemState.scrapping ∧ o.contaminated = inspectingItem.contaminated) ∧
      (updateInspectionObj ratSqrt 3001 inspectingItem).statsUpdates = [StatsUpdate.scrapped] ∧
      (updateInspectionObj ratSqrt 3001 inspectingItem).messages
        = [scrapMessage inspectingItem.name] :=
  (resolution ratSqrt 3001 0 inspectingItem rfl rfl (by decide)).2.1 (by decide)

/-! ## Scrap bin, hand-back, detection, controls and spawner -/

theorem updateInspectionObj_returning (sqrt : ℚ → ℚ) (now : Int) (obj : Item)
    (hst : obj.state = ItemState.returning) :
    updateInspectionObj sqrt now obj =
      if obj.y - 4 ≤ MAIN_BELT_Y then
        { kept := none,
          toMain := some { obj with y := MAIN_BELT_Y, state := ItemState.moving, x := 700 },
          statsUpdates := [], messages := [] }
      else
        { kept := some { obj with y := obj.y - 4, x := obj.x + 2 }, toMain := none,
          statsUpdates := [], messages := [] } := by
  unfold updateInspectionObj
  simp only [hst]

theorem updateInspectionObj_scrapping (sqrt : ℚ → ℚ) (now : Int) (obj : Item)
    (hst : obj.state = ItemState.scrapping) :
    updateInspectionObj sqrt now obj =
      if sqrt ((1150 - obj.x) * (1150 - obj.x)
          + (INSPECTION_BELT_Y + 130 - obj.y) * (INSPECTION_BELT_Y + 130 - obj.y)) > 5 then
        { kept := some { obj with
            x := obj.x + ((1150 - obj.x) / sqrt ((1150 - obj.x) * (1150 - obj.x)
              + (INSPECTION_BELT_Y + 130 - obj.y) * (INSPECTION_BELT_Y + 130 - obj.y))) * 4
            y := obj.y + ((INSPECTION_BELT_Y + 130 - obj.y) / sqrt ((1150 - obj.x) * (1150 - obj.x)
              + (INSPECTION_BELT_Y + 130 - obj.y) * (INSPECTION_BELT_Y + 130 - obj.y))) * 4 },
          toMain := none, statsUpdates := [], messages := [] }
      else
        { kept := none, toMain := none, statsUpdates := [StatsUpdate.scrapArrival],
          messages := [] } := by
  unfold updateInspectionObj
  simp only [hst]

theorem toMain_mem_updateInspectionBelt (sqrt : ℚ → ℚ) (fr : Frame) (i : Nat)
    (objs : List Item) (obj o : Item) (hobj : obj ∈ objs)
    (ho : ∀ now, (updateInspectionObj sqrt now obj).toMain = some o) :
    o ∈ (updateInspectionBelt sqrt fr i objs).toMain := by
  induction objs generalizing i with
  | nil => cases hobj
  | cons a rest ih =>
    simp only [updateInspectionBelt, List.mem_append, Option.mem_toList, Option.mem_def]
    rcases List.mem_cons.mp hobj with h | h
    · left
      rw [← h]
      exact ho _
    · right
      exact ih (i + 1) h

/-- C11 (amended): a scrapping item whose distance to the sink (1150, 530), as `Math.sqrt`
returns it, is at most 5 (in particular one whose Euclidean distance is at most 5 when
`Math.sqrt` is exact on it) is removed from the inspection belt by the callback, which
queues the scrap-bin updater and nothing else; that updater adds 1 to `totalProcessed`,
leaves `recovered`, `scrapped`, `diverted` and `cleaned` alone, and sets `recoveryPercentage`
to `Math.round` of the double product `(recovered / (totalProcessed + 1)) * 100`, which is 0
when `recovered` is 0; while `totalProcessed < 2 ^ 44` this is
`100 * recovered / (totalProcessed + 1)` rounded half up, except that where this value lies
exactly halfway between two integers the result may be the lower one. -/
theorem scrap_arrival (sqrt : ℚ → ℚ) (now : Int) (obj : Item)
    (hst : obj.state = ItemState.scrapping)
    (hd : sqrt ((1150 - obj.x) * (1150 - obj.x) + (530 - obj.y) * (530 - obj.y)) ≤ 5 ∨
      (0 ≤ sqrt ((1150 - obj.x) * (1150 - obj.x) + (530 - obj.y) * (530 - obj.y)) ∧
        sqrt ((1150 - obj.x) * (1150 - obj.x) + (530 - obj.y) * (530 - obj.y))
            * sqrt ((1150 - obj.x) * (1150 - obj.x) + (530 - obj.y) * (530 - obj.y))
          = (1150 - obj.x) * (1150 - obj.x) + (530 - obj.y) * (530 - obj.y) ∧
        (1150 - obj.x) * (1150 - obj.x) + (530 - obj.y) * (530 - obj.y) ≤ 5 * 5)) :
    ((updateInspectionObj sqrt now obj).kept = none ∧
      (updateInspectionObj sqrt now obj).toMain = none ∧
      (updateInspectionObj sqrt now obj).statsUpdates = [StatsUpdate.scrapArrival] ∧
      (updateInspectionObj sqrt now obj).messages = []) ∧
    (∀ S : Stats,
      (StatsUpdate.scrapArrival.apply S).totalProcessed = S.totalProcessed + 1 ∧
      (StatsUpdate.scrapArrival.apply S).recovered = S.recovered ∧
      (StatsUpdate.scrapArrival.apply S).scrapped = S.scrapped ∧
      (StatsUpdate.scrapArrival.apply S).diverted = S.diverted ∧
      (StatsUpdate.scrapArrival.apply S).cleaned = S.cleaned ∧
      (StatsUpdate.scrapArrival.apply S).recoveryPercentage
        = mathRound (jsMul (jsDiv (S.recovered : ℚ) ((S.totalProcessed : ℚ) + 1)) 100) ∧
      (S.recovered ≤ S.totalProcessed → S.totalProcessed < 2 ^ 44 →
        (StatsUpdate.scrapArrival.apply S).recoveryPercentage
          = ⌊100 * (S.recovered : ℚ) / ((S.totalProcessed : ℚ) + 1) + 1 / 2⌋ ∨
        (100 * (S.recovered : ℚ) / ((S.totalProcessed : ℚ) + 1) + 1 / 2
            = ⌊100 * (S.recovered : ℚ) / ((S.totalProcessed : ℚ) + 1) + 1 / 2⌋ ∧
          (StatsUpdate.scrapArrival.apply S).recoveryPercentage
            = ⌊100 * (S.recovered : ℚ) / ((S.totalProcessed : ℚ) + 1) + 1 / 2⌋ - 1)) ∧
      (S.recovered = 0 → (StatsUpdate.scrapArrival.apply S).recoveryPercentage = 0)) := by
  have h5 : ¬ (sqrt ((1150 - obj.x) * (1150 - obj.x)
      + (INSPECTION_BELT_Y + 130 - obj.y) * (INSPECTION_BELT_Y + 130 - obj.y)) > 5) := by
    have e : INSPECTION_BELT_Y + 130 = 530 := by norm_num [INSPECTION_BELT_Y]
    rw [e]
    rcases hd with hd | ⟨h0, hsq, hv⟩
    · exact not_lt.mpr hd
    · intro hgt
      nlinarith
  constructor
  · rw [updateInspectionObj_scrapping sqrt now obj hst, if_neg h5]
    exact ⟨rfl, rfl, rfl, rfl⟩
  · intro S
    refine ⟨rfl, rfl, rfl, rfl, rfl, ?_, ?_, ?_⟩
    · simp only [StatsUpdate.apply, orZero_eq]
    · intro hle h44
      have h := jsRatio_round S.recovered (S.totalProcessed + 1) (Nat.le_succ_of_le hle)
        (Nat.succ_pos _) (by omega)
      push_cast at h
      simp only [StatsUpdate.apply, orZero_eq]
      exact h
    · intro h0
      simp only [StatsUpdate.apply, mathRound, orZero_eq, h0, jsDiv, jsMul, Nat.cast_zero,
        zero_div, toDouble_zero, zero_mul]
      norm_num

set_option maxRecDepth 100000 in
theorem scrap_arrival_witness :
    (updateInspectionObj ratSqrt 0 nearSinkItem).kept = none ∧
    (updateInspectionObj ratSqrt 0 nearSinkItem).statsUpdates = [StatsUpdate.scrapArrival] :=
  have h := (scrap_arrival ratSqrt 0 nearSinkItem rfl (Or.inl (by decide!))).1
  ⟨h.1, h.2.2.1⟩

/-- C13: for a returning item the callback subtracts 4 from `y` and adds 2 to `x`; when the
new `y` is at most 150 it returns `null` (the item leaves the inspection belt) and queues
the append of the item with state `moving`, `y = 150` and `x = 700` to the main belt, where
it lands behind the objects the main-belt updater kept; 700 lies strictly past the upper
bound 650 of the detection window. No stats updater and no event is queued. -/
theorem return_hand_back :
    (∀ (sqrt : ℚ → ℚ) (now : Int) (obj : Item), obj.state = ItemState.returning →
      (obj.y - 4 > 150 →
        (updateInspectionObj sqrt now obj).kept
          = some { obj with y := obj.y - 4, x := obj.x + 2 } ∧
        (updateInspectionObj sqrt now obj).toMain = none) ∧
      (obj.y - 4 ≤ 150 →
        (updateInspectionObj sqrt now obj).kept = none ∧
        (updateInspectionObj sqrt now obj).toMain
          = some { obj with y := 150, state := ItemState.moving, x := 700 }) ∧
      (updateInspectionObj sqrt now obj).statsUpdates = [] ∧
      (updateInspectionObj sqrt now obj).messages = []) ∧
    (∀ (sqrt : ℚ → ℚ) (fr : Frame) (s : SimState) (obj : Item),
      obj ∈ s.inspectionBeltObjects → obj.state = ItemState.returning → obj.y - 4 ≤ 150 →
      (tick sqrt fr s).mainBeltObjects
        = (updateMainBelt fr 0 s.mainBeltObjects).kept
          ++ (updateInspectionBelt sqrt fr 0 s.inspectionBeltObjects).toMain ∧
      { obj with y := 150, state := ItemState.moving, x := 700 }
        ∈ (updateInspectionBelt sqrt fr 0 s.inspectionBeltObjects).toMain) ∧
    (650 : ℚ) < 700 := by
  refine ⟨?_, ?_, by norm_num⟩
  · intro sqrt now obj hst
    rw [updateInspectionObj_returning sqrt now obj hst]
    refine ⟨?_, ?_, ?_, ?_⟩
    · intro h
      rw [if_neg (show ¬ (obj.y - 4 ≤ MAIN_BELT_Y) from not_le.mpr h)]
      exact ⟨rfl, rfl⟩
    · intro h
      rw [if_pos (show obj.y - 4 ≤ MAIN_BELT_Y from h)]
      exact ⟨rfl, rfl⟩
    · split_ifs <;> rfl
    · split_ifs <;> rfl
  · intro sqrt fr s obj hobj hst h
    refine ⟨rfl, ?_⟩
    apply toMain_mem_updateInspectionBelt sqrt fr 0 _ obj _ hobj
    intro now
    rw [updateInspectionObj_returning sqrt now obj hst,
      if_pos (show obj.y - 4 ≤ MAIN_BELT_Y from h)]
    rfl

theorem return_hand_back_witness :
    (updateInspectionObj ratSqrt 0 { returningItem with y := 152 }).kept = none ∧
    (updateInspectionObj ratSqrt 0 { returningItem with y := 152 }).toMain
      = some { returningItem with y := 150, state := ItemState.moving, x := 700 } :=
  (return_hand_back.1 ratSqrt 0 { returningItem with y := 152 } rfl).2.1
    (by norm_num [returningItem])

theorem sinkY_eq : INSPECTION_BELT_Y + 130 = 530 := by norm_num [INSPECTION_BELT_Y]

theorem updateMainObj_eq_divertCheck (now : Int) (r : Rand) (obj : Item) :
    updateMainObj now r obj =
      if divertCheck obj = true then
        (if obj.y + 4 ≥ INSPECTION_BELT_Y then
          { kept := none,
            toInspection := some { obj with
              x := obj.x + 1, y := INSPECTION_BELT_Y, state := ItemState.inspecting,
              inspectionStartTime := some now, inspectionX := some (400 + r.val * 400) },
            statsUpdates := [], messages := [divertMessage obj.name, scanMessage obj.name] }
        else
          { kept := some { obj with state := ItemState.diverting, y := obj.y + 4, x := obj.x + 1 },
            toInspection := none, statsUpdates := [], messages := [divertMessage obj.name] })
      else if obj.state = ItemState.moving then
        exitCheck { obj with x := obj.x + obj.velocity } []
      else if obj.state = ItemState.diverting then
        (if obj.y + 4 ≥ INSPECTION_BELT_Y then
          { kept := none,
            toInspection := some { obj with
              x := obj.x + 1, y := INSPECTION_BELT_Y, state := ItemState.inspecting,
              inspectionStartTime := some now, inspectionX := some (400 + r.val * 400) },
            statsUpdates := [], messages := [scanMessage obj.name] }
        else
          { kept := some { obj with y := obj.y + 4, x := obj.x + 1 },
            toInspection := none, statsUpdates := [], messages := [] })
      else
        { kept := some obj, toInspection := none, statsUpdates := [], messages := [] } := by
  unfold updateMainObj divertCheck exitCheck
  by_cases hd : (obj.contaminated && decide (obj.x > 600) && decide (obj.x < 650)
      && decide (obj.state = ItemState.moving)) = true
  · simp only [hd, if_true]
    by_cases hy : obj.y + 4 ≥ INSPECTION_BELT_Y <;> simp [hy]
  · simp only [hd, if_false]
    by_cases hm : obj.state = ItemState.moving
    · simp [hm]
    · by_cases hv : obj.state = ItemState.diverting
      · by_cases hy : obj.y + 4 ≥ INSPECTION_BELT_Y <;> simp [hv, hy]
      · simp [hm, hv]

theorem divertCheck_eq_true_iff (obj : Item) :
    divertCheck obj = true ↔
      obj.contaminated = true ∧ 600 < obj.x ∧ obj.x < 650 ∧ obj.state = ItemState.moving := by
  simp [divertCheck, and_assoc]

theorem divertCheck_of_pastDetection (o : Item) (h : PastDetection o) :
    divertCheck o = false := by
  rw [Bool.eq_false_iff]
  intro hc
  obtain ⟨h1, _, _, h4⟩ := (divertCheck_eq_true_iff o).mp hc
  rw [h.1 h4] at h1
  exact Bool.false_ne_true h1

theorem pastDetection_main (now : Int) (r : Rand) (obj : Item)
    (h : divertCheck obj = true ∨ PastDetection obj) :
    (∀ o, (updateMainObj now r obj).kept = some o → PastDetection o) ∧
    (∀ o, (updateMainObj now r obj).toInspection = some o → PastDetection o) := by
  rw [updateMainObj_eq_divertCheck]
  by_cases hd : divertCheck obj = true
  · rw [if_pos hd]
    split_ifs <;> constructor <;> intro o ho <;> cases ho <;> simp [PastDetection]
  · have hp : PastDetection obj := h.resolve_left hd
    rw [if_neg hd]
    unfold exitCheck
    split_ifs with h1 h2 h3 h4 <;> constructor <;> intro o ho <;> cases ho <;>
      first
        | exact hp
        | (simp only [PastDetection]; simp_all [PastDetection])

theorem pastDetection_insp (sqrt : ℚ → ℚ) (now : Int) (obj : Item) (h : PastDetection obj) :
    (∀ o, (updateInspectionObj sqrt now obj).kept = some o → PastDetection o) ∧
    (∀ o, (updateInspectionObj sqrt now obj).toMain = some o → PastDetection o) := by
  obtain ⟨hm, hr⟩ := h
  unfold updateInspectionObj
  constructor
  · intro o ho
    split at ho <;> simp only at ho <;> (try split_ifs at ho) <;> cases ho <;>
      simp_all [PastDetection]
  · intro o ho
    split at ho <;> simp only at ho <;> (try split_ifs at ho) <;> cases ho
    simp_all [PastDetection]

theorem pastDetection_itemStep (sqrt : ℚ → ℚ) (now : Int) (r : Rand) (q q' : Belt × Item)
    (h : (q.1 = Belt.main ∧ divertCheck q.2 = true) ∨ PastDetection q.2)
    (hs : itemStep sqrt now r q = some q') : PastDetection q'.2 := by
  obtain ⟨b, obj⟩ := q
  cases b with
  | main =>
    have hm := pastDetection_main now r obj (h.imp (fun h => h.2) id)
    simp only [itemStep] at hs
    split at hs
    · cases hs
      exact hm.1 _ (by assumption)
    · cases hs
      exact hm.2 _ (by assumption)
    · cases hs
  | inspection =>
    have hp : PastDetection obj := by
      rcases h with h | h
      · exact absurd h.1 (by simp)
      · exact h
    have hi := pastDetection_insp sqrt now obj hp
    simp only [itemStep] at hs
    split at hs
    · cases hs
      exact hi.1 _ (by assumption)
    · cases hs
      exact hi.2 _ (by assumption)
    · cases hs

theorem pastDetection_later (sqrt : ℚ → ℚ) (p q : Belt × Item) (hp : PastDetection p.2)
    (h : Later sqrt p q) : PastDetection q.2 := by
  induction h with
  | refl => exact hp
  | step now r _ hs ih => exact pastDetection_itemStep sqrt now r _ _ (Or.inr (ih hp)) hs

/-- In every reachable state a `returning` object is no longer contaminated. -/
theorem returning_clean_reachable (sqrt : ℚ → ℚ) (s : SimState) (hs : Reachable sqrt s) :
    (∀ o ∈ s.mainBeltObjects, o.state = ItemState.returning → o.contaminated = false) ∧
    (∀ o ∈ s.inspectionBeltObjects, o.state = ItemState.returning → o.contaminated = false) := by
  apply belts_invariant (fun o => o.state = ItemState.returning → o.contaminated = false)
    (fun o => o.state = ItemState.returning → o.contaminated = false) _ _ _ sqrt s hs
  · intro d
    unfold spawnRecyclable
    by_cases h : d.rContaminated.val < 0.1 <;> simp [h]
  · intro now r obj h
    rw [updateMainObj_eq_divertCheck]
    unfold exitCheck
    constructor <;> intro o ho <;> split_ifs at ho <;> cases ho <;> simp_all
  · intro sqrt now obj h
    unfold updateInspectionObj
    constructor
    · intro o ho
      split at ho <;> simp only at ho <;> (try split_ifs at ho) <;> cases ho <;> simp_all
    · intro o ho
      split at ho <;> simp only at ho <;> (try split_ifs at ho) <;> cases ho
      simp_all

/-- C14: the detection check fires only on a `moving` object (so never in `diverting`,
`inspecting`, `returning` or `scrapping`), and the callbacks turn an object to `diverting`
only when it fires; once the check has fired for an object, it fires in no later frame of
that object; an object handed back from `returning` is `moving` at `x = 700 > 650` and not
contaminated, and a moving object never moves backwards. -/
theorem no_redetection :
    (∀ obj : Item, divertCheck obj = true →
      obj.state = ItemState.moving ∧ obj.contaminated = true ∧ 600 < obj.x ∧ obj.x < 650) ∧
    (∀ obj : Item, obj.state ≠ ItemState.moving → divertCheck obj = false) ∧
    (∀ (now : Int) (r : Rand) (obj : Item), divertCheck obj = true →
      (updateMainObj now r obj).messages.head? = some (divertMessage obj.name)) ∧
    (∀ (now : Int) (r : Rand) (obj : Item), divertCheck obj = false →
      (∀ o, (updateMainObj now r obj).kept = some o → o.state = obj.state) ∧
      ((updateMainObj now r obj).messages = [] ∨
        (updateMainObj now r obj).messages = [scanMessage obj.name])) ∧
    (∀ (sqrt : ℚ → ℚ) (now : Int) (obj o : Item),
      (updateInspectionObj sqrt now obj).kept = some o ∨
        (updateInspectionObj sqrt now obj).toMain = some o →
      o.state = ItemState.diverting → obj.state = ItemState.diverting) ∧
    (∀ (sqrt : ℚ → ℚ) (now : Int) (r : Rand) (obj : Item) (p q : Belt × Item),
      divertCheck obj = true → itemStep sqrt now r (Belt.main, obj) = some p →
      Later sqrt p q → divertCheck q.2 = false) ∧
    (∀ (sqrt : ℚ → ℚ) (s : SimState), Reachable sqrt s →
      ∀ obj ∈ s.inspectionBeltObjects, obj.state = ItemState.returning →
      ∀ (now : Int) (o : Item), (updateInspectionObj sqrt now obj).toMain = some o →
        o.state = ItemState.moving ∧ o.x = 700 ∧ (650 : ℚ) < o.x ∧ o.contaminated = false) ∧
    (∀ (sqrt : ℚ → ℚ) (s : SimState), Reachable sqrt s →
      ∀ obj ∈ s.mainBeltObjects, obj.state = ItemState.moving →
      ∀ (now : Int) (r : Rand) (o : Item), (updateMainObj now r obj).kept = some o →
        o.state = ItemState.moving → obj.x ≤ o.x) := by
  refine ⟨?_, ?_, ?_, ?_, ?_, ?_, ?_, ?_⟩
  · intro obj h
    obtain ⟨h1, h2, h3, h4⟩ := (divertCheck_eq_true_iff obj).mp h
    exact ⟨h4, h1, h2, h3⟩
  · intro obj h
    rw [Bool.eq_false_iff]
    intro hc
    exact h ((divertCheck_eq_true_iff obj).mp hc).2.2.2
  · intro now r obj h
    rw [updateMainObj_eq_divertCheck, if_pos h]
    split_ifs <;> rfl
  · intro now r obj h
    have hn : ¬ (divertCheck obj = true) := by simp [h]
    rw [updateMainObj_eq_divertCheck, if_neg hn]
    unfold exitCheck
    constructor
    · intro o ho
      split_ifs at ho <;> cases ho <;> rfl
    · split_ifs <;> simp
  · intro sqrt now obj o ho hdiv
    unfold updateInspectionObj at ho
    rcases ho with ho | ho <;> split at ho <;> simp only at ho <;> (try split_ifs at ho) <;>
      cases ho <;> simp_all
  · intro sqrt now r obj p q hc hstep hl
    have hp : PastDetection p.2 :=
      pastDetection_itemStep sqrt now r (Belt.main, obj) p (Or.inl ⟨rfl, hc⟩) hstep
    exact divertCheck_of_pastDetection q.2 (pastDetection_later sqrt p q hp hl)
  · intro sqrt s hs obj hobj hst now o ho
    have hc := (returning_clean_reachable sqrt s hs).2 obj hobj hst
    unfold updateInspectionObj at ho
    simp only [hst] at ho
    split_ifs at ho
    cases ho
    exact ⟨rfl, rfl, by norm_num, hc⟩
  · intro sqrt s hs obj hobj hst now r o ho hso
    have hv := ((itemInv_reachable sqrt s hs).1 obj hobj).1
    rw [updateMainObj_eq_divertCheck] at ho
    unfold exitCheck at ho
    split_ifs at ho <;> cases ho <;>
      first
        | (simp only; rw [hv]; norm_num [OBJECT_SPEED])
        | simp_all

set_option maxRecDepth 100000 in
theorem no_redetection_witness :
    divertCheck windowItem = true ∧
    divertCheck { windowItem with state := ItemState.diverting, y := 154, x := 3011 / 5 }
      = false :=
  ⟨by decide!,
    no_redetection.2.2.2.2.2.1 ratSqrt 0 randZero windowItem
      (Belt.main, { windowItem with state := ItemState.diverting, y := 154, x := 3011 / 5 })
      (Belt.main, { windowItem with state := ItemState.diverting, y := 154, x := 3011 / 5 })
      (by decide!) (by decide!) (Later.refl _)⟩

theorem randomIndex_lt (r : Rand) (n : Nat) (hn : 0 < n) : randomIndex r n < n := by
  unfold randomIndex
  have h0 : (0 : ℚ) ≤ r.val * (n : ℚ) := mul_nonneg r.nonneg (by positivity)
  have h1 : r.val * (n : ℚ) < (n : ℚ) := by
    have hn' : (0 : ℚ) < (n : ℚ) := by exact_mod_cast hn
    nlinarith [r.lt_one]
  have hf0 : 0 ≤ ⌊r.val * (n : ℚ)⌋ := Int.floor_nonneg.mpr h0
  have hf1 : ⌊r.val * (n : ℚ)⌋ < (n : Int) := by
    apply Int.floor_lt.mpr
    exact_mod_cast h1
  omega

theorem getD_mem {α : Type} (l : List α) (i : Nat) (d : α) (h : i < l.length) :
    l.getD i d ∈ l := by
  rw [List.getD_eq_getElem l d h]
  exact List.getElem_mem h

/-- C15, as stated, fails on the event list: `handleReset` calls `addEvent` after
`setEvents([])`, so the list holds the reset event and is not empty. -/
theorem reset_leaves_one_event :
    (handleReset 7 (handleStart 0 initialState)).events
      = [{ id := 7, message := resetMessage, time := 7 }] ∧
    (handleReset 7 (handleStart 0 initialState)).events ≠ [] := by
  constructor
  · rfl
  · simp [handleReset, addEvent]

/-- C15 (amended): for every simulation state, after `handleReset` both belt lists are
empty, every counter is 0 with `recoveryPercentage == 100`, `isRunning` is false, and the
event list holds exactly one entry, the reset event. -/
theorem reset_clears_state (now : Int) (s : SimState) :
    (handleReset now s).mainBeltObjects = [] ∧
    (handleReset now s).inspectionBeltObjects = [] ∧
    (handleReset now s).stats =
      { totalProcessed := 0, diverted := 0, cleaned := 0, scrapped := 0, recovered := 0,
        recoveryPercentage := 100 } ∧
    (handleReset now s).isRunning = false ∧
    (handleReset now s).events = [{ id := now, message := resetMessage, time := now }] :=
  ⟨rfl, rfl, rfl, rfl, rfl⟩

/-- C16: `handleStop` leaves both belt lists and the stats unchanged and sets `isRunning`
and `isRunningRef` to false; `animate`, whose guard reads `isRunningRef`, returns the state
unchanged while that flag is false, in particular right after `handleStop`. -/
theorem stop_preserves_state :
    (∀ (now : Int) (s : SimState),
      (handleStop now s).mainBeltObjects = s.mainBeltObjects ∧
      (handleStop now s).inspectionBeltObjects = s.inspectionBeltObjects ∧
      (handleStop now s).stats = s.stats ∧
      (handleStop now s).isRunning = false ∧
      (handleStop now s).isRunningRef = false) ∧
    (∀ (sqrt : ℚ → ℚ) (fr : Frame) (s : SimState),
      s.isRunningRef = false → animate sqrt fr s = s) ∧
    (∀ (sqrt : ℚ → ℚ) (fr : Frame) (now : Int) (s : SimState),
      animate sqrt fr (handleStop now s) = handleStop now s) := by
  refine ⟨fun _ _ => ⟨rfl, rfl, rfl, rfl, rfl⟩, ?_, ?_⟩
  · intro sqrt fr s h
    simp [animate, h]
  · intro sqrt fr now s
    simp [animate, handleStop]

theorem stop_preserves_state_witness :
    animate ratSqrt (constFrame 5) (handleStop 4 (startWith drawsScrap))
      = handleStop 4 (startWith drawsScrap) :=
  stop_preserves_state.2.1 ratSqrt (constFrame 5) (handleStop 4 (startWith drawsScrap)) rfl

/-- C17: for every outcome of the draws, one spawn step appends exactly one item to the end
of the main-belt list and leaves the inspection belt and the stats alone; the item is
`moving` at `x = 0`, `y = 150` with velocity 1.2 and copies an entry of the 10-entry
`RECYCLABLES` catalog; it carries a contaminant, an entry of the 6-entry `CONTAMINANTS`
catalog, and a `canBeCleaned` decision exactly when it is marked contaminated; one
`addEvent` updater is queued when it is contaminated and none otherwise. -/
theorem spawner (d : SpawnDraws) (s : SimState) :
    (spawnStep d s).mainBeltObjects = s.mainBeltObjects ++ [(spawnRecyclable d).1] ∧
    (spawnStep d s).inspectionBeltObjects = s.inspectionBeltObjects ∧
    (spawnStep d s).stats = s.stats ∧
    ((spawnRecyclable d).1.state = ItemState.moving ∧ (spawnRecyclable d).1.x = 0 ∧
      (spawnRecyclable d).1.y = 150 ∧ (spawnRecyclable d).1.velocity = 1.2) ∧
    (RECYCLABLES.length = 10 ∧
      ∃ t ∈ RECYCLABLES, (spawnRecyclable d).1.type = t.type ∧
        (spawnRecyclable d).1.name = t.name ∧ (spawnRecyclable d).1.color = t.color ∧
        (spawnRecyclable d).1.size = t.size) ∧
    (CONTAMINANTS.length = 6 ∧
      ((spawnRecyclable d).1.contaminated = true →
        (∃ c ∈ CONTAMINANTS, (spawnRecyclable d).1.contaminant = some c) ∧
        (spawnRecyclable d).1.canBeCleaned ≠ none) ∧
      ((spawnRecyclable d).1.contaminated = false →
        (spawnRecyclable d).1.contaminant = none ∧
        (spawnRecyclable d).1.canBeCleaned = none)) ∧
    ((spawnRecyclable d).1.contaminated = true →
      (spawnRecyclable d).2.length = 1 ∧
      ∃ m, (spawnStep d s).events = addEvent d.eventNow m s.events) ∧
    ((spawnRecyclable d).1.contaminated = false →
      (spawnRecyclable d).2 = [] ∧ (spawnStep d s).events = s.events) := by
  have ht : RECYCLABLES.getD (randomIndex d.rTemplate RECYCLABLES.length) ⟨"", "", "", 0⟩
      ∈ RECYCLABLES :=
    getD_mem _ _ _ (randomIndex_lt _ _ (by decide))
  have hc : CONTAMINANTS.getD (randomIndex d.rContaminant CONTAMINANTS.length)
      ⟨"", "", "", 0, ""⟩ ∈ CONTAMINANTS :=
    getD_mem _ _ _ (randomIndex_lt _ _ (by decide))
  refine ⟨rfl, rfl, rfl, ?_, ⟨rfl, ?_⟩, ⟨rfl, ?_, ?_⟩, ?_, ?_⟩
  · unfold spawnRecyclable
    by_cases h : d.rContaminated.val < 0.1 <;> simp [h, MAIN_BELT_Y, OBJECT_SPEED]
  · refine ⟨_, ht, ?_⟩
    unfold spawnRecyclable
    by_cases h : d.rContaminated.val < 0.1 <;> simp [h]
  · unfold spawnRecyclable
    by_cases h : d.rContaminated.val < 0.1
    · intro _
      simp only [h, decide_True, if_true]
      exact ⟨⟨_, hc, rfl⟩, by simp⟩
    · simp [h]
  · unfold spawnRecyclable
    by_cases h : d.rContaminated.val < 0.1 <;> simp [h]
  · unfold spawnStep spawnRecyclable
    by_cases h : d.rContaminated.val < 0.1
    · intro _
      simp only [h, decide_True, if_true]
      exact ⟨rfl, _, rfl⟩
    · simp [h]
  · unfold spawnStep spawnRecyclable
    by_cases h : d.rContaminated.val < 0.1
    · simp [h]
    · intro _
      simp [h, addEvents]

theorem spawner_witness :
    (spawnRecyclable drawsScrap).1.contaminated = true ∧
    (spawnRecyclable drawsScrap).2.length = 1 :=
  ⟨by decide!, ((spawner drawsScrap initialState).2.2.2.2.2.2.1 (by decide!)).1⟩

/-! ## The scenarios -/

theorem logMessages_addEvents (clock : Nat → Int) (k : Nat) (ms : List String)
    (evs : List Event) :
    (addEvents clock k ms evs).map (fun e => e.message)
      = pushMessages ms (evs.map (fun e => e.message)) := by
  induction ms generalizing k evs with
  | nil => rfl
  | cons m ms ih =>
    rw [addEvents, ih, pushMessages]
    simp [addEvent, List.map_take]

theorem animate_soloMain (sqrt : ℚ → ℚ) (fr : Frame) (s : SimState) (o : Item) (st : Stats)
    (log : List String) (h : SoloMain s o st log) :
    (animate sqrt fr s).isRunningRef = true ∧
    (animate sqrt fr s).mainBeltObjects = (updateMainObj (fr.mainNow 0) (fr.rnd 0) o).kept.toList ∧
    (animate sqrt fr s).inspectionBeltObjects
      = (updateMainObj (fr.mainNow 0) (fr.rnd 0) o).toInspection.toList ∧
    (animate sqrt fr s).stats
      = applyStatsUpdates (updateMainObj (fr.mainNow 0) (fr.rnd 0) o).statsUpdates st ∧
    logMessages (animate sqrt fr s)
      = pushMessages (updateMainObj (fr.mainNow 0) (fr.rnd 0) o).messages log := by
  obtain ⟨hr, hm, hi, hst, hl⟩ := h
  unfold logMessages at hl ⊢
  simp only [animate, hr, if_true, tick, hm, hi, updateMainBelt, updateInspectionBelt,
    List.append_nil, List.nil_append, hst, logMessages_addEvents, hl]
  exact ⟨trivial, trivial, trivial, trivial, trivial⟩

theorem animate_soloInsp (sqrt : ℚ → ℚ) (fr : Frame) (s : SimState) (o : Item) (st : Stats)
    (log : List String) (h : SoloInsp s o st log) :
    (animate sqrt fr s).isRunningRef = true ∧
    (animate sqrt fr s).mainBeltObjects
      = (updateInspectionObj sqrt (fr.inspNow 0) o).toMain.toList ∧
    (animate sqrt fr s).inspectionBeltObjects
      = (updateInspectionObj sqrt (fr.inspNow 0) o).kept.toList ∧
    (animate sqrt fr s).stats
      = applyStatsUpdates (updateInspectionObj sqrt (fr.inspNow 0) o).statsUpdates st ∧
    logMessages (animate sqrt fr s)
      = pushMessages (updateInspectionObj sqrt (fr.inspNow 0) o).messages log := by
  obtain ⟨hr, hm, hi, hst, hl⟩ := h
  unfold logMessages at hl ⊢
  simp only [animate, hr, if_true, tick, hm, hi, updateMainBelt, updateInspectionBelt,
    List.append_nil, List.nil_append, hst, logMessages_addEvents, hl]
  exact ⟨trivial, trivial, trivial, trivial, trivial⟩

theorem runFrames_phase (sqrt : ℚ → ℚ) (frs : Nat → Frame) (s0 : SimState)
    (P : Nat → SimState → Prop) (a b : Nat) (h0 : P a (runFrames sqrt frs a s0))
    (hstep : ∀ k, a ≤ k → k < b → ∀ s, P k s → P (k + 1) (animate sqrt (frs k) s)) :
    ∀ k, a ≤ k → k ≤ b → P k (runFrames sqrt frs k s0) := by
  intro k hak hkb
  induction k with
  | zero =>
    have : a = 0 := by omega
    subst this
    exact h0
  | succ k ih =>
    by_cases hk : a = k + 1
    · subst hk
      exact h0
    · exact hstep k (by omega) (by omega) _ (ih (by omega) (by omega))

theorem step_moving (sqrt : ℚ → ℚ) (fr : Frame) (o0 : Item) (c : Bool) (x : ℚ) (st : Stats)
    (log : List String) (s : SimState) (hv : o0.velocity = 6 / 5)
    (h : MovingAt o0 c x st log s) (hnd : c = false ∨ x ≤ 600 ∨ 650 ≤ x)
    (hx : x + 6 / 5 ≤ 1400) :
    MovingAt o0 c (x + 6 / 5) st log (animate sqrt fr s) := by
  obtain ⟨o, hsolo, htr, hst, hc, hox, hoy⟩ := h
  have hdc : ¬ (divertCheck o = true) := by
    intro hd
    obtain ⟨h1, h2, h3, _⟩ := (divertCheck_eq_true_iff o).mp hd
    rw [hox] at h2 h3
    rw [hc] at h1
    rcases hnd with h | h | h
    · rw [h] at h1
      exact Bool.false_ne_true h1
    · linarith
    · linarith
  have hov : o.velocity = 6 / 5 := htr.2.2.2.1.trans hv
  have hr : updateMainObj (fr.mainNow 0) (fr.rnd 0) o =
      { kept := some { o with x := o.x + o.velocity }, toInspection := none,
        statsUpdates := [], messages := [] } := by
    rw [updateMainObj_eq_divertCheck, if_neg hdc, if_pos hst]
    unfold exitCheck
    rw [if_neg]
    simp only [hox, hov, CANVAS_WIDTH]
    intro h
    linarith [h.1]
  obtain ⟨h1, h2, h3, h4, h5⟩ := animate_soloMain sqrt fr s o st log hsolo
  rw [hr] at h2 h3 h4 h5
  refine ⟨{ o with x := o.x + o.velocity }, ⟨h1, h2, h3, h4, h5⟩, htr, hst, hc, ?_, hoy⟩
  simp only [hox, hov]

theorem step_exit (sqrt : ℚ → ℚ) (fr : Frame) (o0 : Item) (x : ℚ) (st : Stats)
    (log : List String) (s : SimState) (hv : o0.velocity = 6 / 5)
    (h : MovingAt o0 false x st log s) (hx : 1400 < x + 6 / 5) :
    BeltsEmpty (animate sqrt fr s) (StatsUpdate.exit.apply st) log := by
  obtain ⟨o, hsolo, htr, hst, hc, hox, hoy⟩ := h
  have hdc : ¬ (divertCheck o = true) := by
    intro hd
    rw [((divertCheck_eq_true_iff o).mp hd).1] at hc
    exact Bool.false_ne_true hc.symm
  have hov : o.velocity = 6 / 5 := htr.2.2.2.1.trans hv
  have hr : updateMainObj (fr.mainNow 0) (fr.rnd 0) o =
      { kept := none, toInspection := none, statsUpdates := [StatsUpdate.exit],
        messages := [] } := by
    rw [updateMainObj_eq_divertCheck, if_neg hdc, if_pos hst]
    unfold exitCheck
    rw [if_pos]
    · simp [hc]
    · simp only [hox, hov, CANVAS_WIDTH]
      exact ⟨hx, hst⟩
  obtain ⟨h1, h2, h3, h4, h5⟩ := animate_soloMain sqrt fr s o st log hsolo
  rw [hr] at h2 h3 h4 h5
  exact ⟨h1, h2, h3, h4, h5⟩

theorem scenarioStart_clean (now : Int) (d : SpawnDraws)
    (hc : (spawnRecyclable d).1.contaminated = false) :
    MovingAt (spawnRecyclable d).1 false 0 initialStats [startMessage] (scenarioStart now d) := by
  have hm : (spawnRecyclable d).2 = [] := by
    unfold spawnRecyclable at hc ⊢
    by_cases h : d.rContaminated.val < 0.1
    · simp [h] at hc
    · simp [h]
  have hx : (spawnRecyclable d).1.state = ItemState.moving ∧ (spawnRecyclable d).1.x = 0 ∧
      (spawnRecyclable d).1.y = 150 := by
    unfold spawnRecyclable
    by_cases h : d.rContaminated.val < 0.1 <;> simp [h, MAIN_BELT_Y]
  refine ⟨(spawnRecyclable d).1, ⟨rfl, rfl, rfl, rfl, ?_⟩, ⟨rfl, rfl, rfl, rfl, rfl, rfl⟩,
    hx.1, hc, hx.2.1, hx.2.2⟩
  simp only [logMessages, scenarioStart, spawnStep, hm, addEvents, handleStart, addEvent,
    initialState]
  rfl

theorem spawn_velocity (d : SpawnDraws) : (spawnRecyclable d).1.velocity = 6 / 5 := by
  unfold spawnRecyclable
  by_cases h : d.rContaminated.val < 0.1 <;> simp [h, OBJECT_SPEED] <;> norm_num

theorem run_clean_moving (sqrt : ℚ → ℚ) (frs : Nat → Frame) (now : Int) (d : SpawnDraws)
    (hc : (spawnRecyclable d).1.contaminated = false) (k : Nat) (hk : k ≤ 1166) :
    MovingAt (spawnRecyclable d).1 false (6 / 5 * (k : ℚ)) initialStats [startMessage]
      (runFrames sqrt frs k (scenarioStart now d)) := by
  apply runFrames_phase sqrt frs (scenarioStart now d)
    (fun k s => MovingAt (spawnRecyclable d).1 false (6 / 5 * (k : ℚ)) initialStats
      [startMessage] s) 0 1166 _ _ k (Nat.zero_le k) hk
  · simpa [runFrames] using scenarioStart_clean now d hc
  · intro j _ hj s hs
    have hj' : (j : ℚ) ≤ 1165 := by exact_mod_cast Nat.le_of_lt_succ hj
    have := step_moving sqrt (frs j) (spawnRecyclable d).1 false (6 / 5 * (j : ℚ)) initialStats
      [startMessage] s (spawn_velocity d) hs (Or.inl rfl) (by linarith)
    have e : (6 / 5 : ℚ) * ((j + 1 : ℕ) : ℚ) = 6 / 5 * (j : ℚ) + 6 / 5 := by
      push_cast
      ring
    simp only [e]
    exact this

/-- C18 (Scenario A): after `handleStart` and the spawn of one item that is not
contaminated, with no further spawn and whatever the clock reads, the item is the only
object on the belts and `moving` at `x = 1.2 * k` after `k` frames for every `k <= 1166`,
with the stats untouched; the 1167th frame removes it, leaving both belts empty and the
stats at `recovered = totalProcessed = 1`, `recoveryPercentage = 100` and the other
counters 0. -/
theorem scenario_A (sqrt : ℚ → ℚ) (frs : Nat → Frame) (now : Int) (d : SpawnDraws)
    (hc : (spawnRecyclable d).1.contaminated = false) :
    (∀ k, k ≤ 1166 →
      ∃ o, (runFrames sqrt frs k (scenarioStart now d)).mainBeltObjects = [o] ∧
        (runFrames sqrt frs k (scenarioStart now d)).inspectionBeltObjects = [] ∧
        (runFrames sqrt frs k (scenarioStart now d)).stats = initialStats ∧
        o.id = (spawnRecyclable d).1.id ∧ o.state = ItemState.moving ∧
        o.x = 1.2 * (k : ℚ) ∧ o.x ≤ 1400) ∧
    (1400 : ℚ) < 1.2 * (1167 : ℕ) ∧
    (runFrames sqrt frs 1167 (scenarioStart now d)).mainBeltObjects = [] ∧
    (runFrames sqrt frs 1167 (scenarioStart now d)).inspectionBeltObjects = [] ∧
    (runFrames sqrt frs 1167 (scenarioStart now d)).stats =
      { totalProcessed := 1, diverted := 0, cleaned := 0, scrapped := 0, recovered := 1,
        recoveryPercentage := 100 } := by
  have hfin : BeltsEmpty (runFrames sqrt frs 1167 (scenarioStart now d))
      (StatsUpdate.exit.apply initialStats) [startMessage] :=
    step_exit sqrt (frs 1166) (spawnRecyclable d).1 _ initialStats [startMessage] _
      (spawn_velocity d) (run_clean_moving sqrt frs now d hc 1166 (le_refl _)) (by norm_num)
  refine ⟨?_, by norm_num, hfin.2.1, hfin.2.2.1, ?_⟩
  · intro k hk
    obtain ⟨o, hsolo, htr, hst, _, hox, _⟩ := run_clean_moving sqrt frs now d hc k hk
    have hk' : (k : ℚ) ≤ 1166 := by exact_mod_cast hk
    refine ⟨o, hsolo.2.1, hsolo.2.2.1, hsolo.2.2.2.1, htr.1, hst, ?_, ?_⟩
    · rw [hox]
      norm_num
    · rw [hox]
      linarith
  · rw [hfin.2.2.2.1]
    decide!

theorem scenario_A_witness :
    (runFrames ratSqrt (fun _ => constFrame 0) 1167 (scenarioStart 0 drawsClean)).stats =
      { totalProcessed := 1, diverted := 0, cleaned := 0, scrapped := 0, recovered := 1,
        recoveryPercentage := 100 } :=
  (scenario_A ratSqrt (fun _ => constFrame 0) 0 drawsClean (by decide!)).2.2.2.2

theorem step_divert (sqrt : ℚ → ℚ) (fr : Frame) (o0 : Item) (x : ℚ) (st : Stats)
    (log : List String) (s : SimState)
    (h : MovingAt o0 true x st log s) (h1 : 600 < x) (h2 : x < 650) :
    DivertingAt o0 (x + 1) 154 st (pushMessages [divertMessage o0.name] log)
      (animate sqrt fr s) := by
  obtain ⟨o, hsolo, htr, hst, hc, hox, hoy⟩ := h
  have hdc : divertCheck o = true :=
    (divertCheck_eq_true_iff o).mpr ⟨hc, hox ▸ h1, hox ▸ h2, hst⟩
  have hy : ¬ (o.y + 4 ≥ INSPECTION_BELT_Y) := by
    rw [hoy]
    norm_num [INSPECTION_BELT_Y]
  have hr : updateMainObj (fr.mainNow 0) (fr.rnd 0) o =
      { kept := some { o with state := ItemState.diverting, y := o.y + 4, x := o.x + 1 },
        toInspection := none, statsUpdates := [], messages := [divertMessage o.name] } := by
    rw [updateMainObj_eq_divertCheck, if_pos hdc, if_neg hy]
  obtain ⟨a1, a2, a3, a4, a5⟩ := animate_soloMain sqrt fr s o st log hsolo
  rw [hr] at a2 a3 a4 a5
  rw [htr.2.2.1] at a5
  refine ⟨_, ⟨a1, a2, a3, a4, a5⟩, htr, rfl, hc, ?_, ?_⟩
  · simp only [hox]
  · simp only [hoy]
    norm_num

theorem step_diverting (sqrt : ℚ → ℚ) (fr : Frame) (o0 : Item) (x y : ℚ) (st : Stats)
    (log : List String) (s : SimState)
    (h : DivertingAt o0 x y st log s) (hy : y + 4 < 400) :
    DivertingAt o0 (x + 1) (y + 4) st log (animate sqrt fr s) := by
  obtain ⟨o, hsolo, htr, hst, hc, hox, hoy⟩ := h
  have hdc : ¬ (divertCheck o = true) := by
    intro hd
    have := ((divertCheck_eq_true_iff o).mp hd).2.2.2
    rw [hst] at this
    cases this
  have hm : ¬ (o.state = ItemState.moving) := by
    rw [hst]
    decide
  have hy' : ¬ (o.y + 4 ≥ INSPECTION_BELT_Y) := by
    rw [hoy]
    exact not_le.mpr hy
  have hr : updateMainObj (fr.mainNow 0) (fr.rnd 0) o =
      { kept := some { o with y := o.y + 4, x := o.x + 1 },
        toInspection := none, statsUpdates := [], messages := [] } := by
    rw [updateMainObj_eq_divertCheck, if_neg hdc, if_neg hm, if_pos hst, if_neg hy']
  obtain ⟨a1, a2, a3, a4, a5⟩ := animate_soloMain sqrt fr s o st log hsolo
  rw [hr] at a2 a3 a4 a5
  refine ⟨_, ⟨a1, a2, a3, a4, a5⟩, htr, hst, hc, ?_, ?_⟩
  · simp only [hox]
  · simp only [hoy]

theorem step_handoff (sqrt : ℚ → ℚ) (fr : Frame) (o0 : Item) (x y : ℚ) (st : Stats)
    (log : List String) (s : SimState)
    (h : DivertingAt o0 x y st log s) (hy : 400 ≤ y + 4) :
    InspectingAt o0 (x + 1) (fr.mainNow 0) st (pushMessages [scanMessage o0.name] log)
      (animate sqrt fr s) := by
  obtain ⟨o, hsolo, htr, hst, hc, hox, hoy⟩ := h
  have hdc : ¬ (divertCheck o = true) := by
    intro hd
    have := ((divertCheck_eq_true_iff o).mp hd).2.2.2
    rw [hst] at this
    cases this
  have hm : ¬ (o.state = ItemState.moving) := by
    rw [hst]
    decide
  have hy' : o.y + 4 ≥ INSPECTION_BELT_Y := by
    rw [hoy]
    exact hy
  have hr : updateMainObj (fr.mainNow 0) (fr.rnd 0) o =
      { kept := none,
        toInspection := some { o with
          x := o.x + 1, y := INSPECTION_BELT_Y, state := ItemState.inspecting,
          inspectionStartTime := some (fr.mainNow 0),
          inspectionX := some (400 + (fr.rnd 0).val * 400) },
        statsUpdates := [], messages := [scanMessage o.name] } := by
    rw [updateMainObj_eq_divertCheck, if_neg hdc, if_neg hm, if_pos hst, if_pos hy']
  obtain ⟨a1, a2, a3, a4, a5⟩ := animate_soloMain sqrt fr s o st log hsolo
  rw [hr] at a2 a3 a4 a5
  rw [htr.2.2.1] at a5
  refine ⟨_, ⟨a1, a2, a3, a4, a5⟩, htr, rfl, hc, ?_, rfl, rfl⟩
  simp only [hox]

theorem step_waiting (sqrt : ℚ → ℚ) (fr : Frame) (o0 : Item) (x : ℚ) (t0 : Int) (st : Stats)
    (log : List String) (s : SimState)
    (h : InspectingAt o0 x t0 st log s) (hel : fr.inspNow 0 - t0 ≤ 3000) :
    InspectingAt o0 x t0 st log (animate sqrt fr s) := by
  obtain ⟨o, hsolo, htr, hst, hc, hox, hoy, ht⟩ := h
  obtain ⟨a1, a2, a3, a4, a5⟩ := animate_soloInsp sqrt fr s o st log hsolo
  rw [updateInspectionObj_waiting sqrt (fr.inspNow 0) t0 o hst ht hel] at a2 a3 a4 a5
  exact ⟨_, ⟨a1, a2, a3, a4, a5⟩, htr, hst, hc, hox, hoy, ht⟩

theorem step_cleaned (sqrt : ℚ → ℚ) (fr : Frame) (o0 : Item) (x : ℚ) (t0 : Int) (st : Stats)
    (log : List String) (s : SimState) (hcl : o0.canBeCleaned = some true)
    (h : InspectingAt o0 x t0 st log s) (hel : fr.inspNow 0 - t0 > 3000) :
    ReturningAt o0 x 400 (StatsUpdate.cleaned.apply st)
      (pushMessages [cleanedMessage o0.name] log) (animate sqrt fr s) := by
  obtain ⟨o, hsolo, htr, hst, hc, hox, hoy, ht⟩ := h
  obtain ⟨a1, a2, a3, a4, a5⟩ := animate_soloInsp sqrt fr s o st log hsolo
  rw [updateInspectionObj_cleaned sqrt (fr.inspNow 0) t0 o hst ht hel
    (htr.2.2.2.2.2.trans hcl)] at a2 a3 a4 a5
  rw [htr.2.2.1] at a5
  exact ⟨_, ⟨a1, a2, a3, a4, a5⟩, htr, rfl, rfl, hox, hoy⟩

theorem step_scrapped (sqrt : ℚ → ℚ) (fr : Frame) (o0 : Item) (x : ℚ) (t0 : Int) (st : Stats)
    (log : List String) (s : SimState) (hcl : o0.canBeCleaned ≠ some true)
    (h : InspectingAt o0 x t0 st log s) (hel : fr.inspNow 0 - t0 > 3000) :
    ScrappingAt o0 x 400 (StatsUpdate.scrapped.apply st)
      (pushMessages [scrapMessage o0.name] log) (animate sqrt fr s) := by
  obtain ⟨o, hsolo, htr, hst, hc, hox, hoy, ht⟩ := h
  obtain ⟨a1, a2, a3, a4, a5⟩ := animate_soloInsp sqrt fr s o st log hsolo
  rw [updateInspectionObj_scrapped sqrt (fr.inspNow 0) t0 o hst ht hel
    (by rw [htr.2.2.2.2.2]; exact hcl)] at a2 a3 a4 a5
  rw [htr.2.2.1] at a5
  exact ⟨_, ⟨a1, a2, a3, a4, a5⟩, htr, rfl, hc, hox, hoy⟩

theorem step_returning (sqrt : ℚ → ℚ) (fr : Frame) (o0 : Item) (x y : ℚ) (st : Stats)
    (log : List String) (s : SimState)
    (h : ReturningAt o0 x y st log s) (hy : 150 < y - 4) :
    ReturningAt o0 (x + 2) (y - 4) st log (animate sqrt fr s) := by
  obtain ⟨o, hsolo, htr, hst, hc, hox, hoy⟩ := h
  obtain ⟨a1, a2, a3, a4, a5⟩ := animate_soloInsp sqrt fr s o st log hsolo
  rw [updateInspectionObj_returning sqrt (fr.inspNow 0) o hst,
    if_neg (show ¬ (o.y - 4 ≤ MAIN_BELT_Y) from by rw [hoy]; exact not_le.mpr hy)]
    at a2 a3 a4 a5
  refine ⟨_, ⟨a1, a2, a3, a4, a5⟩, htr, hst, hc, ?_, ?_⟩
  · simp only [hox]
  · simp only [hoy]

theorem step_handback (sqrt : ℚ → ℚ) (fr : Frame) (o0 : Item) (x y : ℚ) (st : Stats)
    (log : List String) (s : SimState)
    (h : ReturningAt o0 x y st log s) (hy : y - 4 ≤ 150) :
    MovingAt o0 false 700 st log (animate sqrt fr s) := by
  obtain ⟨o, hsolo, htr, hst, hc, hox, hoy⟩ := h
  obtain ⟨a1, a2, a3, a4, a5⟩ := animate_soloInsp sqrt fr s o st log hsolo
  rw [updateInspectionObj_returning sqrt (fr.inspNow 0) o hst,
    if_pos (show o.y - 4 ≤ MAIN_BELT_Y from by rw [hoy]; exact hy)] at a2 a3 a4 a5
  exact ⟨_, ⟨a1, a2, a3, a4, a5⟩, htr, rfl, hc, rfl, rfl⟩

theorem scenarioStart_contaminated (now : Int) (d : SpawnDraws)
    (hc : (spawnRecyclable d).1.contaminated = true) :
    ∃ m, (spawnRecyclable d).2 = [m] ∧
      MovingAt (spawnRecyclable d).1 true 0 initialStats [m, startMessage]
        (scenarioStart now d) := by
  have hlt : d.rContaminated.val < 0.1 := by
    by_contra h
    unfold spawnRecyclable at hc
    simp [h] at hc
  have hm : ∃ m, (spawnRecyclable d).2 = [m] := by
    unfold spawnRecyclable
    simp [hlt]
  obtain ⟨m, hm⟩ := hm
  have hx : (spawnRecyclable d).1.state = ItemState.moving ∧ (spawnRecyclable d).1.x = 0 ∧
      (spawnRecyclable d).1.y = 150 := by
    unfold spawnRecyclable
    simp [hlt, MAIN_BELT_Y]
  refine ⟨m, hm, (spawnRecyclable d).1, ⟨rfl, rfl, rfl, rfl, ?_⟩,
    ⟨rfl, rfl, rfl, rfl, rfl, rfl⟩, hx.1, hc, hx.2.1, hx.2.2⟩
  simp only [logMessages, scenarioStart, spawnStep, hm, addEvents, handleStart, addEvent,
    initialState]
  rfl

theorem run_dirty_moving (sqrt : ℚ → ℚ) (frs : Nat → Frame) (now : Int) (d : SpawnDraws)
    (m : String) (hm : MovingAt (spawnRecyclable d).1 true 0 initialStats [m, startMessage]
      (scenarioStart now d)) (k : Nat) (hk : k ≤ 501) :
    MovingAt (spawnRecyclable d).1 true (6 / 5 * (k : ℚ)) initialStats [m, startMessage]
      (runFrames sqrt frs k (scenarioStart now d)) := by
  apply runFrames_phase sqrt frs (scenarioStart now d)
    (fun k s => MovingAt (spawnRecyclable d).1 true (6 / 5 * (k : ℚ)) initialStats
      [m, startMessage] s) 0 501 _ _ k (Nat.zero_le k) hk
  · simpa [runFrames] using hm
  · intro j _ hj s hs
    have hj' : (j : ℚ) ≤ 500 := by exact_mod_cast Nat.le_of_lt_succ hj
    have := step_moving sqrt (frs j) (spawnRecyclable d).1 true (6 / 5 * (j : ℚ)) initialStats
      [m, startMessage] s (spawn_velocity d) hs (Or.inr (Or.inl (by linarith))) (by linarith)
    have e : (6 / 5 : ℚ) * ((j + 1 : ℕ) : ℚ) = 6 / 5 * (j : ℚ) + 6 / 5 := by
      push_cast
      ring
    simp only [e]
    exact this

theorem run_dirty_diverting (sqrt : ℚ → ℚ) (frs : Nat → Frame) (now : Int) (d : SpawnDraws)
    (m : String) (hm : MovingAt (spawnRecyclable d).1 true 0 initialStats [m, startMessage]
      (scenarioStart now d)) (k : Nat) (hk1 : 502 ≤ k) (hk2 : k ≤ 563) :
    DivertingAt (spawnRecyclable d).1 (3006 / 5 + ((k : ℚ) - 501)) (150 + 4 * ((k : ℚ) - 501))
      initialStats [divertMessage (spawnRecyclable d).1.name, m, startMessage]
      (runFrames sqrt frs k (scenarioStart now d)) := by
  apply runFrames_phase sqrt frs (scenarioStart now d)
    (fun k s => DivertingAt (spawnRecyclable d).1 (3006 / 5 + ((k : ℚ) - 501))
      (150 + 4 * ((k : ℚ) - 501)) initialStats
      [divertMessage (spawnRecyclable d).1.name, m, startMessage] s) 502 563 _ _ k hk1 hk2
  · have h := step_divert sqrt (frs 501) (spawnRecyclable d).1 _ initialStats
      [m, startMessage] _ (run_dirty_moving sqrt frs now d m hm 501 (le_refl _))
      (by norm_num) (by norm_num)
    have e1 : (6 / 5 : ℚ) * ((501 : ℕ) : ℚ) + 1 = 3006 / 5 + (((502 : ℕ) : ℚ) - 501) := by
      norm_num
    have e2 : (154 : ℚ) = 150 + 4 * (((502 : ℕ) : ℚ) - 501) := by norm_num
    rw [e1, e2] at h
    exact h
  · intro j hj1 hj2 s hs
    have hj' : (j : ℚ) ≤ 562 := by exact_mod_cast Nat.le_of_lt_succ hj2
    have := step_diverting sqrt (frs j) (spawnRecyclable d).1 _ _ initialStats _ s hs
      (by linarith)
    have e1 : (3006 / 5 : ℚ) + (((j + 1 : ℕ) : ℚ) - 501) = 3006 / 5 + ((j : ℚ) - 501) + 1 := by
      push_cast
      ring
    have e2 : (150 : ℚ) + 4 * (((j + 1 : ℕ) : ℚ) - 501) = 150 + 4 * ((j : ℚ) - 501) + 4 := by
      push_cast
      ring
    simp only [e1, e2]
    exact this

theorem run_dirty_inspecting (sqrt : ℚ → ℚ) (frs : Nat → Frame) (now : Int) (d : SpawnDraws)
    (m : String) (hm : MovingAt (spawnRecyclable d).1 true 0 initialStats [m, startMessage]
      (scenarioStart now d)) (n : Nat)
    (hwait : ∀ k, 564 ≤ k → k < n → (frs k).inspNow 0 - (frs 563).mainNow 0 ≤ 3000)
    (k : Nat) (hk1 : 564 ≤ k) (hk2 : k ≤ n) :
    InspectingAt (spawnRecyclable d).1 (3321 / 5) ((frs 563).mainNow 0) initialStats
      [scanMessage (spawnRecyclable d).1.name, divertMessage (spawnRecyclable d).1.name, m,
        startMessage]
      (runFrames sqrt frs k (scenarioStart now d)) := by
  apply runFrames_phase sqrt frs (scenarioStart now d)
    (fun _ s => InspectingAt (spawnRecyclable d).1 (3321 / 5) ((frs 563).mainNow 0)
      initialStats [scanMessage (spawnRecyclable d).1.name,
        divertMessage (spawnRecyclable d).1.name, m, startMessage] s) 564 n _ _ k hk1 hk2
  · have h := step_handoff sqrt (frs 563) (spawnRecyclable d).1 _ _ initialStats _ _
      (run_dirty_diverting sqrt frs now d m hm 563 (by norm_num) (le_refl _)) (by norm_num)
    have e1 : (3006 / 5 : ℚ) + (((563 : ℕ) : ℚ) - 501) + 1 = 3321 / 5 := by norm_num
    rw [e1] at h
    exact h
  · intro j hj1 hj2 s hs
    exact step_waiting sqrt (frs j) (spawnRecyclable d).1 _ _ initialStats _ s hs
      (hwait j hj1 hj2)

theorem run_cleaned_returning (sqrt : ℚ → ℚ) (frs : Nat → Frame) (now : Int) (d : SpawnDraws)
    (m : String) (hm : MovingAt (spawnRecyclable d).1 true 0 initialStats [m, startMessage]
      (scenarioStart now d)) (hcl : (spawnRecyclable d).1.canBeCleaned = some true) (n : Nat)
    (hn : 564 ≤ n)
    (hwait : ∀ k, 564 ≤ k → k < n → (frs k).inspNow 0 - (frs 563).mainNow 0 ≤ 3000)
    (hdone : (frs n).inspNow 0 - (frs 563).mainNow 0 > 3000)
    (k : Nat) (hk1 : n + 1 ≤ k) (hk2 : k ≤ n + 63) :
    ReturningAt (spawnRecyclable d).1 (3321 / 5 + 2 * ((k : ℚ) - (n : ℚ) - 1))
      (400 - 4 * ((k : ℚ) - (n : ℚ) - 1)) resolvedCleanStats
      (cleanedLog (spawnRecyclable d).1.name m)
      (runFrames sqrt frs k (scenarioStart now d)) := by
  apply runFrames_phase sqrt frs (scenarioStart now d)
    (fun k s => ReturningAt (spawnRecyclable d).1 (3321 / 5 + 2 * ((k : ℚ) - (n : ℚ) - 1))
      (400 - 4 * ((k : ℚ) - (n : ℚ) - 1)) resolvedCleanStats
      (cleanedLog (spawnRecyclable d).1.name m) s) (n + 1) (n + 63) _ _ k hk1 hk2
  · have h := step_cleaned sqrt (frs n) (spawnRecyclable d).1 _ _ initialStats _ _ hcl
      (run_dirty_inspecting sqrt frs now d m hm n hwait n hn (le_refl _)) hdone
    have e1 : (3321 / 5 : ℚ) = 3321 / 5 + 2 * (((n + 1 : ℕ) : ℚ) - (n : ℚ) - 1) := by
      push_cast
      ring
    have e2 : (400 : ℚ) = 400 - 4 * (((n + 1 : ℕ) : ℚ) - (n : ℚ) - 1) := by
      push_cast
      ring
    rw [← e1, ← e2]
    exact h
  · intro j hj1 hj2 s hs
    have hj' : (j : ℚ) ≤ (n : ℚ) + 62 := by exact_mod_cast Nat.le_of_lt_succ hj2
    have := step_returning sqrt (frs j) (spawnRecyclable d).1 _ _ resolvedCleanStats _ s hs
      (by linarith)
    have e1 : (3321 / 5 : ℚ) + 2 * (((j + 1 : ℕ) : ℚ) - (n : ℚ) - 1)
        = 3321 / 5 + 2 * ((j : ℚ) - (n : ℚ) - 1) + 2 := by
      push_cast
      ring
    have e2 : (400 : ℚ) - 4 * (((j + 1 : ℕ) : ℚ) - (n : ℚ) - 1)
        = 400 - 4 * ((j : ℚ) - (n : ℚ) - 1) - 4 := by
      push_cast
      ring
    simp only [e1, e2]
    exact this

theorem run_cleaned_moving (sqrt : ℚ → ℚ) (frs : Nat → Frame) (now : Int) (d : SpawnDraws)
    (m : String) (hm : MovingAt (spawnRecyclable d).1 true 0 initialStats [m, startMessage]
      (scenarioStart now d)) (hcl : (spawnRecyclable d).1.canBeCleaned = some true) (n : Nat)
    (hn : 564 ≤ n)
    (hwait : ∀ k, 564 ≤ k → k < n → (frs k).inspNow 0 - (frs 563).mainNow 0 ≤ 3000)
    (hdone : (frs n).inspNow 0 - (frs 563).mainNow 0 > 3000)
    (k : Nat) (hk1 : n + 64 ≤ k) (hk2 : k ≤ n + 647) :
    MovingAt (spawnRecyclable d).1 false (700 + 6 / 5 * ((k : ℚ) - (n : ℚ) - 64))
      resolvedCleanStats (cleanedLog (spawnRecyclable d).1.name m)
      (runFrames sqrt frs k (scenarioStart now d)) := by
  apply runFrames_phase sqrt frs (scenarioStart now d)
    (fun k s => MovingAt (spawnRecyclable d).1 false (700 + 6 / 5 * ((k : ℚ) - (n : ℚ) - 64))
      resolvedCleanStats (cleanedLog (spawnRecyclable d).1.name m) s)
    (n + 64) (n + 647) _ _ k hk1 hk2
  · have h := step_handback sqrt (frs (n + 63)) (spawnRecyclable d).1 _ _ resolvedCleanStats
      _ _ (run_cleaned_returning sqrt frs now d m hm hcl n hn hwait hdone (n + 63)
        (by omega) (le_refl _)) (by push_cast; linarith)
    have e1 : (700 : ℚ) = 700 + 6 / 5 * (((n + 64 : ℕ) : ℚ) - (n : ℚ) - 64) := by
      push_cast
      ring
    rw [← e1]
    exact h
  · intro j hj1 hj2 s hs
    have hj' : (j : ℚ) ≤ (n : ℚ) + 646 := by exact_mod_cast Nat.le_of_lt_succ hj2
    have := step_moving sqrt (frs j) (spawnRecyclable d).1 false _ resolvedCleanStats _ s
      (spawn_velocity d) hs (Or.inl rfl) (by linarith)
    have e1 : (700 : ℚ) + 6 / 5 * (((j + 1 : ℕ) : ℚ) - (n : ℚ) - 64)
        = 700 + 6 / 5 * ((j : ℚ) - (n : ℚ) - 64) + 6 / 5 := by
      push_cast
      ring
    simp only [e1]
    exact this

theorem run_cleaned_exit (sqrt : ℚ → ℚ) (frs : Nat → Frame) (now : Int) (d : SpawnDraws)
    (m : String) (hm : MovingAt (spawnRecyclable d).1 true 0 initialStats [m, startMessage]
      (scenarioStart now d)) (hcl : (spawnRecyclable d).1.canBeCleaned = some true) (n : Nat)
    (hn : 564 ≤ n)
    (hwait : ∀ k, 564 ≤ k → k < n → (frs k).inspNow 0 - (frs 563).mainNow 0 ≤ 3000)
    (hdone : (frs n).inspNow 0 - (frs 563).mainNow 0 > 3000) :
    BeltsEmpty (runFrames sqrt frs (n + 648) (scenarioStart now d)) cleanedStats
      (cleanedLog (spawnRecyclable d).1.name m) := by
  have h := step_exit sqrt (frs (n + 647)) (spawnRecyclable d).1 _ resolvedCleanStats _ _
    (spawn_velocity d)
    (run_cleaned_moving sqrt frs now d m hm hcl n hn hwait hdone (n + 647) (by omega)
      (le_refl _)) (by push_cast; linarith)
  have e : StatsUpdate.exit.apply resolvedCleanStats = cleanedStats := by decide!
  rw [e] at h
  exact h

theorem step_scrap_move (sqrt : ℚ → ℚ) (fr : Frame) (o0 : Item) (x y : ℚ) (st : Stats)
    (log : List String) (s : SimState)
    (h : ScrappingAt o0 x y st log s) (hd : 5 < sinkDistance sqrt x y) :
    ScrappingAt o0 (x + (1150 - x) / sinkDistance sqrt x y * 4)
      (y + (530 - y) / sinkDistance sqrt x y * 4) st log (animate sqrt fr s) := by
  obtain ⟨o, hsolo, htr, hst, hc, hox, hoy⟩ := h
  obtain ⟨a1, a2, a3, a4, a5⟩ := animate_soloInsp sqrt fr s o st log hsolo
  have hd' : sqrt ((1150 - o.x) * (1150 - o.x) + (530 - o.y) * (530 - o.y)) > 5 := by
    rw [hox, hoy]
    exact hd
  rw [updateInspectionObj_scrapping sqrt (fr.inspNow 0) o hst, sinkY_eq, if_pos hd']
    at a2 a3 a4 a5
  refine ⟨_, ⟨a1, a2, a3, a4, a5⟩, htr, hst, hc, ?_, ?_⟩
  · simp only [hox, hoy, sinkDistance]
  · simp only [hox, hoy, sinkDistance]

theorem step_scrap_arrive (sqrt : ℚ → ℚ) (fr : Frame) (o0 : Item) (x y : ℚ) (st : Stats)
    (log : List String) (s : SimState)
    (h : ScrappingAt o0 x y st log s) (hd : sinkDistance sqrt x y ≤ 5) :
    BeltsEmpty (animate sqrt fr s) (StatsUpdate.scrapArrival.apply st) log := by
  obtain ⟨o, hsolo, htr, hst, hc, hox, hoy⟩ := h
  obtain ⟨a1, a2, a3, a4, a5⟩ := animate_soloInsp sqrt fr s o st log hsolo
  have hd' : ¬ (sqrt ((1150 - o.x) * (1150 - o.x) + (530 - o.y) * (530 - o.y)) > 5) := by
    rw [hox, hoy]
    exact not_lt.mpr hd
  rw [updateInspectionObj_scrapping sqrt (fr.inspNow 0) o hst, sinkY_eq, if_neg hd']
    at a2 a3 a4 a5
  exact ⟨a1, a2, a3, a4, a5⟩

/-- With a bounded `Math.sqrt`, a lone scrapping object whose offset to the sink is
`t * (a, b)`, with `a * a + b * b <= D * D`, is removed within `N + 1` frames as soon as
`t * D / 2 <= N`. -/
theorem scrapping_terminates (sqrt : ℚ → ℚ) (hb : SqrtBounded sqrt) (frs : Nat → Frame)
    (s0 : SimState) (o0 : Item) (st : Stats) (log : List String) (a b D : ℚ) (hD : 0 < D)
    (hab : a * a + b * b ≤ D * D) (N : Nat) :
    ∀ (K : Nat) (t : ℚ), 0 ≤ t → t * D / 2 ≤ (N : ℚ) →
      ScrappingAt o0 (1150 - t * a) (530 - t * b) st log (runFrames sqrt frs K s0) →
      ∃ j, j ≤ N ∧
        (∀ i, i ≤ j → ∃ x y, ScrappingAt o0 x y st log (runFrames sqrt frs (K + i) s0) ∧
          (i < j → 5 < sinkDistance sqrt x y) ∧ (i = j → sinkDistance sqrt x y ≤ 5)) ∧
        BeltsEmpty (runFrames sqrt frs (K + j + 1) s0) (StatsUpdate.scrapArrival.apply st)
          log := by
  induction N with
  | zero =>
    intro K t ht htN hs
    have ht0 : t = 0 := by
      have : t * D ≤ 0 := by
        have : t * D / 2 ≤ 0 := by exact_mod_cast htN
        linarith
      nlinarith
    have hd : sinkDistance sqrt (1150 - t * a) (530 - t * b) ≤ 5 := by
      have h0 := hb 0 (le_refl 0)
      have hz : sqrt 0 = 0 := by nlinarith [mul_self_nonneg (sqrt 0)]
      rw [ht0]
      unfold sinkDistance
      norm_num [hz]
    refine ⟨0, le_refl _, ?_, step_scrap_arrive sqrt (frs K) o0 _ _ st log _ hs hd⟩
    intro i hi
    have : i = 0 := by omega
    subst this
    exact ⟨_, _, hs, fun h => absurd h (lt_irrefl _), fun _ => hd⟩
  | succ N ih =>
    intro K t ht htN hs
    by_cases hd : sinkDistance sqrt (1150 - t * a) (530 - t * b) ≤ 5
    · refine ⟨0, Nat.zero_le _, ?_, step_scrap_arrive sqrt (frs K) o0 _ _ st log _ hs hd⟩
      intro i hi
      have : i = 0 := by omega
      subst this
      exact ⟨_, _, hs, fun h => absurd h (lt_irrefl _), fun _ => hd⟩
    · have hd5 : 5 < sinkDistance sqrt (1150 - t * a) (530 - t * b) := not_le.mp hd
      set dist := sinkDistance sqrt (1150 - t * a) (530 - t * b) with hdist
      have hdpos : 0 < dist := by linarith
      have hdne : dist ≠ 0 := ne_of_gt hdpos
      have hv : dist * dist ≤ 4 * (t * t * (a * a + b * b)) := by
        have h1 := hb ((1150 - (1150 - t * a)) * (1150 - (1150 - t * a))
          + (530 - (530 - t * b)) * (530 - (530 - t * b))) (by nlinarith [mul_self_nonneg (t * a), mul_self_nonneg (t * b)])
        have e : (1150 - (1150 - t * a)) * (1150 - (1150 - t * a))
            + (530 - (530 - t * b)) * (530 - (530 - t * b)) = t * t * (a * a + b * b) := by
          ring
        rw [hdist]
        unfold sinkDistance
        rw [e] at h1 ⊢
        exact h1
      have hle : dist ≤ 2 * t * D := by
        by_contra hcon
        have hlt : 2 * t * D < dist := not_le.mp hcon
        have h2 : 0 ≤ 2 * t * D := by positivity
        have h3 : (2 * t * D) * (2 * t * D) < dist * dist := by nlinarith
        have h4 : t * t * (a * a + b * b) ≤ t * t * (D * D) :=
          mul_le_mul_of_nonneg_left hab (mul_self_nonneg t)
        nlinarith
      have hmove := step_scrap_move sqrt (frs K) o0 _ _ st log _ hs hd5
      rw [← hdist] at hmove
      have ex : 1150 - t * a + (1150 - (1150 - t * a)) / dist * 4
          = 1150 - (t * (1 - 4 / dist)) * a := by
        field_simp
        ring
      have ey : 530 - t * b + (530 - (530 - t * b)) / dist * 4
          = 530 - (t * (1 - 4 / dist)) * b := by
        field_simp
        ring
      rw [ex, ey] at hmove
      have hfac : 0 ≤ 1 - 4 / dist := by
        rw [sub_nonneg, div_le_one hdpos]
        linarith
      have ht' : 0 ≤ t * (1 - 4 / dist) := mul_nonneg ht hfac
      have hN' : t * (1 - 4 / dist) * D / 2 ≤ (N : ℚ) := by
        have h1 : t * (1 - 4 / dist) * D / 2 = t * D / 2 - 2 * t * D / dist := by
          field_simp
          ring
        have h2 : 1 ≤ 2 * t * D / dist := by
          rw [le_div_iff₀ hdpos]
          linarith
        have h3 : t * D / 2 ≤ (N : ℚ) + 1 := by exact_mod_cast htN
        rw [h1]
        linarith
      obtain ⟨j, hj, hall, hfin⟩ := ih (K + 1) (t * (1 - 4 / dist)) ht' hN' hmove
      refine ⟨j + 1, by omega, ?_, ?_⟩
      · intro i hi
        cases i with
        | zero =>
          exact ⟨_, _, hs, fun _ => hd5, fun h => by omega⟩
        | succ i =>
          obtain ⟨x, y, h1, h2, h3⟩ := hall i (by omega)
          refine ⟨x, y, ?_, fun h => h2 (by omega), fun h => h3 (by omega)⟩
          have e : K + (i + 1) = K + 1 + i := by omega
          rw [e]
          exact h1
      · have e : K + (j + 1) + 1 = K + 1 + j + 1 := by omega
        rw [e]
        exact hfin

theorem ratSqrt_bounded : SqrtBounded ratSqrt := by
  intro v hv
  unfold ratSqrt
  have hn0 : 0 ≤ v.num := Rat.num_nonneg.mpr hv
  obtain ⟨n, hn⟩ := Int.eq_ofNat_of_zero_le hn0
  have hd : 0 < v.den := v.den_pos
  set p := Nat.sqrt v.num.toNat with hp
  set q := Nat.sqrt v.den with hq
  have hq1 : 1 ≤ q := by
    rw [hq]
    exact Nat.sqrt_pos.mpr hd
  have hpn : p * p ≤ n := by
    have : v.num.toNat = n := by rw [hn]; simp
    rw [hp, this]
    exact Nat.sqrt_le n
  have hqd : v.den < (q + 1) * (q + 1) := Nat.lt_succ_sqrt v.den
  have hd4 : v.den ≤ 4 * (q * q) := by nlinarith
  have hv' : v = (n : ℚ) / (v.den : ℚ) := by
    have h1 : v = (v.num : ℚ) / (v.den : ℚ) := (Rat.num_div_den v).symm
    have h2 : (v.num : ℚ) = (n : ℚ) := by
      rw [hn]
      rfl
    rw [h2] at h1
    exact h1
  have hqpos : (0 : ℚ) < (q : ℚ) := by exact_mod_cast hq1
  have hdpos : (0 : ℚ) < (v.den : ℚ) := by exact_mod_cast hd
  have hpn' : (p : ℚ) * (p : ℚ) ≤ (n : ℚ) := by exact_mod_cast hpn
  have hd4' : (v.den : ℚ) ≤ 4 * ((q : ℚ) * (q : ℚ)) := by exact_mod_cast hd4
  have hn' : (0 : ℚ) ≤ (n : ℚ) := by positivity
  have e : (p : ℚ) / (q : ℚ) * ((p : ℚ) / (q : ℚ)) = ((p : ℚ) * (p : ℚ)) / ((q : ℚ) * (q : ℚ)) := by
    field_simp
  rw [e, div_le_iff₀ (by positivity)]
  calc (p : ℚ) * (p : ℚ) ≤ (n : ℚ) := hpn'
    _ = (n : ℚ) / (v.den : ℚ) * (v.den : ℚ) := by field_simp
    _ ≤ (n : ℚ) / (v.den : ℚ) * (4 * ((q : ℚ) * (q : ℚ))) :=
        mul_le_mul_of_nonneg_left hd4' (div_nonneg hn' hdpos.le)
    _ = 4 * v * ((q : ℚ) * (q : ℚ)) := by rw [← hv']; ring

/-- C19 (Scenario B): after `handleStart` and the spawn of one contaminated, cleanable
item, with no further spawn and a clock whose reading first exceeds the arrival reading by
more than 3000 ms in frame `n`, the item is `moving` at `x = 1.2 * k` up to frame 501, is
diverted in the frame that finds it at `x = 601.2` inside the window (the only frame that
logs the divert event), is `diverting` up to frame 563, `inspecting` up to frame `n`,
`returning` and not contaminated for the next 63 frames, `moving` again from `x = 700` and
removed at the exit in frame `n + 647`, leaving both belts empty and the stats at
`recovered = totalProcessed = diverted = cleaned = 1`, `scrapped = 0`,
`recoveryPercentage = 100`. -/
theorem scenario_B (sqrt : ℚ → ℚ) (frs : Nat → Frame) (now : Int) (d : SpawnDraws)
    (hc : (spawnRecyclable d).1.contaminated = true)
    (hcl : (spawnRecyclable d).1.canBeCleaned = some true) (n : Nat) (hn : 564 ≤ n)
    (hwait : ∀ k, 564 ≤ k → k < n → (frs k).inspNow 0 - (frs 563).mainNow 0 ≤ 3000)
    (hdone : (frs n).inspNow 0 - (frs 563).mainNow 0 > 3000) :
    ∃ m, (spawnRecyclable d).2 = [m] ∧
      (∀ k : ℕ, k ≤ 501 →
        MovingAt (spawnRecyclable d).1 true (6 / 5 * (k : ℚ)) initialStats [m, startMessage]
          (runFrames sqrt frs k (scenarioStart now d))) ∧
      ((600 : ℚ) < 6 / 5 * (501 : ℕ) ∧ (6 / 5 : ℚ) * (501 : ℕ) < 650 ∧
        (6 / 5 : ℚ) * (500 : ℕ) ≤ 600) ∧
      (∀ k : ℕ, 502 ≤ k → k ≤ 563 →
        DivertingAt (spawnRecyclable d).1 (3006 / 5 + ((k : ℚ) - 501))
          (150 + 4 * ((k : ℚ) - 501)) initialStats
          [divertMessage (spawnRecyclable d).1.name, m, startMessage]
          (runFrames sqrt frs k (scenarioStart now d))) ∧
      (∀ k : ℕ, 564 ≤ k → k ≤ n →
        InspectingAt (spawnRecyclable d).1 (3321 / 5) ((frs 563).mainNow 0) initialStats
          [scanMessage (spawnRecyclable d).1.name, divertMessage (spawnRecyclable d).1.name, m,
            startMessage]
          (runFrames sqrt frs k (scenarioStart now d))) ∧
      (∀ k : ℕ, n + 1 ≤ k → k ≤ n + 63 →
        ReturningAt (spawnRecyclable d).1 (3321 / 5 + 2 * ((k : ℚ) - (n : ℚ) - 1))
          (400 - 4 * ((k : ℚ) - (n : ℚ) - 1)) resolvedCleanStats
          (cleanedLog (spawnRecyclable d).1.name m)
          (runFrames sqrt frs k (scenarioStart now d))) ∧
      (∀ k : ℕ, n + 64 ≤ k → k ≤ n + 647 →
        MovingAt (spawnRecyclable d).1 false (700 + 6 / 5 * ((k : ℚ) - (n : ℚ) - 64))
          resolvedCleanStats (cleanedLog (spawnRecyclable d).1.name m)
          (runFrames sqrt frs k (scenarioStart now d))) ∧
      BeltsEmpty (runFrames sqrt frs (n + 648) (scenarioStart now d)) cleanedStats
        (cleanedLog (spawnRecyclable d).1.name m) ∧
      (runFrames sqrt frs (n + 648) (scenarioStart now d)).mainBeltObjects = [] ∧
      (runFrames sqrt frs (n + 648) (scenarioStart now d)).inspectionBeltObjects = [] ∧
      (runFrames sqrt frs (n + 648) (scenarioStart now d)).stats =
        { totalProcessed := 1, diverted := 1, cleaned := 1, scrapped := 0, recovered := 1,
          recoveryPercentage := 100 } := by
  obtain ⟨m, hm1, hm⟩ := scenarioStart_contaminated now d hc
  have hfin := run_cleaned_exit sqrt frs now d m hm hcl n hn hwait hdone
  exact ⟨m, hm1, run_dirty_moving sqrt frs now d m hm, by norm_num,
    run_dirty_diverting sqrt frs now d m hm,
    run_dirty_inspecting sqrt frs now d m hm n hwait,
    run_cleaned_returning sqrt frs now d m hm hcl n hn hwait hdone,
    run_cleaned_moving sqrt frs now d m hm hcl n hn hwait hdone,
    hfin, hfin.2.1, hfin.2.2.1, hfin.2.2.2.1⟩

set_option maxRecDepth 100000 in
theorem scenario_B_witness :
    ∃ m, (spawnRecyclable drawsCleanable).2 = [m] ∧
      BeltsEmpty (runFrames ratSqrt scanFrames (564 + 648) (scenarioStart 0 drawsCleanable))
        cleanedStats (cleanedLog (spawnRecyclable drawsCleanable).1.name m) := by
  obtain ⟨m, h1, _, _, _, _, _, _, h8, _⟩ :=
    scenario_B ratSqrt scanFrames 0 drawsCleanable (by decide!) (by decide!) 564 (le_refl _)
      (fun k h1 h2 => absurd h1 (not_le.mpr h2)) (by decide)
  exact ⟨m, h1, h8⟩

theorem run_scrapped (sqrt : ℚ → ℚ) (frs : Nat → Frame) (now : Int) (d : SpawnDraws)
    (m : String) (hm : MovingAt (spawnRecyclable d).1 true 0 initialStats [m, startMessage]
      (scenarioStart now d)) (hcl : (spawnRecyclable d).1.canBeCleaned ≠ some true) (n : Nat)
    (hn : 564 ≤ n)
    (hwait : ∀ k, 564 ≤ k → k < n → (frs k).inspNow 0 - (frs 563).mainNow 0 ≤ 3000)
    (hdone : (frs n).inspNow 0 - (frs 563).mainNow 0 > 3000) :
    ScrappingAt (spawnRecyclable d).1 (3321 / 5) 400 resolvedScrapStats
      (scrappedLog (spawnRecyclable d).1.name m)
      (runFrames sqrt frs (n + 1) (scenarioStart now d)) :=
  step_scrapped sqrt (frs n) (spawnRecyclable d).1 _ _ initialStats _ _ hcl
    (run_dirty_inspecting sqrt frs now d m hm n hwait n hn (le_refl _)) hdone

/-- C20 (Scenario C): with a `Math.sqrt` that returns at most twice the square root, after
`handleStart` and the spawn of one contaminated item that cannot be cleaned, with no
further spawn and a clock whose reading first exceeds the arrival reading by more than
3000 ms in frame `n`, the item is diverted in the frame that finds it at `x = 601.2`, is
`inspecting` up to frame `n`, is set to `scrapping` by frame `n`, moves toward the sink
while the distance the callback computes exceeds 5, for `j <= 252` frames, and is removed
by the first frame that computes a distance of at most 5, leaving both belts empty and the
stats at `scrapped = totalProcessed = diverted = 1`, `recovered = cleaned = 0`,
`recoveryPercentage = 0`. -/
theorem scenario_C (sqrt : ℚ → ℚ) (hb : SqrtBounded sqrt) (frs : Nat → Frame) (now : Int)
    (d : SpawnDraws) (hc : (spawnRecyclable d).1.contaminated = true)
    (hcl : (spawnRecyclable d).1.canBeCleaned ≠ some true) (n : Nat) (hn : 564 ≤ n)
    (hwait : ∀ k, 564 ≤ k → k < n → (frs k).inspNow 0 - (frs 563).mainNow 0 ≤ 3000)
    (hdone : (frs n).inspNow 0 - (frs 563).mainNow 0 > 3000) :
    ∃ m j, (spawnRecyclable d).2 = [m] ∧ j ≤ 252 ∧
      (∀ k : ℕ, k ≤ 501 →
        MovingAt (spawnRecyclable d).1 true (6 / 5 * (k : ℚ)) initialStats [m, startMessage]
          (runFrames sqrt frs k (scenarioStart now d))) ∧
      (∀ k : ℕ, 502 ≤ k → k ≤ 563 →
        DivertingAt (spawnRecyclable d).1 (3006 / 5 + ((k : ℚ) - 501))
          (150 + 4 * ((k : ℚ) - 501)) initialStats
          [divertMessage (spawnRecyclable d).1.name, m, startMessage]
          (runFrames sqrt frs k (scenarioStart now d))) ∧
      (∀ k : ℕ, 564 ≤ k → k ≤ n →
        InspectingAt (spawnRecyclable d).1 (3321 / 5) ((frs 563).mainNow 0) initialStats
          [scanMessage (spawnRecyclable d).1.name, divertMessage (spawnRecyclable d).1.name, m,
            startMessage]
          (runFrames sqrt frs k (scenarioStart now d))) ∧
      (∀ i, i ≤ j → ∃ x y,
        ScrappingAt (spawnRecyclable d).1 x y resolvedScrapStats
          (scrappedLog (spawnRecyclable d).1.name m)
          (runFrames sqrt frs (n + 1 + i) (scenarioStart now d)) ∧
        (i < j → 5 < sinkDistance sqrt x y) ∧ (i = j → sinkDistance sqrt x y ≤ 5)) ∧
      BeltsEmpty (runFrames sqrt frs (n + 1 + j + 1) (scenarioStart now d)) scrappedStats
        (scrappedLog (spawnRecyclable d).1.name m) ∧
      (runFrames sqrt frs (n + 1 + j + 1) (scenarioStart now d)).mainBeltObjects = [] ∧
      (runFrames sqrt frs (n + 1 + j + 1) (scenarioStart now d)).inspectionBeltObjects = [] ∧
      (runFrames sqrt frs (n + 1 + j + 1) (scenarioStart now d)).stats =
        { totalProcessed := 1, diverted := 1, cleaned := 0, scrapped := 1, recovered := 0,
          recoveryPercentage := 0 } := by
  obtain ⟨m, hm1, hm⟩ := scenarioStart_contaminated now d hc
  have hs := run_scrapped sqrt frs now d m hm hcl n hn hwait hdone
  have e1 : (3321 / 5 : ℚ) = 1150 - 1 * (2429 / 5) := by norm_num
  have e2 : (400 : ℚ) = 530 - 1 * 130 := by norm_num
  rw [e1, e2] at hs
  obtain ⟨j, hj, hall, hfin⟩ := scrapping_terminates sqrt hb frs (scenarioStart now d)
    (spawnRecyclable d).1 resolvedScrapStats (scrappedLog (spawnRecyclable d).1.name m)
    (2429 / 5) 130 503 (by norm_num) (by norm_num) 252 (n + 1) 1 (by norm_num)
    (by norm_num) hs
  have e : StatsUpdate.scrapArrival.apply resolvedScrapStats = scrappedStats := by decide!
  rw [e] at hfin
  exact ⟨m, j, hm1, hj, run_dirty_moving sqrt frs now d m hm,
    run_dirty_diverting sqrt frs now d m hm,
    run_dirty_inspecting sqrt frs now d m hm n hwait, hall, hfin, hfin.2.1, hfin.2.2.1,
    hfin.2.2.2.1⟩

set_option maxRecDepth 100000 in
theorem scenario_C_witness :
    ∃ m j, (spawnRecyclable drawsScrap).2 = [m] ∧ j ≤ 252 ∧
      BeltsEmpty (runFrames ratSqrt scanFrames (564 + 1 + j + 1) (scenarioStart 0 drawsScrap))
        scrappedStats (scrappedLog (spawnRecyclable drawsScrap).1.name m) := by
  obtain ⟨m, j, h1, h2, _, _, _, _, h7, _⟩ :=
    scenario_C ratSqrt ratSqrt_bounded scanFrames 0 drawsScrap (by decide!) (by decide!) 564
      (le_refl _) (fun k h1 h2 => absurd h1 (not_le.mpr h2)) (by decide)
  exact ⟨m, j, h1, h2, h7⟩

/-! ## Lines, sinks, hand-offs, detection guarantee, termination and the quiz -/

theorem lineState_main (now : Int) (r : Rand) (obj : Item) (h : OnMainState obj) :
    (∀ o, (updateMainObj now r obj).kept = some o → OnMainState o) ∧
    (∀ o, (updateMainObj now r obj).toInspection = some o → OnInspectionState o) := by
  rw [updateMainObj_eq_divertCheck]
  unfold exitCheck
  constructor <;> intro o ho <;> split_ifs at ho <;> cases ho <;>
    simp_all [OnMainState, OnInspectionState]

theorem lineState_insp (sqrt : ℚ → ℚ) (now : Int) (obj : Item) (h : OnInspectionState obj) :
    (∀ o, (updateInspectionObj sqrt now obj).kept = some o → OnInspectionState o) ∧
    (∀ o, (updateInspectionObj sqrt now obj).toMain = some o → OnMainState o) := by
  unfold updateInspectionObj
  constructor
  · intro o ho
    split at ho <;> simp only at ho <;> (try split_ifs at ho) <;> cases ho <;>
      simp_all [OnMainState, OnInspectionState]
  · intro o ho
    split at ho <;> simp only at ho <;> (try split_ifs at ho) <;> cases ho
    simp [OnMainState]

/-- C22: in every reachable state every object of the main-belt list is `moving` or
`diverting` and every object of the inspection-belt list is `inspecting`, `returning` or
`scrapping`; so the state of an object never names a line other than the one whose list
holds it. -/
theorem state_determines_line (sqrt : ℚ → ℚ) (s : SimState) (hs : Reachable sqrt s) :
    (∀ o ∈ s.mainBeltObjects,
      o.state = ItemState.moving ∨ o.state = ItemState.diverting) ∧
    (∀ o ∈ s.inspectionBeltObjects,
      o.state = ItemState.inspecting ∨ o.state = ItemState.returning ∨
        o.state = ItemState.scrapping) ∧
    (∀ o ∈ s.mainBeltObjects, o.state ≠ ItemState.inspecting ∧
      o.state ≠ ItemState.returning ∧ o.state ≠ ItemState.scrapping) ∧
    (∀ o ∈ s.inspectionBeltObjects, o.state ≠ ItemState.moving ∧
      o.state ≠ ItemState.diverting) := by
  have h := belts_invariant OnMainState OnInspectionState
    (by
      intro d
      unfold spawnRecyclable
      by_cases h : d.rContaminated.val < 0.1 <;> simp [h, OnMainState])
    lineState_main lineState_insp sqrt s hs
  refine ⟨h.1, h.2, ?_, ?_⟩
  · intro o ho
    rcases h.1 o ho with h1 | h1 <;> simp [h1]
  · intro o ho
    rcases h.2 o ho with h1 | h1 | h1 <;> simp [h1]

theorem state_determines_line_witness :
    inspectingItem.state = ItemState.inspecting ∨ inspectingItem.state = ItemState.returning ∨
      inspectingItem.state = ItemState.scrapping :=
  (state_determines_line ratSqrt underInspection reachable_underInspection).2.1
    inspectingItem (by rw [underInspection_insp]; simp)

theorem divertedBalance_apply (u : StatsUpdate) (S : Stats)
    (h : S.diverted = S.cleaned + S.scrapped) :
    (u.apply S).diverted = (u.apply S).cleaned + (u.apply S).scrapped := by
  cases u <;> simp only [StatsUpdate.apply] <;> omega

/-- C28: in every reachable state `diverted == cleaned + scrapped`. The two resolution
updaters add 1 to `diverted` together with exactly one of `cleaned` and `scrapped`, the
exit and scrap-bin updaters leave the three counters alone, and the main-belt callback
queues no stats updater in the frame in which it diverts an object. -/
theorem diverted_is_cleaned_plus_scrapped :
    (∀ (sqrt : ℚ → ℚ) (s : SimState), Reachable sqrt s →
      s.stats.diverted = s.stats.cleaned + s.stats.scrapped) ∧
    (∀ S : Stats,
      ((StatsUpdate.cleaned.apply S).diverted = S.diverted + 1 ∧
        (StatsUpdate.cleaned.apply S).cleaned = S.cleaned + 1 ∧
        (StatsUpdate.cleaned.apply S).scrapped = S.scrapped) ∧
      ((StatsUpdate.scrapped.apply S).diverted = S.diverted + 1 ∧
        (StatsUpdate.scrapped.apply S).cleaned = S.cleaned ∧
        (StatsUpdate.scrapped.apply S).scrapped = S.scrapped + 1) ∧
      ((StatsUpdate.exit.apply S).diverted = S.diverted ∧
        (StatsUpdate.exit.apply S).cleaned = S.cleaned ∧
        (StatsUpdate.exit.apply S).scrapped = S.scrapped) ∧
      ((StatsUpdate.scrapArrival.apply S).diverted = S.diverted ∧
        (StatsUpdate.scrapArrival.apply S).cleaned = S.cleaned ∧
        (StatsUpdate.scrapArrival.apply S).scrapped = S.scrapped)) ∧
    (∀ (now : Int) (r : Rand) (obj : Item), divertCheck obj = true →
      (updateMainObj now r obj).statsUpdates = []) ∧
    (∀ (now : Int) (r : Rand) (obj : Item) (u : StatsUpdate),
      u ∈ (updateMainObj now r obj).statsUpdates → u = StatsUpdate.exit) := by
  refine ⟨?_, fun S => ⟨⟨rfl, rfl, rfl⟩, ⟨rfl, rfl, rfl⟩, ⟨rfl, rfl, rfl⟩, ⟨rfl, rfl, rfl⟩⟩,
    ?_, ?_⟩
  · intro sqrt s hs
    induction hs with
    | init => rfl
    | spawn d _ ih => exact ih
    | tick fr _ ih =>
      exact applyStatsUpdates_preserves (fun S => S.diverted = S.cleaned + S.scrapped)
        divertedBalance_apply _ _ ih
    | start now _ ih => exact ih
    | stop now _ ih => exact ih
    | reset now _ ih => rfl
  · intro now r obj h
    rw [updateMainObj_eq_divertCheck, if_pos h]
    split_ifs <;> rfl
  · intro now r obj u hu
    rw [updateMainObj_eq_divertCheck] at hu
    unfold exitCheck at hu
    split_ifs at hu <;> simp_all

theorem diverted_is_cleaned_plus_scrapped_witness :
    scrapResolved.stats.diverted = scrapResolved.stats.cleaned + scrapResolved.stats.scrapped :=
  diverted_is_cleaned_plus_scrapped.1 ratSqrt scrapResolved reachable_scrapResolved

theorem main_fate (now : Int) (r : Rand) (obj : Item) :
    (exitsMain obj = true →
      (updateMainObj now r obj).kept = none ∧ (updateMainObj now r obj).toInspection = none) ∧
    (exitsMain obj = false →
      ∃ o, o.id = obj.id ∧
        (((updateMainObj now r obj).kept = some o ∧
            (updateMainObj now r obj).toInspection = none) ∨
          ((updateMainObj now r obj).kept = none ∧
            (updateMainObj now r obj).toInspection = some o))) := by
  rw [updateMainObj_eq_divertCheck]
  unfold exitsMain exitCheck
  by_cases hd : divertCheck obj = true
  · simp only [hd, if_true]
    constructor
    · intro h
      simp at h
    · intro _
      split_ifs
      · refine ⟨_, ?_, Or.inr ⟨rfl, rfl⟩⟩
        rfl
      · refine ⟨_, ?_, Or.inl ⟨rfl, rfl⟩⟩
        rfl
  · have hd' : divertCheck obj = false := by simpa using hd
    simp only [hd, if_false, hd']
    by_cases hm : obj.state = ItemState.moving
    · by_cases hx : obj.x + obj.velocity > CANVAS_WIDTH
      · simp [hm, hx]
      · simp [hm, hx]
    · by_cases hv : obj.state = ItemState.diverting
      · by_cases hy : obj.y + 4 ≥ INSPECTION_BELT_Y <;> simp [hm, hv, hy]
      · simp [hm, hv]

theorem insp_fate (sqrt : ℚ → ℚ) (now : Int) (obj : Item) :
    (arrivesAtSink sqrt obj = true →
      (updateInspectionObj sqrt now obj).kept = none ∧
      (updateInspectionObj sqrt now obj).toMain = none ∧
      (updateInspectionObj sqrt now obj).statsUpdates = [StatsUpdate.scrapArrival]) ∧
    (arrivesAtSink sqrt obj = false →
      ∃ o, o.id = obj.id ∧
        (((updateInspectionObj sqrt now obj).kept = some o ∧
            (updateInspectionObj sqrt now obj).toMain = none) ∨
          ((updateInspectionObj sqrt now obj).kept = none ∧
            (updateInspectionObj sqrt now obj).toMain = some o))) := by
  unfold arrivesAtSink sinkDistance
  by_cases hs : obj.state = ItemState.scrapping
  · rw [updateInspectionObj_scrapping sqrt now obj hs, sinkY_eq]
    by_cases hd : sqrt ((1150 - obj.x) * (1150 - obj.x) + (530 - obj.y) * (530 - obj.y)) > 5
    · simp [hs, hd]
    · simp [hs, hd]
  · constructor
    · intro h
      simp [hs] at h
    · intro _
      unfold updateInspectionObj
      split
      · simp only
        split_ifs
        · refine ⟨_, ?_, Or.inl ⟨rfl, rfl⟩⟩
          rfl
        · refine ⟨_, ?_, Or.inl ⟨rfl, rfl⟩⟩
          rfl
        · refine ⟨_, ?_, Or.inl ⟨rfl, rfl⟩⟩
          rfl
      · simp only
        split_ifs
        · refine ⟨_, ?_, Or.inr ⟨rfl, rfl⟩⟩
          rfl
        · refine ⟨_, ?_, Or.inl ⟨rfl, rfl⟩⟩
          rfl
      · exact absurd (by assumption) hs
      · refine ⟨_, ?_, Or.inl ⟨rfl, rfl⟩⟩
        rfl

theorem forward_updateMainBelt (fr : Frame) (i : Nat) (objs : List Item) (obj : Item)
    (h : obj ∈ objs) :
    ∃ j, (∀ o, (updateMainObj (fr.mainNow j) (fr.rnd j) obj).kept = some o →
        o ∈ (updateMainBelt fr i objs).kept) ∧
      (∀ o, (updateMainObj (fr.mainNow j) (fr.rnd j) obj).toInspection = some o →
        o ∈ (updateMainBelt fr i objs).toInspection) := by
  induction objs generalizing i with
  | nil => cases h
  | cons a rest ih =>
    rcases List.mem_cons.mp h with h | h
    · subst h
      refine ⟨i, ?_, ?_⟩ <;> intro o ho <;>
        simp only [updateMainBelt, List.mem_append, Option.mem_toList, Option.mem_def] <;>
        exact Or.inl ho
    · obtain ⟨j, h1, h2⟩ := ih (i + 1) h
      refine ⟨j, ?_, ?_⟩ <;> intro o ho <;>
        simp only [updateMainBelt, List.mem_append, Option.mem_toList, Option.mem_def]
      · exact Or.inr (h1 o ho)
      · exact Or.inr (h2 o ho)

theorem forward_updateInspectionBelt (sqrt : ℚ → ℚ) (fr : Frame) (i : Nat) (objs : List Item)
    (obj : Item) (h : obj ∈ objs) :
    ∃ j, (∀ o, (updateInspectionObj sqrt (fr.inspNow j) obj).kept = some o →
        o ∈ (updateInspectionBelt sqrt fr i objs).kept) ∧
      (∀ o, (updateInspectionObj sqrt (fr.inspNow j) obj).toMain = some o →
        o ∈ (updateInspectionBelt sqrt fr i objs).toMain) := by
  induction objs generalizing i with
  | nil => cases h
  | cons a rest ih =>
    rcases List.mem_cons.mp h with h | h
    · subst h
      refine ⟨i, ?_, ?_⟩ <;> intro o ho <;>
        simp only [updateInspectionBelt, List.mem_append, Option.mem_toList, Option.mem_def] <;>
        exact Or.inl ho
    · obtain ⟨j, h1, h2⟩ := ih (i + 1) h
      refine ⟨j, ?_, ?_⟩ <;> intro o ho <;>
        simp only [updateInspectionBelt, List.mem_append, Option.mem_toList, Option.mem_def]
      · exact Or.inr (h1 o ho)
      · exact Or.inr (h2 o ho)

theorem count_updateMainBelt (fr : Frame) (i : Nat) (objs : List Item) :
    (updateMainBelt fr i objs).kept.length + (updateMainBelt fr i objs).toInspection.length
      = objs.countP (fun o => !exitsMain o) := by
  induction objs generalizing i with
  | nil => rfl
  | cons a rest ih =>
    have h := main_fate (fr.mainNow i) (fr.rnd i) a
    have h2 := ih (i + 1)
    simp only [updateMainBelt, List.length_append, List.countP_cons]
    by_cases he : exitsMain a = true
    · obtain ⟨h3, h4⟩ := h.1 he
      simp only [h3, h4, he, Option.toList, List.length_nil]
      simp
      omega
    · have he' : exitsMain a = false := by simpa using he
      obtain ⟨o, _, h3 | h3⟩ := h.2 he'
      · simp only [h3.1, h3.2, he', Option.toList, List.length_nil, List.length_singleton]
        simp
        omega
      · simp only [h3.1, h3.2, he', Option.toList, List.length_nil, List.length_singleton]
        simp
        omega

theorem count_updateInspectionBelt (sqrt : ℚ → ℚ) (fr : Frame) (i : Nat) (objs : List Item) :
    (updateInspectionBelt sqrt fr i objs).kept.length
        + (updateInspectionBelt sqrt fr i objs).toMain.length
      = objs.countP (fun o => !arrivesAtSink sqrt o) := by
  induction objs generalizing i with
  | nil => rfl
  | cons a rest ih =>
    have h := insp_fate sqrt (fr.inspNow i) a
    have h2 := ih (i + 1)
    simp only [updateInspectionBelt, List.length_append, List.countP_cons]
    by_cases he : arrivesAtSink sqrt a = true
    · obtain ⟨h3, h4, _⟩ := h.1 he
      simp only [h3, h4, he, Option.toList, List.length_nil]
      simp
      omega
    · have he' : arrivesAtSink sqrt a = false := by simpa using he
      obtain ⟨o, _, h3 | h3⟩ := h.2 he'
      · simp only [h3.1, h3.2, he', Option.toList, List.length_nil, List.length_singleton]
        simp
        omega
      · simp only [h3.1, h3.2, he', Option.toList, List.length_nil, List.length_singleton]
        simp
        omega

theorem main_id (now : Int) (r : Rand) (obj o : Item)
    (h : (updateMainObj now r obj).kept = some o ∨
      (updateMainObj now r obj).toInspection = some o) : o.id = obj.id := by
  have hf := main_fate now r obj
  by_cases he : exitsMain obj = true
  · obtain ⟨h1, h2⟩ := hf.1 he
    rw [h1, h2] at h
    rcases h with h | h <;> cases h
  · obtain ⟨o', hid, h3 | h3⟩ := hf.2 (by simpa using he)
    · rw [h3.1, h3.2] at h
      rcases h with h | h <;> cases h
      exact hid
    · rw [h3.1, h3.2] at h
      rcases h with h | h <;> cases h
      exact hid

theorem insp_id (sqrt : ℚ → ℚ) (now : Int) (obj o : Item)
    (h : (updateInspectionObj sqrt now obj).kept = some o ∨
      (updateInspectionObj sqrt now obj).toMain = some o) : o.id = obj.id := by
  have hf := insp_fate sqrt now obj
  by_cases he : arrivesAtSink sqrt obj = true
  · obtain ⟨h1, h2, _⟩ := hf.1 he
    rw [h1, h2] at h
    rcases h with h | h <;> cases h
  · obtain ⟨o', hid, h3 | h3⟩ := hf.2 (by simpa using he)
    · rw [h3.1, h3.2] at h
      rcases h with h | h <;> cases h
      exact hid
    · rw [h3.1, h3.2] at h
      rcases h with h | h <;> cases h
      exact hid

/-- Every object on a belt after a frame is what one call of a belt callback made of an
object that was on a belt before the frame. -/
theorem tick_origin (sqrt : ℚ → ℚ) (fr : Frame) (s : SimState) (o : Item)
    (h : o ∈ (tick sqrt fr s).mainBeltObjects ++ (tick sqrt fr s).inspectionBeltObjects) :
    (∃ j, ∃ obj ∈ s.mainBeltObjects,
      (updateMainObj (fr.mainNow j) (fr.rnd j) obj).kept = some o ∨
        (updateMainObj (fr.mainNow j) (fr.rnd j) obj).toInspection = some o) ∨
    (∃ j, ∃ obj ∈ s.inspectionBeltObjects,
      (updateInspectionObj sqrt (fr.inspNow j) obj).kept = some o ∨
        (updateInspectionObj sqrt (fr.inspNow j) obj).toMain = some o) := by
  simp only [tick, List.mem_append] at h
  rcases h with (h | h) | (h | h)
  · obtain ⟨j, obj, hm, hk⟩ := mem_updateMainBelt_kept fr 0 _ o h
    exact Or.inl ⟨j, obj, hm, Or.inl hk⟩
  · obtain ⟨j, obj, hm, hk⟩ := mem_updateInspectionBelt_toMain sqrt fr 0 _ o h
    exact Or.inr ⟨j, obj, hm, Or.inr hk⟩
  · obtain ⟨j, obj, hm, hk⟩ := mem_updateInspectionBelt_kept sqrt fr 0 _ o h
    exact Or.inr ⟨j, obj, hm, Or.inl hk⟩
  · obtain ⟨j, obj, hm, hk⟩ := mem_updateMainBelt_toInspection fr 0 _ o h
    exact Or.inl ⟨j, obj, hm, Or.inr hk⟩

/-- C23: the main-belt callback drops an object exactly when the object is `moving`, is not
diverted, and its advanced position exceeds 1400; the inspection-belt callback drops an
object exactly when the object is `scrapping` and the distance it computes to the sink is
at most 5. Every other object is returned to exactly one of the two belts, with its id:
kept on its belt or handed to the other one. A frame creates no object: every id on a belt
after the frame was on a belt before it, and the two lists together hold exactly the
objects that were not dropped. -/
theorem destroyed_only_at_sinks :
    (∀ (now : Int) (r : Rand) (obj : Item),
      (exitsMain obj = true →
        (updateMainObj now r obj).kept = none ∧
        (updateMainObj now r obj).toInspection = none) ∧
      (exitsMain obj = false →
        ∃ o, o.id = obj.id ∧
          (((updateMainObj now r obj).kept = some o ∧
              (updateMainObj now r obj).toInspection = none) ∨
            ((updateMainObj now r obj).kept = none ∧
              (updateMainObj now r obj).toInspection = some o)))) ∧
    (∀ obj : Item, exitsMain obj = true →
      obj.state = ItemState.moving ∧ obj.x + obj.velocity > 1400) ∧
    (∀ (sqrt : ℚ → ℚ) (now : Int) (obj : Item),
      (arrivesAtSink sqrt obj = true →
        (updateInspectionObj sqrt now obj).kept = none ∧
        (updateInspectionObj sqrt now obj).toMain = none) ∧
      (arrivesAtSink sqrt obj = false →
        ∃ o, o.id = obj.id ∧
          (((updateInspectionObj sqrt now obj).kept = some o ∧
              (updateInspectionObj sqrt now obj).toMain = none) ∨
            ((updateInspectionObj sqrt now obj).kept = none ∧
              (updateInspectionObj sqrt now obj).toMain = some o)))) ∧
    (∀ (sqrt : ℚ → ℚ) (obj : Item), arrivesAtSink sqrt obj = true →
      obj.state = ItemState.scrapping ∧
      sqrt ((1150 - obj.x) * (1150 - obj.x) + (530 - obj.y) * (530 - obj.y)) ≤ 5) ∧
    (∀ (sqrt : ℚ → ℚ) (fr : Frame) (s : SimState) (obj : Item),
      (obj ∈ s.mainBeltObjects ∧ exitsMain obj = false) ∨
        (obj ∈ s.inspectionBeltObjects ∧ arrivesAtSink sqrt obj = false) →
      ∃ o, o.id = obj.id ∧
        (o ∈ (tick sqrt fr s).mainBeltObjects ∨ o ∈ (tick sqrt fr s).inspectionBeltObjects)) ∧
    (∀ (sqrt : ℚ → ℚ) (fr : Frame) (s : SimState),
      ∀ o ∈ (tick sqrt fr s).mainBeltObjects ++ (tick sqrt fr s).inspectionBeltObjects,
        ∃ obj ∈ s.mainBeltObjects ++ s.inspectionBeltObjects, o.id = obj.id) ∧
    (∀ (sqrt : ℚ → ℚ) (fr : Frame) (s : SimState),
      (tick sqrt fr s).mainBeltObjects.length + (tick sqrt fr s).inspectionBeltObjects.length
        = s.mainBeltObjects.countP (fun o => !exitsMain o)
          + s.inspectionBeltObjects.countP (fun o => !arrivesAtSink sqrt o)) := by
  refine ⟨main_fate, ?_, fun sqrt now obj => ⟨fun h => ⟨((insp_fate sqrt now obj).1 h).1,
    ((insp_fate sqrt now obj).1 h).2.1⟩, (insp_fate sqrt now obj).2⟩, ?_, ?_, ?_, ?_⟩
  · intro obj h
    simp only [exitsMain, Bool.and_eq_true, decide_eq_true_eq, CANVAS_WIDTH] at h
    exact ⟨h.1.2, h.2⟩
  · intro sqrt obj h
    simp only [arrivesAtSink, sinkDistance, Bool.and_eq_true, decide_eq_true_eq,
      Bool.not_eq_true', decide_eq_false_iff_not, not_lt] at h
    exact h
  · intro sqrt fr s obj h
    rcases h with ⟨hm, he⟩ | ⟨hm, he⟩
    · obtain ⟨j, h1, h2⟩ := forward_updateMainBelt fr 0 _ obj hm
      obtain ⟨o, hid, h3 | h3⟩ := (main_fate (fr.mainNow j) (fr.rnd j) obj).2 he
      · exact ⟨o, hid, Or.inl (List.mem_append.mpr (Or.inl (h1 o h3.1)))⟩
      · exact ⟨o, hid, Or.inr (List.mem_append.mpr (Or.inr (h2 o h3.2)))⟩
    · obtain ⟨j, h1, h2⟩ := forward_updateInspectionBelt sqrt fr 0 _ obj hm
      obtain ⟨o, hid, h3 | h3⟩ := (insp_fate sqrt (fr.inspNow j) obj).2 he
      · exact ⟨o, hid, Or.inr (List.mem_append.mpr (Or.inl (h1 o h3.1)))⟩
      · exact ⟨o, hid, Or.inl (List.mem_append.mpr (Or.inr (h2 o h3.2)))⟩
  · intro sqrt fr s o ho
    rcases tick_origin sqrt fr s o ho with ⟨j, obj, hm, h⟩ | ⟨j, obj, hm, h⟩
    · exact ⟨obj, List.mem_append.mpr (Or.inl hm), main_id _ _ obj o h⟩
    · exact ⟨obj, List.mem_append.mpr (Or.inr hm), insp_id sqrt _ obj o h⟩
  · intro sqrt fr s
    have h1 := count_updateMainBelt fr 0 s.mainBeltObjects
    have h2 := count_updateInspectionBelt sqrt fr 0 s.inspectionBeltObjects
    simp only [tick, List.length_append]
    omega

set_option maxRecDepth 100000 in
theorem destroyed_only_at_sinks_witness :
    exitsMain exitItem = true ∧ (updateMainObj 0 randZero exitItem).kept = none :=
  ⟨by decide!, ((destroyed_only_at_sinks.1 0 randZero exitItem).1 (by decide!)).1⟩

/-- C25: one frame runs the main-belt updater on the main-belt list and then the
inspection-belt updater on the inspection-belt list as it was at the start of the frame
(the stats updaters and events of the main belt are applied first). An object handed to
the inspection belt is appended behind the objects the inspection updater returned, as the
main-belt callback left it: `inspecting` at `y = 400`, one step right of where it was, with
the clock reading of its own callback and its `scanPulse` untouched. An object handed back
to the main belt is appended behind the objects the main updater returned, `moving` at
`x = 700`, `y = 150`, not advanced. Every object on a belt after the frame comes from one
call of one callback on an object of the frame's start. -/
theorem handoffs_take_effect_next_tick :
    (∀ (sqrt : ℚ → ℚ) (fr : Frame) (s : SimState),
      (tick sqrt fr s).mainBeltObjects
        = (updateMainBelt fr 0 s.mainBeltObjects).kept
          ++ (updateInspectionBelt sqrt fr 0 s.inspectionBeltObjects).toMain ∧
      (tick sqrt fr s).inspectionBeltObjects
        = (updateInspectionBelt sqrt fr 0 s.inspectionBeltObjects).kept
          ++ (updateMainBelt fr 0 s.mainBeltObjects).toInspection ∧
      (tick sqrt fr s).stats
        = applyStatsUpdates (updateInspectionBelt sqrt fr 0 s.inspectionBeltObjects).statsUpdates
            (applyStatsUpdates (updateMainBelt fr 0 s.mainBeltObjects).statsUpdates s.stats)) ∧
    (∀ (fr : Frame) (i : Nat) (objs : List Item),
      ∀ o ∈ (updateMainBelt fr i objs).toInspection, ∃ j, ∃ obj ∈ objs,
        o.state = ItemState.inspecting ∧ o.y = 400 ∧ o.x = obj.x + 1 ∧
        o.inspectionStartTime = some (fr.mainNow j) ∧ o.scanPulse = obj.scanPulse) ∧
    (∀ (sqrt : ℚ → ℚ) (fr : Frame) (i : Nat) (objs : List Item),
      ∀ o ∈ (updateInspectionBelt sqrt fr i objs).toMain, ∃ obj ∈ objs,
        obj.state = ItemState.returning ∧ o.state = ItemState.moving ∧ o.x = 700 ∧
        o.y = 150) ∧
    (∀ (sqrt : ℚ → ℚ) (fr : Frame) (s : SimState),
      ∀ o ∈ (tick sqrt fr s).mainBeltObjects ++ (tick sqrt fr s).inspectionBeltObjects,
        (∃ j, ∃ obj ∈ s.mainBeltObjects,
          (updateMainObj (fr.mainNow j) (fr.rnd j) obj).kept = some o ∨
            (updateMainObj (fr.mainNow j) (fr.rnd j) obj).toInspection = some o) ∨
        (∃ j, ∃ obj ∈ s.inspectionBeltObjects,
          (updateInspectionObj sqrt (fr.inspNow j) obj).kept = some o ∨
            (updateInspectionObj sqrt (fr.inspNow j) obj).toMain = some o)) := by
  refine ⟨?_, ?_, ?_, tick_origin⟩
  · intro sqrt fr s
    refine ⟨rfl, rfl, ?_⟩
    simp only [tick, applyStatsUpdates_append]
  · intro fr i objs o ho
    obtain ⟨j, obj, hm, hk⟩ := mem_updateMainBelt_toInspection fr i objs o ho
    refine ⟨j, obj, hm, ?_⟩
    rw [updateMainObj_eq_divertCheck] at hk
    unfold exitCheck at hk
    split_ifs at hk <;> cases hk <;> simp [INSPECTION_BELT_Y]
  · intro sqrt fr i objs o ho
    obtain ⟨j, obj, hm, hk⟩ := mem_updateInspectionBelt_toMain sqrt fr i objs o ho
    refine ⟨obj, hm, ?_⟩
    unfold updateInspectionObj at hk
    split at hk <;> simp only at hk <;> (try split_ifs at hk) <;> cases hk
    simp_all [MAIN_BELT_Y]

/-- C26: the objects a callback returns or hands over keep the id, the `type`, the `name`
and the `canBeCleaned` of the object it was called on. The main-belt callback never reads
`canBeCleaned`: on an object with another `canBeCleaned` it does the same, up to that field.
The inspection-belt callback does the same up to that field except when the object is
`inspecting` and its scan is over. -/
theorem cleanable_is_fixed :
    (∀ (now : Int) (r : Rand) (obj o : Item),
      (updateMainObj now r obj).kept = some o ∨ (updateMainObj now r obj).toInspection = some o →
      o.id = obj.id ∧ o.type = obj.type ∧ o.name = obj.name ∧
        o.canBeCleaned = obj.canBeCleaned) ∧
    (∀ (sqrt : ℚ → ℚ) (now : Int) (obj o : Item),
      (updateInspectionObj sqrt now obj).kept = some o ∨
        (updateInspectionObj sqrt now obj).toMain = some o →
      o.id = obj.id ∧ o.type = obj.type ∧ o.name = obj.name ∧
        o.canBeCleaned = obj.canBeCleaned) ∧
    (∀ (now : Int) (r : Rand) (obj : Item) (c : Option Bool),
      updateMainObj now r (setCanBeCleaned c obj) =
        { kept := (updateMainObj now r obj).kept.map (setCanBeCleaned c)
          toInspection := (updateMainObj now r obj).toInspection.map (setCanBeCleaned c)
          statsUpdates := (updateMainObj now r obj).statsUpdates
          messages := (updateMainObj now r obj).messages }) ∧
    (∀ (sqrt : ℚ → ℚ) (now : Int) (obj : Item) (c : Option Bool),
      ¬ (obj.state = ItemState.inspecting ∧
        scanDone (obj.inspectionStartTime.map (fun t => now - t)) = true) →
      updateInspectionObj sqrt now (setCanBeCleaned c obj) =
        { kept := (updateInspectionObj sqrt now obj).kept.map (setCanBeCleaned c)
          toMain := (updateInspectionObj sqrt now obj).toMain.map (setCanBeCleaned c)
          statsUpdates := (updateInspectionObj sqrt now obj).statsUpdates
          messages := (updateInspectionObj sqrt now obj).messages }) := by
  refine ⟨?_, ?_, ?_, ?_⟩
  · intro now r obj o ho
    rw [updateMainObj_eq_divertCheck] at ho
    unfold exitCheck at ho
    rcases ho with ho | ho <;> split_ifs at ho <;> cases ho <;> exact ⟨rfl, rfl, rfl, rfl⟩
  · intro sqrt now obj o ho
    unfold updateInspectionObj at ho
    rcases ho with ho | ho <;> split at ho <;> simp only at ho <;> (try split_ifs at ho) <;>
      cases ho <;> exact ⟨rfl, rfl, rfl, rfl⟩
  · intro now r obj c
    have hd : divertCheck (setCanBeCleaned c obj) = divertCheck obj := rfl
    rw [updateMainObj_eq_divertCheck, updateMainObj_eq_divertCheck, hd]
    unfold exitCheck
    simp only [setCanBeCleaned]
    split_ifs <;> rfl
  · intro sqrt now obj c hn
    unfold updateInspectionObj
    simp only [setCanBeCleaned]
    split
    · rename_i hst
      have hsd : ¬ (scanDone (obj.inspectionStartTime.map (fun t => now - t)) = true) :=
        fun h => hn ⟨hst, h⟩
      simp only [hsd, if_false]
      rfl
    · split_ifs <;> rfl
    · split_ifs <;> rfl
    · rfl

set_option maxRecDepth 100000 in
theorem handoffs_take_effect_next_tick_witness :
    ∃ obj ∈ [{ returningItem with y := 152 }],
      obj.state = ItemState.returning ∧
      ({ returningItem with y := 150, state := ItemState.moving, x := 700 } : Item).state
        = ItemState.moving ∧
      ({ returningItem with y := 150, state := ItemState.moving, x := 700 } : Item).x = 700 ∧
      ({ returningItem with y := 150, state := ItemState.moving, x := 700 } : Item).y = 150 :=
  handoffs_take_effect_next_tick.2.2.1 ratSqrt (constFrame 0) 0
    [{ returningItem with y := 152 }]
    { returningItem with y := 150, state := ItemState.moving, x := 700 } (by decide!)

theorem cleanable_is_fixed_witness :
    updateInspectionObj ratSqrt 0 (setCanBeCleaned (some true) nearSinkItem) =
      { kept := (updateInspectionObj ratSqrt 0 nearSinkItem).kept.map
          (setCanBeCleaned (some true))
        toMain := (updateInspectionObj ratSqrt 0 nearSinkItem).toMain.map
          (setCanBeCleaned (some true))
        statsUpdates := (updateInspectionObj ratSqrt 0 nearSinkItem).statsUpdates
        messages := (updateInspectionObj ratSqrt 0 nearSinkItem).messages } :=
  cleanable_is_fixed.2.2.2 ratSqrt 0 nearSinkItem (some true)
    (fun h => absurd h.1 (by decide))

theorem updateMainObj_divertedAt (now : Int) (r : Rand) (obj : Item) (k : Nat)
    (hk2 : k ≤ 61) :
    updateMainObj now r (divertedAt obj k) =
      { kept := some (divertedAt obj (k + 1)), toInspection := none, statsUpdates := [],
        messages := [] } := by
  have hdc : ¬ (divertCheck (divertedAt obj k) = true) := by
    intro h
    have := ((divertCheck_eq_true_iff _).mp h).2.2.2
    cases this
  have hm : ¬ ((divertedAt obj k).state = ItemState.moving) := by
    intro h
    cases h
  have hk' : (k : ℚ) ≤ 61 := by exact_mod_cast hk2
  have hy : ¬ ((divertedAt obj k).y + 4 ≥ INSPECTION_BELT_Y) := by
    simp only [divertedAt, INSPECTION_BELT_Y]
    intro h
    linarith
  rw [updateMainObj_eq_divertCheck, if_neg hdc, if_neg hm,
    if_pos (show (divertedAt obj k).state = ItemState.diverting from rfl), if_neg hy]
  have ex : (divertedAt obj k).x + 1 = obj.x + ((k + 1 : ℕ) : ℚ) := by
    simp only [divertedAt]
    push_cast
    ring
  have ey : (divertedAt obj k).y + 4 = 150 + 4 * ((k + 1 : ℕ) : ℚ) := by
    simp only [divertedAt]
    push_cast
    ring
  rw [ex, ey]
  rfl

theorem mainSteps_divertedAt (clock : Nat → Int) (rnd : Nat → Rand) (obj : Item)
    (hd : divertCheck obj = true) (hy : obj.y = 150) (k : Nat) (hk : 1 ≤ k) (hk2 : k ≤ 62) :
    mainSteps clock rnd k obj = some (divertedAt obj k) := by
  induction k with
  | zero => omega
  | succ k ih =>
    by_cases h0 : k = 0
    · subst h0
      have hyy : ¬ (obj.y + 4 ≥ INSPECTION_BELT_Y) := by
        rw [hy]
        norm_num [INSPECTION_BELT_Y]
      simp only [mainSteps, Option.some_bind]
      rw [updateMainObj_eq_divertCheck, if_pos hd, if_neg hyy]
      simp only [divertedAt, hy]
      norm_num
    · rw [mainSteps, ih (by omega) (by omega), Option.some_bind,
        updateMainObj_divertedAt _ _ obj k (by omega)]

theorem updateMainObj_handoff (now : Int) (r : Rand) (obj : Item) :
    updateMainObj now r (divertedAt obj 62) =
      { kept := none,
        toInspection := some { obj with
          x := obj.x + 63, y := 400, state := ItemState.inspecting,
          inspectionStartTime := some now, inspectionX := some (400 + r.val * 400) },
        statsUpdates := [], messages := [scanMessage obj.name] } := by
  have hdc : ¬ (divertCheck (divertedAt obj 62) = true) := by
    intro h
    have := ((divertCheck_eq_true_iff _).mp h).2.2.2
    cases this
  have hm : ¬ ((divertedAt obj 62).state = ItemState.moving) := by
    intro h
    cases h
  have hy : (divertedAt obj 62).y + 4 ≥ INSPECTION_BELT_Y := by
    simp only [divertedAt, INSPECTION_BELT_Y]
    norm_num
  rw [updateMainObj_eq_divertCheck, if_neg hdc, if_neg hm,
    if_pos (show (divertedAt obj 62).state = ItemState.diverting from rfl), if_pos hy]
  have ex : (divertedAt obj 62).x + 1 = obj.x + 63 := by
    simp only [divertedAt]
    push_cast
    ring
  rw [ex]
  rfl

theorem toInspection_mem_updateMainBelt (fr : Frame) (i : Nat) (objs : List Item)
    (obj : Item) (h : obj ∈ objs) :
    ∃ j, ∀ o, (updateMainObj (fr.mainNow j) (fr.rnd j) obj).toInspection = some o →
      o ∈ (updateMainBelt fr i objs).toInspection := by
  obtain ⟨j, _, h2⟩ := forward_updateMainBelt fr i objs obj h
  exact ⟨j, h2⟩

/-- C24: for an object on which the detection check fires at `(x0, 150)`, the detection
frame and each later diverting frame add exactly 4 to `y` and 1 to `x`: after `k` of them,
for `1 <= k <= 62`, the object is `diverting` on the main belt at `(x0 + k, 150 + 4k)`,
below the inspection level. The 63rd diverting frame, the first with `150 + 4k >= 400`,
returns `null` and hands the object to the inspection belt, where it is appended
`inspecting` with `y = 400`, `x = x0 + 63`, `inspectionStartTime` the clock reading of that
frame and `inspectionX = 400 + 400 * random` in `[400, 800)`, inside the belt's extent
`[200, 1000]`; exactly one event, the scan-start event, is queued. -/
theorem divert_trajectory (clock : Nat → Int) (rnd : Nat → Rand) (obj : Item)
    (hd : divertCheck obj = true) (hy : obj.y = 150) :
    (∀ k : ℕ, 1 ≤ k → k ≤ 62 →
      mainSteps clock rnd k obj
        = some { obj with
            state := ItemState.diverting, x := obj.x + (k : ℚ), y := 150 + 4 * (k : ℚ) } ∧
      (150 : ℚ) + 4 * (k : ℚ) < 400) ∧
    (400 : ℚ) ≤ 150 + 4 * (63 : ℕ) ∧
    mainSteps clock rnd 63 obj = none ∧
    (updateMainObj (clock 62) (rnd 62)
        { obj with state := ItemState.diverting, x := obj.x + (62 : ℕ), y := 150 + 4 * (62 : ℕ) }
      = { kept := none,
          toInspection := some { obj with
            x := obj.x + 63, y := 400, state := ItemState.inspecting,
            inspectionStartTime := some (clock 62),
            inspectionX := some (400 + (rnd 62).val * 400) },
          statsUpdates := [], messages := [scanMessage obj.name] }) ∧
    ((400 : ℚ) ≤ 400 + (rnd 62).val * 400 ∧ 400 + (rnd 62).val * 400 < 800 ∧
      (200 : ℚ) ≤ 400 ∧ (800 : ℚ) ≤ 1000) ∧
    (∀ (sqrt : ℚ → ℚ) (fr : Frame) (s : SimState),
      { obj with
          state := ItemState.diverting, x := obj.x + (62 : ℕ), y := 150 + 4 * (62 : ℕ) }
        ∈ s.mainBeltObjects →
      (tick sqrt fr s).inspectionBeltObjects
        = (updateInspectionBelt sqrt fr 0 s.inspectionBeltObjects).kept
          ++ (updateMainBelt fr 0 s.mainBeltObjects).toInspection ∧
      ∃ j, { obj with
          x := obj.x + 63, y := 400, state := ItemState.inspecting,
          inspectionStartTime := some (fr.mainNow j),
          inspectionX := some (400 + (fr.rnd j).val * 400) }
        ∈ (updateMainBelt fr 0 s.mainBeltObjects).toInspection) := by
  refine ⟨?_, by norm_num, ?_, updateMainObj_handoff _ _ obj, ?_, ?_⟩
  · intro k hk1 hk2
    have hk' : (k : ℚ) ≤ 62 := by exact_mod_cast hk2
    exact ⟨mainSteps_divertedAt clock rnd obj hd hy k hk1 hk2, by linarith⟩
  · rw [mainSteps, mainSteps_divertedAt clock rnd obj hd hy 62 (by norm_num) (le_refl _),
      Option.some_bind, updateMainObj_handoff]
  · have h0 := (rnd 62).nonneg
    have h1 := (rnd 62).lt_one
    refine ⟨by linarith, by linarith, by norm_num, by norm_num⟩
  · intro sqrt fr s hmem
    refine ⟨rfl, ?_⟩
    obtain ⟨j, hj⟩ := toInspection_mem_updateMainBelt fr 0 _ _ hmem
    exact ⟨j, hj _ (by
      have := updateMainObj_handoff (fr.mainNow j) (fr.rnd j) obj
      simp only [divertedAt] at this
      rw [this])⟩

set_option maxRecDepth 100000 in
theorem divert_trajectory_witness :
    mainSteps (fun _ => 0) (fun _ => randZero) 63 windowItem = none :=
  (divert_trajectory (fun _ => 0) (fun _ => randZero) windowItem (by decide!) rfl).2.2.1

theorem spawn_position (d : SpawnDraws) :
    (spawnRecyclable d).1.x = 0 ∧ (spawnRecyclable d).1.y = 150 ∧
      (spawnRecyclable d).1.state = ItemState.moving := by
  unfold spawnRecyclable
  by_cases h : d.rContaminated.val < 0.1 <;> simp [h, MAIN_BELT_Y]

theorem updateMainObj_movedBy (now : Int) (r : Rand) (obj : Item) (k : Nat)
    (hx : obj.x = 0) (hv : obj.velocity = 6 / 5) (hm : obj.state = ItemState.moving)
    (hk : k ≤ 500) :
    divertCheck (movedBy obj k) = false ∧
    updateMainObj now r (movedBy obj k) =
      { kept := some (movedBy obj (k + 1)), toInspection := none, statsUpdates := [],
        messages := [] } := by
  have hk' : (k : ℚ) ≤ 500 := by exact_mod_cast hk
  have hdc : ¬ (divertCheck (movedBy obj k) = true) := by
    intro h
    have h2 := ((divertCheck_eq_true_iff _).mp h).2.1
    simp only [movedBy, hx] at h2
    linarith
  have hm' : (movedBy obj k).state = ItemState.moving := hm
  refine ⟨by simpa using hdc, ?_⟩
  rw [updateMainObj_eq_divertCheck, if_neg hdc, if_pos hm']
  have hnx : ¬ ((movedBy obj k).x + (movedBy obj k).velocity > CANVAS_WIDTH ∧
      (movedBy obj k).state = ItemState.moving) := by
    intro h
    have h1 := h.1
    simp only [movedBy, hx, hv, CANVAS_WIDTH] at h1
    linarith
  unfold exitCheck
  rw [if_neg hnx]
  have ex : (movedBy obj k).x + (movedBy obj k).velocity
      = obj.x + 6 / 5 * ((k + 1 : ℕ) : ℚ) := by
    simp only [movedBy, hv]
    push_cast
    ring
  rw [ex]
  rfl

theorem mainSteps_movedBy (clock : Nat → Int) (rnd : Nat → Rand) (obj : Item)
    (hx : obj.x = 0) (hv : obj.velocity = 6 / 5) (hm : obj.state = ItemState.moving)
    (k : Nat) (hk : k ≤ 501) :
    mainSteps clock rnd k obj = some (movedBy obj k) := by
  induction k with
  | zero =>
    simp only [mainSteps, movedBy]
    congr 1
    simp
  | succ k ih =>
    rw [mainSteps, ih (by omega), Option.some_bind,
      (updateMainObj_movedBy _ _ obj k hx hv hm (by omega)).2]

theorem caught_spawn (d : SpawnDraws) : CaughtMain (spawnRecyclable d).1 := by
  refine ⟨by rw [spawn_velocity]; norm_num [OBJECT_SPEED], ?_⟩
  intro _ _
  rw [(spawn_position d).1]
  norm_num

theorem caught_main (now : Int) (r : Rand) (obj : Item) (h : CaughtMain obj) :
    (∀ o, (updateMainObj now r obj).kept = some o → CaughtMain o) ∧
    (∀ o, (updateMainObj now r obj).toInspection = some o → CaughtInsp o) := by
  obtain ⟨hv, hx⟩ := h
  rw [updateMainObj_eq_divertCheck]
  unfold exitCheck
  by_cases hd : divertCheck obj = true
  · simp only [hd, if_true]
    constructor
    · intro o ho
      split_ifs at ho <;> cases ho
      exact ⟨hv, fun h => by cases h⟩
    · intro o ho
      split_ifs at ho <;> cases ho
      exact ⟨hv, fun h => by cases h⟩
  · rw [if_neg hd]
    have hd2 := hd
    rw [divertCheck_eq_true_iff] at hd2
    by_cases hm : obj.state = ItemState.moving
    · rw [if_pos hm]
      constructor
      · intro o ho
        split_ifs at ho <;> cases ho
        refine ⟨hv, ?_⟩
        intro _ hc
        have hc' : obj.contaminated = true := hc
        have hle := hx hm hc'
        have h6 : ¬ (600 < obj.x) := by
          intro h6
          exact hd2 ⟨hc', h6, by linarith, hm⟩
        show obj.x + obj.velocity ≤ 3006 / 5
        rw [hv]
        simp only [OBJECT_SPEED]
        push_neg at h6
        linarith
      · intro o ho
        split_ifs at ho
    · rw [if_neg hm]
      by_cases hg : obj.state = ItemState.diverting
      · rw [if_pos hg]
        constructor
        · intro o ho
          split_ifs at ho <;> cases ho
          exact ⟨hv, fun h => absurd (show obj.state = ItemState.moving from h) hm⟩
        · intro o ho
          split_ifs at ho <;> cases ho
          exact ⟨hv, fun h => by cases h⟩
      · rw [if_neg hg]
        constructor
        · intro o ho
          cases ho
          exact ⟨hv, hx⟩
        · intro o ho
          cases ho

theorem caught_insp (sqrt : ℚ → ℚ) (now : Int) (obj : Item) (h : CaughtInsp obj) :
    (∀ o, (updateInspectionObj sqrt now obj).kept = some o → CaughtInsp o) ∧
    (∀ o, (updateInspectionObj sqrt now obj).toMain = some o → CaughtMain o) := by
  obtain ⟨hv, hr⟩ := h
  unfold updateInspectionObj
  constructor
  · intro o ho
    split at ho <;> simp only at ho <;> (try split_ifs at ho) <;> cases ho <;>
      simp_all [CaughtInsp]
  · intro o ho
    split at ho <;> simp only at ho <;> (try split_ifs at ho) <;> cases ho
    simp_all [CaughtMain]

theorem caught_reachable (sqrt : ℚ → ℚ) (s : SimState) (hs : Reachable sqrt s) :
    (∀ o ∈ s.mainBeltObjects, CaughtMain o) ∧ (∀ o ∈ s.inspectionBeltObjects, CaughtInsp o) :=
  belts_invariant CaughtMain CaughtInsp caught_spawn caught_main caught_insp sqrt s hs

theorem movedBy_eq (obj : Item) (hx : obj.x = 0) (k : Nat) :
    movedBy obj k = { obj with x := 6 / 5 * (k : ℚ) } := by
  simp only [movedBy, hx, zero_add]

/-- C27: every contaminated item is caught. A contaminated item from the spawner starts at
`x = 0` with speed 1.2 (smaller than the width 50 of the window); under the main-belt
callback it is `moving` at `x = 1.2 * k` after `k` frames for every `k <= 501`, the
detection check does not fire at the start of frames `0 .. 500`, and it fires at the start
of frame 501, where `600 < 601.2 < 650`; after that frame the item is `diverting`. In every
reachable state a contaminated object of the main belt that is `moving` has `x <= 601.2`,
so it is not at the exit: the main-belt callback never drops a contaminated object (it
keeps it or hands it to the inspection belt). -/
theorem contaminated_items_are_caught :
    (OBJECT_SPEED < 650 - 600) ∧
    (∀ (clock : Nat → Int) (rnd : Nat → Rand) (d : SpawnDraws),
      (spawnRecyclable d).1.contaminated = true →
      (∀ k : ℕ, k ≤ 501 →
        mainSteps clock rnd k (spawnRecyclable d).1
          = some { (spawnRecyclable d).1 with x := 6 / 5 * (k : ℚ) }) ∧
      (∀ k : ℕ, k ≤ 500 →
        divertCheck { (spawnRecyclable d).1 with x := 6 / 5 * (k : ℚ) } = false) ∧
      ((600 : ℚ) < 6 / 5 * (501 : ℕ) ∧ (6 / 5 * (501 : ℕ) : ℚ) < 650) ∧
      divertCheck { (spawnRecyclable d).1 with x := 6 / 5 * ((501 : ℕ) : ℚ) } = true ∧
      mainSteps clock rnd 502 (spawnRecyclable d).1
        = some { (spawnRecyclable d).1 with
            state := ItemState.diverting, x := 6 / 5 * ((501 : ℕ) : ℚ) + 1, y := 154 }) ∧
    (∀ (sqrt : ℚ → ℚ) (s : SimState), Reachable sqrt s →
      ∀ obj ∈ s.mainBeltObjects, obj.contaminated = true →
        (obj.state = ItemState.moving → obj.x ≤ 3006 / 5) ∧
        exitsMain obj = false ∧
        ∀ (now : Int) (r : Rand),
          ¬ ((updateMainObj now r obj).kept = none ∧
              (updateMainObj now r obj).toInspection = none)) := by
  refine ⟨by norm_num [OBJECT_SPEED], ?_, ?_⟩
  · intro clock rnd d hc
    obtain ⟨hx, hy, hm⟩ := spawn_position d
    have hv := spawn_velocity d
    have hdc : divertCheck { (spawnRecyclable d).1 with x := 6 / 5 * ((501 : ℕ) : ℚ) } = true := by
      rw [divertCheck_eq_true_iff]
      refine ⟨hc, ?_, ?_, hm⟩
      · show (600 : ℚ) < 6 / 5 * ((501 : ℕ) : ℚ)
        norm_num
      · show 6 / 5 * ((501 : ℕ) : ℚ) < (650 : ℚ)
        norm_num
    refine ⟨?_, ?_, by norm_num, hdc, ?_⟩
    · intro k hk
      rw [mainSteps_movedBy clock rnd _ hx hv hm k hk, movedBy_eq _ hx]
    · intro k hk
      rw [← movedBy_eq _ hx]
      exact (updateMainObj_movedBy 0 randZero _ k hx hv hm hk).1
    · rw [mainSteps, mainSteps_movedBy clock rnd _ hx hv hm 501 (le_refl _), movedBy_eq _ hx,
        Option.some_bind, updateMainObj_eq_divertCheck, if_pos hdc]
      have hyy : ¬ ((spawnRecyclable d).1.y + 4 ≥ INSPECTION_BELT_Y) := by
        rw [hy]
        norm_num [INSPECTION_BELT_Y]
      rw [if_neg hyy]
      show some _ = some _
      congr 2
      show (spawnRecyclable d).1.y + 4 = 154
      rw [hy]
      norm_num
  · intro sqrt s hs obj hmem hc
    obtain ⟨hv, hx⟩ := (caught_reachable sqrt s hs).1 obj hmem
    have hex : exitsMain obj = false := by
      rw [Bool.eq_false_iff]
      intro he
      simp only [exitsMain, Bool.and_eq_true, decide_eq_true_eq, Bool.not_eq_true',
        CANVAS_WIDTH] at he
      have := hx he.1.2 hc
      rw [hv] at he
      simp only [OBJECT_SPEED] at he
      linarith [he.2]
    refine ⟨fun hm => hx hm hc, hex, ?_⟩
    intro now r hboth
    obtain ⟨o, _, h | h⟩ := (main_fate now r obj).2 hex
    · rw [hboth.1] at h
      cases h.1
    · rw [hboth.2] at h
      cases h.2

theorem contaminated_items_are_caught_witness :
    divertCheck { (spawnRecyclable drawsScrap).1 with x := 6 / 5 * ((501 : ℕ) : ℚ) } = true :=
  (contaminated_items_are_caught.2.1 (fun _ => 0) (fun _ => randZero) drawsScrap
    (by decide!)).2.2.2.1

theorem quizPool_nodup : QUIZ_QUESTIONS.Nodup := by decide!

theorem quizPool_length : QUIZ_QUESTIONS.length = 8 := rfl

theorem quizPool_options :
    ∀ q ∈ QUIZ_QUESTIONS, q.options.length = 4 ∧ (q.options.filter (·.correct)).length = 1 := by
  decide!

theorem quizInv_start (shuffled : List Question) (s : QuizState) :
    QuizInv (startQuiz shuffled s) := by
  simp [QuizInv, startQuiz]

theorem quizInv_answer (optionIndex : Nat) (s : QuizState) (h : QuizInv s) :
    QuizInv (handleAnswerSelect optionIndex s) := by
  obtain ⟨h1, h2, h3, h4⟩ := h
  unfold handleAnswerSelect
  by_cases hse : s.showExplanation = true
  · rw [if_pos hse]
    exact ⟨h1, h2, h3, h4⟩
  · rw [if_neg hse]
    have h1' : s.score ≤ s.currentQuestion := by simpa [hse] using h1
    cases hq : s.quizQuestions[s.currentQuestion]? with
    | none =>
      refine ⟨?_, h2, h3, h4⟩
      show s.score ≤ s.currentQuestion + (if true = true then 1 else 0)
      simp only [if_true]
      omega
    | some q =>
      have hlt : s.currentQuestion < s.quizQuestions.length := by
        by_contra hge
        rw [List.getElem?_eq_none (not_lt.mp hge)] at hq
        cases hq
      simp only
      cases ho : q.options[optionIndex]? with
      | none =>
        refine ⟨?_, h2, h3, h4⟩
        show s.score ≤ s.currentQuestion + (if true = true then 1 else 0)
        simp only [if_true]
        omega
      | some o =>
        simp only
        by_cases hc : o.correct = true
        · rw [if_pos hc]
          refine ⟨?_, h2, ?_, h4⟩
          · show s.score + 1 ≤ s.currentQuestion + (if true = true then 1 else 0)
            simp only [if_true]
            omega
          · show s.score + 1 ≤ s.quizQuestions.length
            omega
        · rw [if_neg hc]
          refine ⟨?_, h2, h3, h4⟩
          show s.score ≤ s.currentQuestion + (if true = true then 1 else 0)
          simp only [if_true]
          omega

theorem quizInv_next (s : QuizState) (h : QuizInv s) : QuizInv (handleNext s) := by
  obtain ⟨h1, h2, h3, h4⟩ := h
  unfold handleNext
  split_ifs with hlt
  · refine ⟨?_, ?_, h3, h4⟩
    · show s.score ≤ s.currentQuestion + 1 + (if false = true then 1 else 0)
      split_ifs at h1 <;> simp <;> omega
    · show s.currentQuestion + 1 ≤ s.quizQuestions.length
      omega
  · refine ⟨?_, le_refl _, h3, h4⟩
    show s.score ≤ s.quizQuestions.length + (if s.showExplanation = true then 1 else 0)
    omega

theorem quizInv_restart (s : QuizState) : QuizInv (handleRestart s) := by
  simp [QuizInv, handleRestart]

theorem quizInv_reachable (s : QuizState) (h : QuizReachable s) : QuizInv s := by
  induction h with
  | start shuffled s _ => exact quizInv_start shuffled s
  | answer i _ ih => exact quizInv_answer i _ ih
  | next _ ih => exact quizInv_next _ ih
  | restart _ => exact quizInv_restart _

theorem handleAnswerSelect_shown (optionIndex : Nat) (s : QuizState) :
    (handleAnswerSelect optionIndex s).showExplanation = true := by
  unfold handleAnswerSelect
  by_cases hse : s.showExplanation = true
  · rw [if_pos hse]
    exact hse
  · rw [if_neg hse]
    cases s.quizQuestions[s.currentQuestion]? with
    | none => rfl
    | some q =>
      simp only
      cases q.options[optionIndex]? with
      | none => rfl
      | some o =>
        simp only
        split_ifs <;> rfl

/-- C29: whatever permutation of the pool the shuffle returns, `startQuiz` sets
`quizQuestions` to exactly 6 pairwise distinct questions, each a member of the pool
`QUIZ_QUESTIONS`, and sets `currentQuestion` and `score` to 0; the pool has 8 questions
and every question of the pool has exactly 4 options, exactly one of them marked
correct. -/
theorem quiz_selection :
    (∀ (shuffled : List Question) (s : QuizState), shuffled.Perm QUIZ_QUESTIONS →
      (startQuiz shuffled s).quizQuestions.length = 6 ∧
      (startQuiz shuffled s).quizQuestions.Nodup ∧
      (∀ q ∈ (startQuiz shuffled s).quizQuestions, q ∈ QUIZ_QUESTIONS) ∧
      (startQuiz shuffled s).currentQuestion = 0 ∧
      (startQuiz shuffled s).score = 0) ∧
    QUIZ_QUESTIONS.length = 8 ∧
    (∀ q ∈ QUIZ_QUESTIONS,
      q.options.length = 4 ∧ (q.options.filter (fun o => o.correct)).length = 1) := by
  refine ⟨?_, quizPool_length, quizPool_options⟩
  intro shuffled s hp
  have hl : shuffled.length = 8 := by rw [hp.length_eq, quizPool_length]
  have hnd : shuffled.Nodup := hp.nodup_iff.mpr quizPool_nodup
  refine ⟨?_, ?_, ?_, rfl, rfl⟩
  · show (shuffled.take 6).length = 6
    rw [List.length_take, hl]
    rfl
  · show (shuffled.take 6).Nodup
    exact hnd.sublist (List.take_sublist 6 shuffled)
  · intro q hq
    exact hp.subset (List.mem_of_mem_take hq)

theorem quiz_selection_witness :
    (startQuiz QUIZ_QUESTIONS.reverse initialQuizState).quizQuestions.length = 6 :=
  (quiz_selection.1 QUIZ_QUESTIONS.reverse initialQuizState
    (List.reverse_perm QUIZ_QUESTIONS)).1

/-- C30: in every quiz state reached from `startQuiz` by any sequence of
`handleAnswerSelect`, `handleNext` and `handleRestart`, the score is at most
`currentQuestion + 1` while the explanation is shown and at most `currentQuestion`
otherwise, `currentQuestion` is at most `quizQuestions.length`, and the score is at most
the number of selected questions, hence at most 6; `handleAnswerSelect` adds at most one
point, leaves the explanation shown, and changes nothing when the explanation is already
shown, so a second selection on the same question changes nothing. -/
theorem quiz_score_invariant :
    (∀ s : QuizState, QuizReachable s →
      s.score ≤ s.currentQuestion + (if s.showExplanation then 1 else 0) ∧
      s.currentQuestion ≤ s.quizQuestions.length ∧
      s.score ≤ s.quizQuestions.length ∧
      s.quizQuestions.length ≤ 6 ∧
      s.score ≤ 6) ∧
    (∀ (i : Nat) (s : QuizState), s.showExplanation = true → handleAnswerSelect i s = s) ∧
    (∀ (i j : Nat) (s : QuizState),
      handleAnswerSelect j (handleAnswerSelect i s) = handleAnswerSelect i s) ∧
    (∀ (i : Nat) (s : QuizState),
      s.score ≤ (handleAnswerSelect i s).score ∧
      (handleAnswerSelect i s).score ≤ s.score + 1) := by
  have hid : ∀ (i : Nat) (s : QuizState), s.showExplanation = true →
      handleAnswerSelect i s = s := by
    intro i s h
    unfold handleAnswerSelect
    rw [if_pos h]
  refine ⟨?_, hid, ?_, ?_⟩
  · intro s hs
    obtain ⟨h1, h2, h3, h4⟩ := quizInv_reachable s hs
    exact ⟨h1, h2, h3, h4, le_trans h3 h4⟩
  · intro i j s
    exact hid j _ (handleAnswerSelect_shown i s)
  · intro i s
    unfold handleAnswerSelect
    by_cases hse : s.showExplanation = true
    · rw [if_pos hse]
      omega
    · rw [if_neg hse]
      cases s.quizQuestions[s.currentQuestion]? with
      | none => exact ⟨le_refl _, Nat.le_succ _⟩
      | some q =>
        simp only
        cases q.options[i]? with
        | none => exact ⟨le_refl _, Nat.le_succ _⟩
        | some o =>
          simp only
          split_ifs
          · exact ⟨Nat.le_succ _, le_refl _⟩
          · exact ⟨le_refl _, Nat.le_succ _⟩

theorem quiz_score_invariant_witness :
    (handleNext (handleAnswerSelect 1 (startQuiz QUIZ_QUESTIONS initialQuizState))).score
      ≤ 6 :=
  (quiz_score_invariant.1 _
    (QuizReachable.next (QuizReachable.answer 1
      (QuizReachable.start QUIZ_QUESTIONS initialQuizState (List.Perm.refl _))))).2.2.2.2

theorem itemStep_main (sqrt : ℚ → ℚ) (now : Int) (r : Rand) (obj : Item) :
    (itemStep sqrt now r (Belt.main, obj) = none ∧
      (updateMainObj now r obj).kept = none ∧ (updateMainObj now r obj).toInspection = none) ∨
    (∃ o, itemStep sqrt now r (Belt.main, obj) = some (Belt.main, o) ∧
      (updateMainObj now r obj).kept = some o ∧ (updateMainObj now r obj).toInspection = none) ∨
    (∃ o, itemStep sqrt now r (Belt.main, obj) = some (Belt.inspection, o) ∧
      (updateMainObj now r obj).kept = none ∧
      (updateMainObj now r obj).toInspection = some o) := by
  cases he : exitsMain obj with
  | true =>
    obtain ⟨h1, h2⟩ := (main_fate now r obj).1 he
    exact Or.inl ⟨by simp only [itemStep, h1, h2], h1, h2⟩
  | false =>
    obtain ⟨o, _, ⟨h1, h2⟩ | ⟨h1, h2⟩⟩ := (main_fate now r obj).2 he
    · exact Or.inr (Or.inl ⟨o, by simp only [itemStep, h1, h2], h1, h2⟩)
    · exact Or.inr (Or.inr ⟨o, by simp only [itemStep, h1, h2], h1, h2⟩)

theorem itemStep_insp (sqrt : ℚ → ℚ) (now : Int) (r : Rand) (obj : Item) :
    (itemStep sqrt now r (Belt.inspection, obj) = none ∧
      (updateInspectionObj sqrt now obj).kept = none ∧
      (updateInspectionObj sqrt now obj).toMain = none) ∨
    (∃ o, itemStep sqrt now r (Belt.inspection, obj) = some (Belt.inspection, o) ∧
      (updateInspectionObj sqrt now obj).kept = some o ∧
      (updateInspectionObj sqrt now obj).toMain = none) ∨
    (∃ o, itemStep sqrt now r (Belt.inspection, obj) = some (Belt.main, o) ∧
      (updateInspectionObj sqrt now obj).kept = none ∧
      (updateInspectionObj sqrt now obj).toMain = some o) := by
  cases he : arrivesAtSink sqrt obj with
  | true =>
    obtain ⟨h1, h2, _⟩ := (insp_fate sqrt now obj).1 he
    exact Or.inl ⟨by simp only [itemStep, h1, h2], h1, h2⟩
  | false =>
    obtain ⟨o, _, ⟨h1, h2⟩ | ⟨h1, h2⟩⟩ := (insp_fate sqrt now obj).2 he
    · exact Or.inr (Or.inl ⟨o, by simp only [itemStep, h1, h2], h1, h2⟩)
    · exact Or.inr (Or.inr ⟨o, by simp only [itemStep, h1, h2], h1, h2⟩)

theorem onBelts_animate (sqrt : ℚ → ℚ) (clock : Nat → Int) (rnd : Nat → Rand) (k : Nat)
    (s : SimState) (q : Option (Belt × Item)) (hr : s.isRunningRef = true)
    (h : OnBelts s q) :
    (animate sqrt (framesOf clock rnd k) s).isRunningRef = true ∧
    OnBelts (animate sqrt (framesOf clock rnd k) s)
      (q.bind (itemStep sqrt (clock k) (rnd k))) := by
  match q, h with
  | some (Belt.main, o), h =>
    have h' : s.mainBeltObjects = [o] ∧ s.inspectionBeltObjects = [] := h
    have hs : SoloMain s o s.stats (logMessages s) := ⟨hr, h'.1, h'.2, rfl, rfl⟩
    obtain ⟨h1, h2, h3, _⟩ := animate_soloMain sqrt (framesOf clock rnd k) s o _ _ hs
    refine ⟨h1, ?_⟩
    have e1 : (framesOf clock rnd k).mainNow 0 = clock k := rfl
    have e2 : (framesOf clock rnd k).rnd 0 = rnd k := rfl
    rw [e1, e2] at h2 h3
    rw [Option.some_bind]
    rcases itemStep_main sqrt (clock k) (rnd k) o with ⟨e, k1, k2⟩ | ⟨o', e, k1, k2⟩ |
      ⟨o', e, k1, k2⟩ <;>
    · rw [e]
      rw [k1] at h2
      rw [k2] at h3
      exact ⟨h2, h3⟩
  | some (Belt.inspection, o), h =>
    have h' : s.mainBeltObjects = [] ∧ s.inspectionBeltObjects = [o] := h
    have hs : SoloInsp s o s.stats (logMessages s) := ⟨hr, h'.1, h'.2, rfl, rfl⟩
    obtain ⟨h1, h2, h3, _⟩ := animate_soloInsp sqrt (framesOf clock rnd k) s o _ _ hs
    refine ⟨h1, ?_⟩
    have e1 : (framesOf clock rnd k).inspNow 0 = clock k := rfl
    rw [e1] at h2 h3
    rw [Option.some_bind]
    rcases itemStep_insp sqrt (clock k) (rnd k) o with ⟨e, k1, k2⟩ | ⟨o', e, k1, k2⟩ |
      ⟨o', e, k1, k2⟩ <;>
    · rw [e]
      rw [k2] at h2
      rw [k1] at h3
      exact ⟨h2, h3⟩
  | none, h =>
    have h1 : s.mainBeltObjects = [] := h.1
    have h2 : s.inspectionBeltObjects = [] := h.2
    simp only [animate, hr, if_true, tick, h1, h2, updateMainBelt, updateInspectionBelt,
      List.append_nil, OnBelts, and_self, Option.none_bind]

theorem onBelts_runFrames (sqrt : ℚ → ℚ) (clock : Nat → Int) (rnd : Nat → Rand)
    (s0 : SimState) (p : Belt × Item) (hr : s0.isRunningRef = true)
    (h0 : OnBelts s0 (some p)) (k : Nat) :
    (runFrames sqrt (framesOf clock rnd) k s0).isRunningRef = true ∧
    OnBelts (runFrames sqrt (framesOf clock rnd) k s0) (itemRun sqrt clock rnd k p) := by
  induction k with
  | zero => exact ⟨hr, h0⟩
  | succ k ih => exact onBelts_animate sqrt clock rnd k _ _ ih.1 ih.2

theorem itemRun_none_of_le (sqrt : ℚ → ℚ) (clock : Nat → Int) (rnd : Nat → Rand)
    (p : Belt × Item) (T : Nat) (h : itemRun sqrt clock rnd T p = none) (k : Nat)
    (hk : T ≤ k) : itemRun sqrt clock rnd k p = none := by
  induction k with
  | zero =>
    have : T = 0 := by omega
    rw [← this]
    exact h
  | succ k ih =>
    by_cases hT : T = k + 1
    · rw [← hT]
      exact h
    · rw [itemRun, ih (by omega)]
      rfl

theorem onBelts_none_of_empty (s : SimState) (q : Option (Belt × Item))
    (h : OnBelts s q) (h1 : s.mainBeltObjects = []) (h2 : s.inspectionBeltObjects = []) :
    q = none := by
  match q, h with
  | some (Belt.main, o), h =>
    have h' : s.mainBeltObjects = [o] ∧ s.inspectionBeltObjects = [] := h
    rw [h1] at h'
    cases h'.1
  | some (Belt.inspection, o), h =>
    have h' : s.mainBeltObjects = [] ∧ s.inspectionBeltObjects = [o] := h
    rw [h2] at h'
    cases h'.2
  | none, _ => rfl

theorem clock_advance (clock : Nat → Int) (δ : Int) (hadv : ∀ k, clock k + δ ≤ clock (k + 1))
    (a m : Nat) : clock a + (m : Int) * δ ≤ clock (a + m) := by
  induction m with
  | zero => simp
  | succ m ih =>
    have := hadv (a + m)
    have e : a + (m + 1) = a + m + 1 := rfl
    rw [e]
    push_cast
    linarith

theorem scan_end_exists (clock : Nat → Int) (δ : Int) (hδ : 0 < δ)
    (hadv : ∀ k, clock k + δ ≤ clock (k + 1)) :
    ∃ n, 564 ≤ n ∧ n ≤ 564 + (3000 / δ).toNat ∧
      (∀ k, 564 ≤ k → k < n → clock k - clock 563 ≤ 3000) ∧
      clock n - clock 563 > 3000 := by
  have hq : 0 ≤ 3000 / δ := Int.ediv_nonneg (by norm_num) hδ.le
  have hex : ∃ n, 564 ≤ n ∧ clock n - clock 563 > 3000 := by
    refine ⟨563 + ((3000 / δ).toNat + 1), by omega, ?_⟩
    have h := clock_advance clock δ hadv 563 ((3000 / δ).toNat + 1)
    have h1 : (((3000 / δ).toNat + 1 : ℕ) : Int) = 3000 / δ + 1 := by
      push_cast
      rw [Int.toNat_of_nonneg hq]
    rw [h1] at h
    have h2 : 3000 < (3000 / δ + 1) * δ := by
      have := Int.lt_ediv_add_one_mul_self 3000 hδ
      linarith
    linarith
  classical
  refine ⟨Nat.find hex, (Nat.find_spec hex).1, ?_, ?_, (Nat.find_spec hex).2⟩
  · apply Nat.find_min' hex
    refine ⟨by omega, ?_⟩
    have h := clock_advance clock δ hadv 563 ((3000 / δ).toNat + 1)
    have h1 : (((3000 / δ).toNat + 1 : ℕ) : Int) = 3000 / δ + 1 := by
      push_cast
      rw [Int.toNat_of_nonneg hq]
    rw [h1] at h
    have h2 : 3000 < (3000 / δ + 1) * δ := by
      have := Int.lt_ediv_add_one_mul_self 3000 hδ
      linarith
    have e : 564 + (3000 / δ).toNat = 563 + ((3000 / δ).toNat + 1) := by omega
    rw [e]
    linarith
  · intro k hk1 hk2
    by_contra hc
    exact Nat.find_min hex hk2 ⟨hk1, by linarith⟩

theorem scenarioStart_onBelts (now : Int) (d : SpawnDraws) :
    (scenarioStart now d).isRunningRef = true ∧
    OnBelts (scenarioStart now d) (some (Belt.main, (spawnRecyclable d).1)) := by
  refine ⟨rfl, ?_, rfl⟩
  simp [scenarioStart, spawnStep, handleStart, initialState]

theorem solo_run_empties (sqrt : ℚ → ℚ) (hb : SqrtBounded sqrt) (clock : Nat → Int)
    (rnd : Nat → Rand) (δ : Int) (hδ : 0 < δ) (hadv : ∀ k, clock k + δ ≤ clock (k + 1))
    (now : Int) (d : SpawnDraws) :
    ∃ T, T ≤ terminationBound δ ∧
      (runFrames sqrt (framesOf clock rnd) T (scenarioStart now d)).mainBeltObjects = [] ∧
      (runFrames sqrt (framesOf clock rnd) T (scenarioStart now d)).inspectionBeltObjects
        = [] := by
  by_cases hc : (spawnRecyclable d).1.contaminated = false
  · have hfin : BeltsEmpty (runFrames sqrt (framesOf clock rnd) 1167 (scenarioStart now d))
        (StatsUpdate.exit.apply initialStats) [startMessage] :=
      step_exit sqrt (framesOf clock rnd 1166) (spawnRecyclable d).1 _ initialStats
        [startMessage] _ (spawn_velocity d)
        (run_clean_moving sqrt (framesOf clock rnd) now d hc 1166 (le_refl _)) (by norm_num)
    exact ⟨1167, by unfold terminationBound; omega, hfin.2.1, hfin.2.2.1⟩
  · have hc' : (spawnRecyclable d).1.contaminated = true := by simpa using hc
    obtain ⟨m, _, hm⟩ := scenarioStart_contaminated now d hc'
    obtain ⟨n, hn, hn2, hwait, hdone⟩ := scan_end_exists clock δ hδ hadv
    by_cases hcl : (spawnRecyclable d).1.canBeCleaned = some true
    · have hfin := run_cleaned_exit sqrt (framesOf clock rnd) now d m hm hcl n hn hwait hdone
      exact ⟨n + 648, by unfold terminationBound; omega, hfin.2.1, hfin.2.2.1⟩
    · have hs := run_scrapped sqrt (framesOf clock rnd) now d m hm hcl n hn hwait hdone
      have e1 : (3321 / 5 : ℚ) = 1150 - 1 * (2429 / 5) := by norm_num
      have e2 : (400 : ℚ) = 530 - 1 * 130 := by norm_num
      rw [e1, e2] at hs
      obtain ⟨j, hj, _, hfin⟩ := scrapping_terminates sqrt hb (framesOf clock rnd)
        (scenarioStart now d) (spawnRecyclable d).1 resolvedScrapStats
        (scrappedLog (spawnRecyclable d).1.name m) (2429 / 5) 130 503 (by norm_num)
        (by norm_num) 252 (n + 1) 1 (by norm_num) (by norm_num) hs
      exact ⟨n + 1 + j + 1, by unfold terminationBound; omega, hfin.2.1, hfin.2.2.1⟩

theorem terminationBound_le (δ : Int) : terminationBound δ ≤ 4212 := by
  have h : 3000 / δ ≤ 3000 := Int.ediv_le_self δ (by norm_num)
  unfold terminationBound
  omega

theorem itemStep_tick_main (sqrt : ℚ → ℚ) (fr : Frame) (s : SimState) (obj : Item)
    (h : obj ∈ s.mainBeltObjects) :
    ∃ j, ∀ o,
      (itemStep sqrt (fr.mainNow j) (fr.rnd j) (Belt.main, obj) = some (Belt.main, o) →
        o ∈ (tick sqrt fr s).mainBeltObjects) ∧
      (itemStep sqrt (fr.mainNow j) (fr.rnd j) (Belt.main, obj) = some (Belt.inspection, o) →
        o ∈ (tick sqrt fr s).inspectionBeltObjects) := by
  obtain ⟨j, h1, h2⟩ := forward_updateMainBelt fr 0 _ obj h
  refine ⟨j, fun o => ⟨?_, ?_⟩⟩
  · intro e
    rcases itemStep_main sqrt (fr.mainNow j) (fr.rnd j) obj with ⟨e', _⟩ | ⟨o', e', k1, _⟩ |
      ⟨o', e', _⟩
    · rw [e'] at e
      cases e
    · rw [e'] at e
      cases e
      exact List.mem_append.mpr (Or.inl (h1 _ k1))
    · rw [e'] at e
      cases e
  · intro e
    rcases itemStep_main sqrt (fr.mainNow j) (fr.rnd j) obj with ⟨e', _⟩ | ⟨o', e', _⟩ |
      ⟨o', e', _, k2⟩
    · rw [e'] at e
      cases e
    · rw [e'] at e
      cases e
    · rw [e'] at e
      cases e
      exact List.mem_append.mpr (Or.inr (h2 _ k2))

theorem itemStep_tick_insp (sqrt : ℚ → ℚ) (fr : Frame) (s : SimState) (obj : Item)
    (h : obj ∈ s.inspectionBeltObjects) :
    ∃ j, ∀ (r : Rand) (o : Item),
      (itemStep sqrt (fr.inspNow j) r (Belt.inspection, obj) = some (Belt.inspection, o) →
        o ∈ (tick sqrt fr s).inspectionBeltObjects) ∧
      (itemStep sqrt (fr.inspNow j) r (Belt.inspection, obj) = some (Belt.main, o) →
        o ∈ (tick sqrt fr s).mainBeltObjects) := by
  obtain ⟨j, h1, h2⟩ := forward_updateInspectionBelt sqrt fr 0 _ obj h
  refine ⟨j, fun r o => ⟨?_, ?_⟩⟩
  · intro e
    rcases itemStep_insp sqrt (fr.inspNow j) r obj with ⟨e', _⟩ | ⟨o', e', k1, _⟩ |
      ⟨o', e', _⟩
    · rw [e'] at e
      cases e
    · rw [e'] at e
      cases e
      exact List.mem_append.mpr (Or.inl (h1 _ k1))
    · rw [e'] at e
      cases e
  · intro e
    rcases itemStep_insp sqrt (fr.inspNow j) r obj with ⟨e', _⟩ | ⟨o', e', _⟩ |
      ⟨o', e', _, k2⟩
    · rw [e'] at e
      cases e
    · rw [e'] at e
      cases e
    · rw [e'] at e
      cases e
      exact List.mem_append.mpr (Or.inr (h2 _ k2))

/-- C21: with a `Math.sqrt` that returns at most twice the square root and a clock that
advances by at least `δ > 0` ms from each frame to the next, every item the spawner produces
(contaminated or not, cleanable or not) is on neither belt after some number `T` of frames
with `T <= 1212 + 3000 / δ`, a bound that does not depend on the item and is at most 4212.
This holds for the item followed through its own callbacks (`itemRun`, which is what a frame
does to each object of any state), and for the run of the simulation that holds this one
item, where both belts are empty from frame `T` on; the two runs agree at every frame. -/
theorem termination (sqrt : ℚ → ℚ) (hb : SqrtBounded sqrt) (clock : Nat → Int)
    (rnd : Nat → Rand) (δ : Int) (hδ : 0 < δ) (hadv : ∀ k, clock k + δ ≤ clock (k + 1))
    (now : Int) (d : SpawnDraws) :
    terminationBound δ ≤ 4212 ∧
    (∃ T, T ≤ terminationBound δ ∧
      (∀ k, T ≤ k →
        itemRun sqrt clock rnd k (Belt.main, (spawnRecyclable d).1) = none) ∧
      (∀ k, T ≤ k →
        (runFrames sqrt (framesOf clock rnd) k (scenarioStart now d)).mainBeltObjects = [] ∧
        (runFrames sqrt (framesOf clock rnd) k (scenarioStart now d)).inspectionBeltObjects
          = [])) ∧
    (∀ k, OnBelts (runFrames sqrt (framesOf clock rnd) k (scenarioStart now d))
      (itemRun sqrt clock rnd k (Belt.main, (spawnRecyclable d).1))) ∧
    (∀ (fr : Frame) (s : SimState) (obj : Item),
      (obj ∈ s.mainBeltObjects → ∃ j, ∀ o,
        (itemStep sqrt (fr.mainNow j) (fr.rnd j) (Belt.main, obj) = some (Belt.main, o) →
          o ∈ (tick sqrt fr s).mainBeltObjects) ∧
        (itemStep sqrt (fr.mainNow j) (fr.rnd j) (Belt.main, obj)
            = some (Belt.inspection, o) →
          o ∈ (tick sqrt fr s).inspectionBeltObjects)) ∧
      (obj ∈ s.inspectionBeltObjects → ∃ j, ∀ (r : Rand) (o : Item),
        (itemStep sqrt (fr.inspNow j) r (Belt.inspection, obj)
            = some (Belt.inspection, o) →
          o ∈ (tick sqrt fr s).inspectionBeltObjects) ∧
        (itemStep sqrt (fr.inspNow j) r (Belt.inspection, obj) = some (Belt.main, o) →
          o ∈ (tick sqrt fr s).mainBeltObjects))) := by
  have hon := onBelts_runFrames sqrt clock rnd (scenarioStart now d)
    (Belt.main, (spawnRecyclable d).1) (scenarioStart_onBelts now d).1
    (scenarioStart_onBelts now d).2
  obtain ⟨T, hT, h1, h2⟩ := solo_run_empties sqrt hb clock rnd δ hδ hadv now d
  have hnone := onBelts_none_of_empty _ _ (hon T).2 h1 h2
  refine ⟨terminationBound_le δ, ⟨T, hT, ?_, ?_⟩, fun k => (hon k).2, ?_⟩
  · intro k hk
    exact itemRun_none_of_le sqrt clock rnd _ T hnone k hk
  · intro k hk
    have hk' := itemRun_none_of_le sqrt clock rnd _ T hnone k hk
    have := (hon k).2
    rw [hk'] at this
    exact this
  · intro fr s obj
    exact ⟨itemStep_tick_main sqrt fr s obj, itemStep_tick_insp sqrt fr s obj⟩

theorem termination_witness :
    (0 : Int) < 16 ∧ terminationBound 16 = 1399 ∧
    ∃ T, T ≤ terminationBound 16 ∧
      ∀ k, T ≤ k →
        itemRun ratSqrt (fun k => 16 * (k : Int)) (fun _ => randZero) k
          (Belt.main, (spawnRecyclable drawsScrap).1) = none :=
  ⟨by norm_num, by decide,
    (termination ratSqrt ratSqrt_bounded (fun k => 16 * (k : Int)) (fun _ => randZero) 16
      (by norm_num) (fun k => by push_cast; linarith) 0 drawsScrap).2.1.imp
      (fun _ h => ⟨h.1, h.2.1⟩)⟩

theorem updateInspectionObj_scrapStep (sqrt : ℚ → ℚ) (now : Int) (obj : Item)
    (hst : obj.state = ItemState.scrapping) :
    (updateInspectionObj sqrt now obj).kept
      = (scrapStep sqrt obj.x obj.y).map (fun p => { obj with x := p.1, y := p.2 }) ∧
    (updateInspectionObj sqrt now obj).toMain = none ∧
    (updateInspectionObj sqrt now obj).statsUpdates
      = (if (scrapStep sqrt obj.x obj.y).isSome then [] else [StatsUpdate.scrapArrival]) := by
  rw [updateInspectionObj_scrapping sqrt now obj hst]
  have e : (400 : ℚ) + 130 = INSPECTION_BELT_Y + 130 := by norm_num [INSPECTION_BELT_Y]
  unfold scrapStep
  simp only [e]
  by_cases h : sqrt ((1150 - obj.x) * (1150 - obj.x)
      + (INSPECTION_BELT_Y + 130 - obj.y) * (INSPECTION_BELT_Y + 130 - obj.y)) > 5
  · simp only [if_pos h]
    simp
  · simp only [if_neg h]
    simp

theorem towardSink_dist {K : Type} [LinearOrderedField K] (x y d : K) (j : Nat) (hd : 0 < d)
    (hv : (1150 - x) * (1150 - x) + (530 - y) * (530 - y) = d * d) :
    (1150 - (towardSink x y d j).1) * (1150 - (towardSink x y d j).1)
        + (530 - (towardSink x y d j).2) * (530 - (towardSink x y d j).2)
      = (d - 4 * (j : K)) * (d - 4 * (j : K)) := by
  have hd' : d ≠ 0 := ne_of_gt hd
  have e1 : 1150 - (towardSink x y d j).1 = (1150 - x) * ((d - 4 * (j : K)) / d) := by
    simp only [towardSink]
    field_simp
    ring
  have e2 : 530 - (towardSink x y d j).2 = (530 - y) * ((d - 4 * (j : K)) / d) := by
    simp only [towardSink]
    field_simp
    ring
  rw [e1, e2]
  have : (1150 - x) * ((d - 4 * (j : K)) / d) * ((1150 - x) * ((d - 4 * (j : K)) / d))
      + (530 - y) * ((d - 4 * (j : K)) / d) * ((530 - y) * ((d - 4 * (j : K)) / d))
      = ((1150 - x) * (1150 - x) + (530 - y) * (530 - y))
        * (((d - 4 * (j : K)) / d) * ((d - 4 * (j : K)) / d)) := by ring
  rw [this, hv]
  field_simp

theorem scrapStep_towardSink {K : Type} [LinearOrderedField K] (sqrt : K → K)
    (hs : ∀ t : K, 0 ≤ t → sqrt (t * t) = t) (x y d : K) (j : Nat) (hd : 0 < d)
    (hv : (1150 - x) * (1150 - x) + (530 - y) * (530 - y) = d * d)
    (h0 : 0 ≤ d - 4 * (j : K)) :
    (5 < d - 4 * (j : K) →
      scrapStep sqrt (towardSink x y d j).1 (towardSink x y d j).2
        = some (towardSink x y d (j + 1))) ∧
    (d - 4 * (j : K) ≤ 5 →
      scrapStep sqrt (towardSink x y d j).1 (towardSink x y d j).2 = none) := by
  have hd' : d ≠ 0 := ne_of_gt hd
  have hdist : sqrt ((1150 - (towardSink x y d j).1) * (1150 - (towardSink x y d j).1)
      + (400 + 130 - (towardSink x y d j).2) * (400 + 130 - (towardSink x y d j).2))
      = d - 4 * (j : K) := by
    have e : (400 : K) + 130 = 530 := by norm_num
    rw [e, towardSink_dist x y d j hd hv]
    exact hs _ h0
  constructor
  · intro h5
    have hne : d - 4 * (j : K) ≠ 0 := by
      intro h
      rw [h] at h5
      norm_num at h5
    unfold scrapStep
    simp only
    rw [hdist, if_pos h5]
    congr 1
    have e : (400 : K) + 130 = 530 := by norm_num
    rw [e]
    simp only [towardSink]
    push_cast
    ext
    · simp only
      field_simp
      ring
    · simp only
      field_simp
      ring
  · intro h5
    unfold scrapStep
    simp only
    rw [hdist, if_neg (not_lt.mpr h5)]

theorem towardSink_zero {K : Type} [LinearOrderedField K] (x y d : K) :
    towardSink x y d 0 = (x, y) := by
  simp [towardSink]

theorem lt_ceilTicks_iff {K : Type} [LinearOrderedField K] [FloorRing K] (d : K)
    (hd : 5 < d) (j : Nat) :
    j < ⌈(d - 5) / 4⌉.toNat ↔ 5 < d - 4 * (j : K) := by
  have hpos : 0 < ⌈(d - 5) / 4⌉ := Int.ceil_pos.mpr (by linarith)
  have h1 : j < ⌈(d - 5) / 4⌉.toNat ↔ (j : Int) < ⌈(d - 5) / 4⌉ := by omega
  rw [h1, Int.lt_ceil]
  push_cast
  constructor <;> intro h <;> linarith

theorem scrapRun_towardSink {K : Type} [LinearOrderedField K] [FloorRing K] (sqrt : K → K)
    (hs : ∀ t : K, 0 ≤ t → sqrt (t * t) = t) (x y d : K) (hd : 5 < d)
    (hv : (1150 - x) * (1150 - x) + (530 - y) * (530 - y) = d * d) :
    (∀ j, j ≤ ⌈(d - 5) / 4⌉.toNat → scrapRun sqrt j (x, y) = some (towardSink x y d j)) ∧
    (0 ≤ d - 4 * (⌈(d - 5) / 4⌉.toNat : K) ∧ d - 4 * (⌈(d - 5) / 4⌉.toNat : K) ≤ 5) ∧
    scrapStep sqrt (towardSink x y d ⌈(d - 5) / 4⌉.toNat).1
      (towardSink x y d ⌈(d - 5) / 4⌉.toNat).2 = none ∧
    scrapRun sqrt (⌈(d - 5) / 4⌉.toNat + 1) (x, y) = none := by
  have hd0 : 0 < d := by linarith
  have hrun : ∀ j, j ≤ ⌈(d - 5) / 4⌉.toNat →
      scrapRun sqrt j (x, y) = some (towardSink x y d j) := by
    intro j hj
    induction j with
    | zero => rw [scrapRun, towardSink_zero]
    | succ j ih =>
      have hlt : j < ⌈(d - 5) / 4⌉.toNat := hj
      have h5 := (lt_ceilTicks_iff d hd j).mp hlt
      rw [scrapRun, ih (le_of_lt hlt), Option.some_bind,
        (scrapStep_towardSink sqrt hs x y d j hd0 hv (by linarith)).1 h5]
  have hk : d - 4 * (⌈(d - 5) / 4⌉.toNat : K) ≤ 5 := by
    by_contra h
    exact absurd ((lt_ceilTicks_iff d hd _).mpr (not_le.mp h)) (lt_irrefl _)
  have hk0 : 0 ≤ d - 4 * (⌈(d - 5) / 4⌉.toNat : K) := by
    have hpos : 0 < ⌈(d - 5) / 4⌉.toNat := by
      have := Int.ceil_pos.mpr (show (0 : K) < (d - 5) / 4 by linarith)
      omega
    have h1 := (lt_ceilTicks_iff d hd (⌈(d - 5) / 4⌉.toNat - 1)).mp (by omega)
    have h2 : ((⌈(d - 5) / 4⌉.toNat - 1 : ℕ) : K) = (⌈(d - 5) / 4⌉.toNat : K) - 1 := by
      rw [Nat.cast_sub hpos]
      simp
    rw [h2] at h1
    linarith
  have hstop := (scrapStep_towardSink sqrt hs x y d _ hd0 hv hk0).2 hk
  refine ⟨hrun, ⟨hk0, hk⟩, hstop, ?_⟩
  rw [scrapRun, hrun _ (le_refl _), Option.some_bind, hstop]

theorem real_sqrt_exact : ∀ t : ℝ, 0 ≤ t → Real.sqrt (t * t) = t :=
  fun _ ht => Real.sqrt_mul_self ht

theorem scrapStep_any_sqrt {K : Type} [LinearOrderedField K] (sqrt : K → K) (x y : K)
    (h : 5 < sqrt ((1150 - x) * (1150 - x) + (530 - y) * (530 - y))) :
    ∃ p : K × K, scrapStep sqrt x y = some p ∧
      1150 - p.1 = (1150 - x)
        * (1 - 4 / sqrt ((1150 - x) * (1150 - x) + (530 - y) * (530 - y))) ∧
      530 - p.2 = (530 - y)
        * (1 - 4 / sqrt ((1150 - x) * (1150 - x) + (530 - y) * (530 - y))) ∧
      1 / 5 < 1 - 4 / sqrt ((1150 - x) * (1150 - x) + (530 - y) * (530 - y)) ∧
      1 - 4 / sqrt ((1150 - x) * (1150 - x) + (530 - y) * (530 - y)) < 1 := by
  have e : (400 : K) + 130 = 530 := by norm_num
  have hs0 : 0 < sqrt ((1150 - x) * (1150 - x) + (530 - y) * (530 - y)) := by linarith
  have hne : sqrt ((1150 - x) * (1150 - x) + (530 - y) * (530 - y)) ≠ 0 := ne_of_gt hs0
  refine ⟨(x + (1150 - x) / sqrt ((1150 - x) * (1150 - x) + (530 - y) * (530 - y)) * 4,
    y + (530 - y) / sqrt ((1150 - x) * (1150 - x) + (530 - y) * (530 - y)) * 4),
    ?_, ?_, ?_, ?_, ?_⟩
  · unfold scrapStep
    simp only [e]
    rw [if_pos h]
  · simp only
    field_simp
    ring
  · simp only
    field_simp
    ring
  · have : 4 / sqrt ((1150 - x) * (1150 - x) + (530 - y) * (530 - y)) < 4 / 5 :=
      div_lt_div_of_pos_left (by norm_num) (by norm_num) h
    linarith
  · have : 0 < 4 / sqrt ((1150 - x) * (1150 - x) + (530 - y) * (530 - y)) :=
      div_pos (by norm_num) hs0
    linarith

/-- C12: in real arithmetic, with `Math.sqrt` the real square root, a scrapping object at
real distance `d > 5` from the sink (1150, 530) is moved by one frame along the unit vector
toward the sink by exactly 4: its displacement has length 4, its offset to the sink shrinks
by the positive factor `(d - 4) / d`, and its new distance is `d - 4 > 1`. After `j` frames
it is at distance `d - 4 j`, which exceeds 5 for every `j < ceil((d - 5) / 4)`; it moves for
exactly `ceil((d - 5) / 4)` frames and the next frame removes it. The function `scrapStep`
is the `scrapping` branch of the inspection-belt callback, which returns what `scrapStep`
returns on the coordinates of its object and queues the scrap-bin updater exactly when
`scrapStep` removes the object. Whatever value `s > 5` the callback gets from `Math.sqrt`,
it moves the object along its offset to the sink without passing the sink: the new offset is
the old one times `1 - 4 / s`, a factor between `1 / 5` and `1`. -/
theorem scrap_stepping (x y d : ℝ)
    (hdef : d = Real.sqrt ((1150 - x) * (1150 - x) + (530 - y) * (530 - y)))
    (hd : 5 < d) :
    (∃ p : ℝ × ℝ, scrapStep Real.sqrt x y = some p ∧
      p.1 - x = (1150 - x) / d * 4 ∧ p.2 - y = (530 - y) / d * 4 ∧
      Real.sqrt ((p.1 - x) * (p.1 - x) + (p.2 - y) * (p.2 - y)) = 4 ∧
      1150 - p.1 = (1150 - x) * ((d - 4) / d) ∧
      530 - p.2 = (530 - y) * ((d - 4) / d) ∧ 0 < (d - 4) / d ∧
      Real.sqrt ((1150 - p.1) * (1150 - p.1) + (530 - p.2) * (530 - p.2)) = d - 4 ∧
      1 < d - 4) ∧
    (∀ j : ℕ, j ≤ ⌈(d - 5) / 4⌉.toNat →
      scrapRun Real.sqrt j (x, y) = some (towardSink x y d j) ∧
      Real.sqrt ((1150 - (towardSink x y d j).1) * (1150 - (towardSink x y d j).1)
        + (530 - (towardSink x y d j).2) * (530 - (towardSink x y d j).2))
        = d - 4 * (j : ℝ)) ∧
    (∀ j : ℕ, j < ⌈(d - 5) / 4⌉.toNat → 5 < d - 4 * (j : ℝ)) ∧
    d - 4 * (⌈(d - 5) / 4⌉.toNat : ℝ) ≤ 5 ∧
    scrapRun Real.sqrt (⌈(d - 5) / 4⌉.toNat + 1) (x, y) = none ∧
    (∀ (sqrt : ℚ → ℚ) (now : Int) (obj : Item), obj.state = ItemState.scrapping →
      (updateInspectionObj sqrt now obj).kept
        = (scrapStep sqrt obj.x obj.y).map (fun p => { obj with x := p.1, y := p.2 }) ∧
      (updateInspectionObj sqrt now obj).toMain = none ∧
      (updateInspectionObj sqrt now obj).statsUpdates
        = (if (scrapStep sqrt obj.x obj.y).isSome then [] else [StatsUpdate.scrapArrival])) ∧
    (∀ (sqrt : ℚ → ℚ) (a b : ℚ),
      5 < sqrt ((1150 - a) * (1150 - a) + (530 - b) * (530 - b)) →
      ∃ p : ℚ × ℚ, scrapStep sqrt a b = some p ∧
        1150 - p.1 = (1150 - a)
          * (1 - 4 / sqrt ((1150 - a) * (1150 - a) + (530 - b) * (530 - b))) ∧
        530 - p.2 = (530 - b)
          * (1 - 4 / sqrt ((1150 - a) * (1150 - a) + (530 - b) * (530 - b))) ∧
        1 / 5 < 1 - 4 / sqrt ((1150 - a) * (1150 - a) + (530 - b) * (530 - b)) ∧
        1 - 4 / sqrt ((1150 - a) * (1150 - a) + (530 - b) * (530 - b)) < 1) := by
  have hd0 : 0 < d := by linarith
  have hd' : d ≠ 0 := ne_of_gt hd0
  have hnn : 0 ≤ (1150 - x) * (1150 - x) + (530 - y) * (530 - y) :=
    add_nonneg (mul_self_nonneg _) (mul_self_nonneg _)
  have hv : (1150 - x) * (1150 - x) + (530 - y) * (530 - y) = d * d := by
    rw [hdef]
    exact (Real.mul_self_sqrt hnn).symm
  obtain ⟨hrun, ⟨hk0, hk⟩, _, hlast⟩ :=
    scrapRun_towardSink Real.sqrt real_sqrt_exact x y d hd hv
  have hdistj : ∀ j : ℕ, 0 ≤ d - 4 * (j : ℝ) →
      Real.sqrt ((1150 - (towardSink x y d j).1) * (1150 - (towardSink x y d j).1)
        + (530 - (towardSink x y d j).2) * (530 - (towardSink x y d j).2))
        = d - 4 * (j : ℝ) := by
    intro j h0
    rw [towardSink_dist x y d j hd0 hv]
    exact Real.sqrt_mul_self h0
  refine ⟨?_, ?_, fun j hj => (lt_ceilTicks_iff d hd j).mp hj, hk, hlast,
    updateInspectionObj_scrapStep, fun sqrt a b h => scrapStep_any_sqrt sqrt a b h⟩
  · have hstep := (scrapStep_towardSink Real.sqrt real_sqrt_exact x y d 0 hd0 hv
      (by simpa using hd0.le)).1 (by simpa using hd)
    rw [towardSink_zero] at hstep
    have h1 := hdistj 1 (by norm_num; linarith)
    refine ⟨towardSink x y d (0 + 1), hstep, ?_, ?_, ?_, ?_, ?_, div_pos (by linarith) hd0,
      ?_, by linarith⟩
    · simp [towardSink]
    · simp [towardSink]
    · have e : ((towardSink x y d (0 + 1)).1 - x) * ((towardSink x y d (0 + 1)).1 - x)
          + ((towardSink x y d (0 + 1)).2 - y) * ((towardSink x y d (0 + 1)).2 - y)
          = 4 * 4 := by
        have : ((towardSink x y d (0 + 1)).1 - x) * ((towardSink x y d (0 + 1)).1 - x)
            + ((towardSink x y d (0 + 1)).2 - y) * ((towardSink x y d (0 + 1)).2 - y)
            = ((1150 - x) * (1150 - x) + (530 - y) * (530 - y)) * (16 / (d * d)) := by
          simp only [towardSink]
          push_cast
          field_simp
          ring
        rw [this, hv]
        field_simp
        ring
      rw [e]
      exact Real.sqrt_mul_self (by norm_num)
    · simp only [towardSink]
      push_cast
      field_simp
      ring
    · simp only [towardSink]
      push_cast
      field_simp
      ring
    · have e : ((0 + 1 : ℕ) : ℝ) = 1 := by norm_num
      have h1' := h1
      simp only [Nat.cast_one, mul_one] at h1'
      simpa using h1'
  · intro j hj
    refine ⟨hrun j hj, hdistj j ?_⟩
    rcases Nat.lt_or_ge j ⌈(d - 5) / 4⌉.toNat with hlt | hge
    · have := (lt_ceilTicks_iff d hd j).mp hlt
      linarith
    · have : j = ⌈(d - 5) / 4⌉.toNat := le_antisymm hj hge
      rw [this]
      exact hk0

theorem scrap_stepping_witness :
    (5 : ℝ) < Real.sqrt ((1150 - 3321 / 5) * (1150 - 3321 / 5) + (530 - 400) * (530 - 400)) ∧
    ⌈(Real.sqrt ((1150 - 3321 / 5) * (1150 - 3321 / 5) + (530 - 400) * (530 - 400)) - 5)
      / 4⌉.toNat = 125 ∧
    scrapRun Real.sqrt
      (⌈(Real.sqrt ((1150 - 3321 / 5) * (1150 - 3321 / 5) + (530 - 400) * (530 - 400)) - 5)
        / 4⌉.toNat + 1) ((3321 / 5 : ℝ), (400 : ℝ)) = none := by
  have h1 : (501 : ℝ) <
      Real.sqrt ((1150 - 3321 / 5) * (1150 - 3321 / 5) + (530 - 400) * (530 - 400)) := by
    rw [Real.lt_sqrt (by norm_num)]
    norm_num
  have h2 : Real.sqrt ((1150 - 3321 / 5) * (1150 - 3321 / 5) + (530 - 400) * (530 - 400))
      ≤ (505 : ℝ) := by
    rw [Real.sqrt_le_iff]
    constructor <;> norm_num
  have hc : ⌈(Real.sqrt ((1150 - 3321 / 5) * (1150 - 3321 / 5) + (530 - 400) * (530 - 400)) - 5)
      / 4⌉ = 125 := by
    rw [Int.ceil_eq_iff]
    constructor
    · push_cast
      linarith
    · push_cast
      linarith
  refine ⟨by linarith, by rw [hc]; rfl, ?_⟩
  exact (scrap_stepping (3321 / 5) 400 _ rfl (by linarith)).2.2.2.2.1

theorem reachable_runFrames (sqrt : ℚ → ℚ) (frs : Nat → Frame) (k : Nat) (s : SimState)
    (hs : Reachable sqrt s) : Reachable sqrt (runFrames sqrt frs k s) := by
  induction k with
  | zero => exact hs
  | succ k ih =>
    rw [runFrames, animate]
    split_ifs
    · exact Reachable.tick _ ih
    · exact ih

theorem spawn_on_empty (d : SpawnDraws) (s : SimState) (st : Stats) (log : List String)
    (h : BeltsEmpty s st log) :
    MovingAt (spawnRecyclable d).1 (spawnRecyclable d).1.contaminated 0 st
      (logMessages (spawnStep d s)) (spawnStep d s) := by
  obtain ⟨hr, hm, hi, hst, _⟩ := h
  obtain ⟨hx, hy, hmv⟩ := spawn_position d
  refine ⟨(spawnRecyclable d).1, ⟨hr, ?_, hi, hst, rfl⟩, ⟨rfl, rfl, rfl, rfl, rfl, rfl⟩,
    hmv, rfl, hx, hy⟩
  simp [spawnStep, hm]

theorem run_moving_from (sqrt : ℚ → ℚ) (frs : Nat → Frame) (s0 : SimState) (o0 : Item)
    (c : Bool) (st : Stats) (log : List String) (hv : o0.velocity = 6 / 5)
    (h0 : MovingAt o0 c 0 st log s0) (B : Nat)
    (hB : (c = false ∧ B ≤ 1166) ∨ B ≤ 501) (k : Nat) (hk : k ≤ B) :
    MovingAt o0 c (6 / 5 * (k : ℚ)) st log (runFrames sqrt frs k s0) := by
  apply runFrames_phase sqrt frs s0
    (fun k s => MovingAt o0 c (6 / 5 * (k : ℚ)) st log s) 0 B _ _ k (Nat.zero_le k) hk
  · simpa [runFrames] using h0
  · intro j _ hj s hs
    have e : (6 / 5 : ℚ) * ((j + 1 : ℕ) : ℚ) = 6 / 5 * (j : ℚ) + 6 / 5 := by
      push_cast
      ring
    simp only [e]
    rcases hB with ⟨hc, hB⟩ | hB
    · have hj' : (j : ℚ) ≤ 1165 := by exact_mod_cast (show j ≤ 1165 by omega)
      exact step_moving sqrt (frs j) o0 c _ st log s hv hs (Or.inl hc) (by linarith)
    · have hj' : (j : ℚ) ≤ 500 := by exact_mod_cast (show j ≤ 500 by omega)
      exact step_moving sqrt (frs j) o0 c _ st log s hv hs (Or.inr (Or.inl (by linarith)))
        (by linarith)

theorem cycle_exit (sqrt : ℚ → ℚ) (frs : Nat → Frame) (s0 : SimState) (o0 : Item)
    (st : Stats) (log : List String) (hv : o0.velocity = 6 / 5)
    (h0 : MovingAt o0 false 0 st log s0) :
    MovingAt o0 false (6996 / 5) st log (runFrames sqrt frs 1166 s0) ∧
    BeltsEmpty (runFrames sqrt frs 1167 s0) (StatsUpdate.exit.apply st) log := by
  have h := run_moving_from sqrt frs s0 o0 false st log hv h0 1166 (Or.inl ⟨rfl, le_refl _⟩)
    1166 (le_refl _)
  have e : (6 / 5 : ℚ) * ((1166 : ℕ) : ℚ) = 6996 / 5 := by norm_num
  rw [e] at h
  exact ⟨h, step_exit sqrt (frs 1166) o0 _ st log _ hv h (by norm_num)⟩

theorem run_diverting_from (sqrt : ℚ → ℚ) (frs : Nat → Frame) (s0 : SimState) (o0 : Item)
    (st : Stats) (log : List String) (hv : o0.velocity = 6 / 5)
    (h0 : MovingAt o0 true 0 st log s0) (k : Nat) (hk1 : 502 ≤ k) (hk2 : k ≤ 563) :
    DivertingAt o0 (3006 / 5 + ((k : ℚ) - 501)) (150 + 4 * ((k : ℚ) - 501)) st
      (pushMessages [divertMessage o0.name] log) (runFrames sqrt frs k s0) := by
  apply runFrames_phase sqrt frs s0
    (fun k s => DivertingAt o0 (3006 / 5 + ((k : ℚ) - 501)) (150 + 4 * ((k : ℚ) - 501)) st
      (pushMessages [divertMessage o0.name] log) s) 502 563 _ _ k hk1 hk2
  · have h := step_divert sqrt (frs 501) o0 _ st log _
      (run_moving_from sqrt frs s0 o0 true st log hv h0 501 (Or.inr (le_refl _)) 501
        (le_refl _)) (by norm_num) (by norm_num)
    have e1 : (6 / 5 : ℚ) * ((501 : ℕ) : ℚ) + 1 = 3006 / 5 + (((502 : ℕ) : ℚ) - 501) := by
      norm_num
    have e2 : (154 : ℚ) = 150 + 4 * (((502 : ℕ) : ℚ) - 501) := by norm_num
    rw [e1, e2] at h
    exact h
  · intro j hj1 hj2 s hs
    have hj' : (j : ℚ) ≤ 562 := by exact_mod_cast Nat.le_of_lt_succ hj2
    have := step_diverting sqrt (frs j) o0 _ _ st _ s hs (by linarith)
    have e1 : (3006 / 5 : ℚ) + (((j + 1 : ℕ) : ℚ) - 501) = 3006 / 5 + ((j : ℚ) - 501) + 1 := by
      push_cast
      ring
    have e2 : (150 : ℚ) + 4 * (((j + 1 : ℕ) : ℚ) - 501) = 150 + 4 * ((j : ℚ) - 501) + 4 := by
      push_cast
      ring
    simp only [e1, e2]
    exact this

theorem cycle_scrap (sqrt : ℚ → ℚ) (hb : SqrtBounded sqrt) (frs : Nat → Frame)
    (s0 : SimState) (o0 : Item) (st : Stats) (log : List String) (hv : o0.velocity = 6 / 5)
    (hcl : o0.canBeCleaned ≠ some true) (h0 : MovingAt o0 true 0 st log s0)
    (hdone : (frs 564).inspNow 0 - (frs 563).mainNow 0 > 3000) :
    ∃ j log1 x y, j ≤ 252 ∧
      ScrappingAt o0 x y (StatsUpdate.scrapped.apply st) log1
        (runFrames sqrt frs (565 + j) s0) ∧
      sinkDistance sqrt x y ≤ 5 ∧
      BeltsEmpty (runFrames sqrt frs (565 + j + 1) s0)
        (StatsUpdate.scrapArrival.apply (StatsUpdate.scrapped.apply st)) log1 := by
  have hd := run_diverting_from sqrt frs s0 o0 st log hv h0 563 (by norm_num) (le_refl _)
  have hi := step_handoff sqrt (frs 563) o0 _ _ st _ _ hd (by norm_num)
  have hs := step_scrapped sqrt (frs 564) o0 _ _ st _ _ hcl hi hdone
  have e1 : (3006 / 5 : ℚ) + (((563 : ℕ) : ℚ) - 501) + 1 = 1150 - 1 * (2429 / 5) := by norm_num
  have e2 : (400 : ℚ) = 530 - 1 * 130 := by norm_num
  rw [e1, e2] at hs
  obtain ⟨j, hj, hall, hfin⟩ := scrapping_terminates sqrt hb frs s0 o0
    (StatsUpdate.scrapped.apply st) _ (2429 / 5) 130 503 (by norm_num) (by norm_num) 252 565 1
    (by norm_num) (by norm_num) hs
  obtain ⟨x, y, hxy, _, hle⟩ := hall j (le_refl _)
  exact ⟨j, _, x, y, hj, hxy, hle rfl, hfin⟩

theorem reach_exit (sqrt : ℚ → ℚ) (st : Stats)
    (h : ∃ s, Reachable sqrt s ∧ ∃ log, BeltsEmpty s st log) :
    (∃ s, Reachable sqrt s ∧ ∃ log, BeltsEmpty s (StatsUpdate.exit.apply st) log) ∧
    (∃ s, Reachable sqrt s ∧
      ∃ log, MovingAt (spawnRecyclable drawsClean).1 false (6996 / 5) st log s) := by
  obtain ⟨s, hs, log, he⟩ := h
  have hm := spawn_on_empty drawsClean s st log he
  have hc : (spawnRecyclable drawsClean).1.contaminated = false := by decide!
  rw [hc] at hm
  obtain ⟨h1, h2⟩ := cycle_exit sqrt (fun _ => constFrame 0) (spawnStep drawsClean s) _ st _
    (spawn_velocity drawsClean) hm
  have hr : ∀ k, Reachable sqrt
      (runFrames sqrt (fun _ => constFrame 0) k (spawnStep drawsClean s)) :=
    fun k => reachable_runFrames sqrt _ k _ (Reachable.spawn drawsClean hs)
  exact ⟨⟨_, hr 1167, _, h2⟩, ⟨_, hr 1166, _, h1⟩⟩

theorem reach_scrap (sqrt : ℚ → ℚ) (hb : SqrtBounded sqrt) (st : Stats)
    (h : ∃ s, Reachable sqrt s ∧ ∃ log, BeltsEmpty s st log) :
    (∃ s, Reachable sqrt s ∧
      ∃ log, BeltsEmpty s (StatsUpdate.scrapArrival.apply (StatsUpdate.scrapped.apply st)) log) ∧
    (∃ s, Reachable sqrt s ∧
      ∃ log x y, ScrappingAt (spawnRecyclable drawsScrap).1 x y (StatsUpdate.scrapped.apply st)
        log s ∧ sinkDistance sqrt x y ≤ 5) := by
  obtain ⟨s, hs, log, he⟩ := h
  have hm := spawn_on_empty drawsScrap s st log he
  have hc : (spawnRecyclable drawsScrap).1.contaminated = true := by decide!
  have hcl : (spawnRecyclable drawsScrap).1.canBeCleaned ≠ some true := by decide!
  rw [hc] at hm
  obtain ⟨j, log1, x, y, _, hsc, hdist, hfin⟩ := cycle_scrap sqrt hb scanFrames
    (spawnStep drawsScrap s) _ st _ (spawn_velocity drawsScrap) hcl hm (by decide)
  have hr : ∀ k, Reachable sqrt (runFrames sqrt scanFrames k (spawnStep drawsScrap s)) :=
    fun k => reachable_runFrames sqrt _ k _ (Reachable.spawn drawsScrap hs)
  exact ⟨⟨_, hr _, _, hfin⟩, ⟨_, hr (565 + j), _, x, y, hsc, hdist⟩⟩

theorem reach_cycles (sqrt : ℚ → ℚ) (hb : SqrtBounded sqrt) (n m : Nat) :
    ∃ s, Reachable sqrt s ∧
      ∃ log, BeltsEmpty s (exitCycles m (scrapCycles n initialStats)) log := by
  induction m with
  | zero =>
    induction n with
    | zero =>
      exact ⟨handleStart 0 initialState, Reachable.start 0 Reachable.init, _,
        ⟨rfl, rfl, rfl, rfl, rfl⟩⟩
    | succ n ih => exact (reach_scrap sqrt hb _ ih).1
  | succ m ih => exact (reach_exit sqrt _ ih).1

set_option maxRecDepth 100000 in
theorem exitCycles_23_17 :
    exitCycles 23 (scrapCycles 17 initialStats) =
      { totalProcessed := 40, diverted := 17, cleaned := 0, scrapped := 17, recovered := 23,
        recoveryPercentage := 57 } := by decide!

set_option maxRecDepth 100000 in
theorem exitCycles_22_17 :
    exitCycles 22 (scrapCycles 17 initialStats) =
      { totalProcessed := 39, diverted := 17, cleaned := 0, scrapped := 17, recovered := 22,
        recoveryPercentage := 56 } := by decide!

set_option maxRecDepth 100000 in
theorem exitCycles_23_16 :
    exitCycles 23 (scrapCycles 16 initialStats) =
      { totalProcessed := 39, diverted := 16, cleaned := 0, scrapped := 16, recovered := 23,
        recoveryPercentage := 59 } := by decide!

theorem animate_eq_tick (sqrt : ℚ → ℚ) (fr : Frame) (s : SimState)
    (h : s.isRunningRef = true) : animate sqrt fr s = tick sqrt fr s := by
  rw [animate, if_pos h]

/-- C3, as stated, fails: after 17 items were scrapped and 23 clean items left at the exit,
`recovered = 23` and `totalProcessed = 40`; the double quotient `23 / 40` times 100 is
`57.49999999999999`, so the code stores 57, while `100 * 23 / 40 = 57.5` rounded half up
is 58. -/
theorem recovery_rate_rounds_half_down :
    ∃ s, Reachable ratSqrt s ∧ s.stats.recovered = 23 ∧ s.stats.totalProcessed = 40 ∧
      s.stats.recoveryPercentage = 57 ∧
      ⌊100 * (s.stats.recovered : ℚ) / (s.stats.totalProcessed : ℚ) + 1 / 2⌋ = 58 ∧
      jsMul (jsDiv 23 40) 100 = 8092405580431359 / 140737488355328 ∧
      (8092405580431359 / 140737488355328 : ℚ) < 575 / 10 := by
  obtain ⟨s, hs, log, he⟩ := reach_cycles ratSqrt ratSqrt_bounded 17 23
  have hst := he.2.2.2.1
  rw [exitCycles_23_17] at hst
  refine ⟨s, hs, ?_, ?_, ?_, ?_, by decide!, by norm_num⟩
  · rw [hst]
  · rw [hst]
  · rw [hst]
  · rw [hst]
    norm_num

/-- C7, as stated, fails on the percentage: a clean item leaves at the exit of a reachable
state with `recovered = 22` and `totalProcessed = 39`; the frame removes it and stores
`recovered = 23`, `totalProcessed = 40` and `recoveryPercentage = 57`, while
`100 * (22 + 1) / (39 + 1) = 57.5` rounds to 58. The same happens for the bottle at
`x = 1399.2` with these stats. -/
theorem exit_percentage_rounds_half_down :
    (∃ s obj, Reachable ratSqrt s ∧ s.mainBeltObjects = [obj] ∧
      obj.state = ItemState.moving ∧ obj.contaminated = false ∧
      obj.x + obj.velocity > 1400 ∧
      s.stats.recovered = 22 ∧ s.stats.totalProcessed = 39 ∧
      (tick ratSqrt (constFrame 0) s).mainBeltObjects = [] ∧
      (tick ratSqrt (constFrame 0) s).stats.recovered = 23 ∧
      (tick ratSqrt (constFrame 0) s).stats.totalProcessed = 40 ∧
      (tick ratSqrt (constFrame 0) s).stats.recoveryPercentage = 57) ∧
    (exitItem.x + exitItem.velocity > 1400 ∧
      (updateMainObj 0 randZero exitItem).kept = none ∧
      (updateMainObj 0 randZero exitItem).statsUpdates = [StatsUpdate.exit] ∧
      (StatsUpdate.exit.apply
        { totalProcessed := 39, diverted := 17, cleaned := 0, scrapped := 17, recovered := 22,
          recoveryPercentage := 56 }).recoveryPercentage = 57) ∧
    ⌊100 * ((22 : ℚ) + 1) / (39 + 1) + 1 / 2⌋ = 58 := by
  refine ⟨?_, ⟨by decide!, by decide!, by decide!, by decide!⟩, by norm_num⟩
  obtain ⟨s, hs, log, hm⟩ :=
    (reach_exit ratSqrt _ (reach_cycles ratSqrt ratSqrt_bounded 17 22)).2
  have hfin := step_exit ratSqrt (constFrame 0) _ _ _ log s (spawn_velocity drawsClean) hm
    (by norm_num)
  obtain ⟨o, hsolo, htr, hst, hoc, hox, _⟩ := hm
  have hov : o.velocity = 6 / 5 := htr.2.2.2.1.trans (spawn_velocity drawsClean)
  rw [animate_eq_tick _ _ _ hsolo.1] at hfin
  have h1 := hsolo.2.2.2.1
  have h2 := hfin.2.2.2.1
  rw [exitCycles_22_17] at h1 h2
  have e : StatsUpdate.exit.apply
      { totalProcessed := 39, diverted := 17, cleaned := 0, scrapped := 17, recovered := 22,
        recoveryPercentage := 56 } =
      { totalProcessed := 40, diverted := 17, cleaned := 0, scrapped := 17, recovered := 23,
        recoveryPercentage := 57 } := by decide!
  rw [e] at h2
  refine ⟨s, o, hs, hsolo.2.1, hst, hoc, ?_, ?_, ?_, hfin.2.1, ?_, ?_, ?_⟩
  · rw [hox, hov]
    norm_num
  · rw [h1]
  · rw [h1]
  · rw [h2]
  · rw [h2]
  · rw [h2]

/-- C11, as stated, fails on the percentage: a scrapping item reaches the sink in a
reachable state with `recovered = 23` and `totalProcessed = 39`; the frame removes it and
stores `totalProcessed = 40` and `recoveryPercentage = 57`, while `100 * 23 / (39 + 1) = 57.5`
rounds to 58. The same happens for the item at `(1147, 526)`, at distance exactly 5. -/
theorem scrap_percentage_rounds_half_down :
    (∃ s obj, Reachable ratSqrt s ∧ s.inspectionBeltObjects = [obj] ∧
      obj.state = ItemState.scrapping ∧
      ratSqrt ((1150 - obj.x) * (1150 - obj.x) + (530 - obj.y) * (530 - obj.y)) ≤ 5 ∧
      s.stats.recovered = 23 ∧ s.stats.totalProcessed = 39 ∧
      (tick ratSqrt (constFrame 0) s).inspectionBeltObjects = [] ∧
      (tick ratSqrt (constFrame 0) s).stats.recovered = 23 ∧
      (tick ratSqrt (constFrame 0) s).stats.totalProcessed = 40 ∧
      (tick ratSqrt (constFrame 0) s).stats.recoveryPercentage = 57) ∧
    ((1150 - nearSinkItem.x) * (1150 - nearSinkItem.x)
        + (530 - nearSinkItem.y) * (530 - nearSinkItem.y) = 5 * 5 ∧
      (updateInspectionObj ratSqrt 0 nearSinkItem).kept = none ∧
      (updateInspectionObj ratSqrt 0 nearSinkItem).statsUpdates = [StatsUpdate.scrapArrival] ∧
      (StatsUpdate.scrapArrival.apply
        { totalProcessed := 39, diverted := 17, cleaned := 0, scrapped := 17, recovered := 23,
          recoveryPercentage := 59 }).recoveryPercentage = 57) ∧
    ⌊100 * (23 : ℚ) / (39 + 1) + 1 / 2⌋ = 58 := by
  refine ⟨?_, ⟨by decide!, by decide!, by decide!, by decide!⟩, by norm_num⟩
  obtain ⟨s, hs, log, x, y, hsc, hdist⟩ :=
    (reach_scrap ratSqrt ratSqrt_bounded _ (reach_cycles ratSqrt ratSqrt_bounded 16 23)).2
  have hfin := step_scrap_arrive ratSqrt (constFrame 0) _ x y _ log s hsc hdist
  obtain ⟨o, hsolo, _, hst, _, hox, hoy⟩ := hsc
  rw [animate_eq_tick _ _ _ hsolo.1] at hfin
  have h1 := hsolo.2.2.2.1
  have h2 := hfin.2.2.2.1
  rw [exitCycles_23_16] at h1 h2
  have e1 : StatsUpdate.scrapped.apply
      { totalProcessed := 39, diverted := 16, cleaned := 0, scrapped := 16, recovered := 23,
        recoveryPercentage := 59 } =
      { totalProcessed := 39, diverted := 17, cleaned := 0, scrapped := 17, recovered := 23,
        recoveryPercentage := 59 } := by decide!
  rw [e1] at h1 h2
  have e2 : StatsUpdate.scrapArrival.apply
      { totalProcessed := 39, diverted := 17, cleaned := 0, scrapped := 17, recovered := 23,
        recoveryPercentage := 59 } =
      { totalProcessed := 40, diverted := 17, cleaned := 0, scrapped := 17, recovered := 23,
        recoveryPercentage := 57 } := by decide!
  rw [e2] at h2
  refine ⟨s, o, hs, hsolo.2.2.1, hst, ?_, ?_, ?_, hfin.2.2.1, ?_, ?_, ?_⟩
  · rw [hox, hoy]
    exact hdist
  · rw [h1]
  · rw [h1]
  · rw [h2]
  · rw [h2]
  · rw [h2]

end WasteWise
